import Mathlib

/-!
# BWidgets: the image based dial and slider, the radial meter, the fill and the dictionary

A shallow embedding of the event handlers and full constructors of
`BWidgets/ImageDial.hpp` and `BWidgets/ImageVSlider.hpp`, of the
constructors, `clone`, `copy`, `getHiColors`, `setHiColors` and `draw` of
`BWidgets/RadialMeter.hpp`, of class `Fill` of `BStyles/Types/Fill.hpp` and of
class `Dictionary` of `BUtilities/Dictionary.cpp`.

Modelling conventions.

* A `double` is an element of a linearly ordered field `F` (the reals for the
  statements about `acos` and `M_PI`, the rationals for evaluation). Rounding
  of floating point arithmetic is not modelled.
* The C math library (`sqrt`, `acos`, `M_PI`) is the parameter `Libm`;
  `pow (x, 2.0)` is `x ^ 2`.
* A handler is a function from the widget and the event to the widget
  afterwards and the list of calls it made to inherited members, in the
  order of execution. The handlers of the mixins
  (`Clickable::onButtonPressed`, `Draggable::onPointerDragged`,
  `Scrollable::onWheelScrolled`) are recorded as calls and leave the members
  of the widget as they are.
* The value model (`setValue`, `getRatioFromValue`, `getValueFromRatio`) is
  inherited from headers outside the embedded sources and follows the written
  specification (section 4.3).
* Class `Widget` is declared outside the embedded sources: its constructor,
  `Widget::copy` and `getFgColors` are the parameter `WidgetMembers`, and the
  constructors of the base classes `ImageRadialMeter` and `ImageVMeter` are a
  parameter of the constructors of the dial and the slider. The style store
  follows the written specification (sections 3 and 4.2).
* A drawing function is a function to the list of operations it performs, in
  the order of execution.
* A Cairo surface is named by its address and a pointer to a surface is an
  `Option Nat`; the Cairo functions on surfaces are the parameter
  `CairoSurfaces`. Calls of `cairo_surface_destroy` are not recorded.
* A `std::string` is a `String` and a `std::map` with string keys is the list
  of its entries in ascending key order (`SMap`). The static members of
  `Dictionary` are the fields of a state that each member function takes and
  returns; the mutex is not modelled.
-/

namespace BWidgets

/-- The type `BUtilities::Point<>`. -/
structure Point (F : Type) where
  x : F
  y : F

/-- The members of the C math library used by the handlers. -/
structure Libm (F : Type) where
  sqrt : F → F
  acos : F → F
  pi : F

/-- The class `BEvents::Event` with the two subclasses the handlers cast to. Any other
event kind is `other`. -/
inductive Event (F : Type) where
  | pointer (position : Point F) (delta : Point F)
  | wheel (position : Point F) (delta : Point F)
  | other

/-- Calls a handler makes to inherited member functions. -/
inductive Call (F : Type) where
  | getRatioFromValue (v : F)
  | getValueFromRatio (ratio : F)
  | setValue (v : F)
  | clickableOnButtonPressed
  | draggableOnPointerDragged
  | scrollableOnWheelScrolled

/-- Whether a call is a `setValue` call. -/
def Call.isSetValue {F : Type} : Call F → Bool
  | .setValue _ => true
  | _ => false

/-- The base classes `ValueableTyped<double>`, `ValidatableRange<double>` and
`ValueTransferable<double>`: the state behind `getValue`, `getMin`, `getMax`,
`getStep` and the two transfer functions. -/
structure Valueable (F : Type) where
  value : F
  min : F
  max : F
  step : F
  transfer : F → F
  reTransfer : F → F

section ValueModel

variable {F : Type} [LinearOrderedField F] [FloorRing F]

/-- Modelled from the spec: `Valueable::setValue` is declared in headers
outside the embedded sources. "`setValue(v)` clamps `v` to `[min, max]`, then
if `step != 0` snaps to the nearest multiple of `|step|` from `min`, then
stores." -/
def Valueable.setValue (s : Valueable F) (v : F) : Valueable F :=
  let c := Max.max s.min (Min.min v s.max)
  let c := if s.step ≠ 0 then s.min + (round ((c - s.min) / |s.step|) : F) * |s.step| else c
  { s with value := c }

/-- Modelled from the spec: `getRatioFromValue` is declared in headers outside
the embedded sources. "`getRatioFromValue(v)` computes
`(transferOut(v) - transferOut(min)) / (transferOut(max) - transferOut(min))`,
clamped to `[0,1]`", with `transfer` in the role of `transferOut`. -/
def Valueable.getRatioFromValue (s : Valueable F) (v : F) : F :=
  Max.max 0 (Min.min ((s.transfer v - s.transfer s.min) / (s.transfer s.max - s.transfer s.min)) 1)

/-- Modelled from the spec: `getValueFromRatio` is declared in headers outside
the embedded sources. "`getValueFromRatio(r)` is its inverse composed with
`transferIn`", with `reTransfer` in the role of `transferIn`. -/
def Valueable.getValueFromRatio (s : Valueable F) (ratio : F) : F :=
  s.reTransfer (s.transfer s.min + ratio * (s.transfer s.max - s.transfer s.min))

end ValueModel

/-- The class `ImageDial` (derived from `ImageRadialMeter`, `Clickable`, `Draggable`,
`Scrollable`): the members read by the handlers. `staticImageWidth` and
`staticImageHeight` are what `cairo_image_surface_get_width` and
`cairo_image_surface_get_height` return for `staticImageSurface_`. -/
structure ImageDial (F : Type) extends Valueable F where
  xOffset : F
  yOffset : F
  effectiveWidth : F
  effectiveHeight : F
  staticImageWidth : Int
  staticImageHeight : Int
  staticAnchor : Point F
  staticMinAngle : F
  staticMaxAngle : F
  clickable : Bool

/-- The class `ImageVSlider` (derived from `ImageVMeter`, `Clickable`, `Draggable`,
`Scrollable`): the members read by the handlers. -/
structure ImageVSlider (F : Type) extends Valueable F where
  xOffset : F
  yOffset : F
  effectiveWidth : F
  effectiveHeight : F
  staticImageWidth : Int
  staticImageHeight : Int
  staticAnchors : Point F × Point F
  clickable : Bool

section Handlers

variable {F : Type} [LinearOrderedField F] [FloorRing F]

/-- The call `setValue` on an `ImageDial`: only the inherited value changes. -/
def ImageDial.setValue (d : ImageDial F) (v : F) : ImageDial F :=
  { d with toValueable := d.toValueable.setValue v }

/-- The call `setValue` on an `ImageVSlider`: only the inherited value changes. -/
def ImageVSlider.setValue (d : ImageVSlider F) (v : F) : ImageVSlider F :=
  { d with toValueable := d.toValueable.setValue v }

/-- From `ImageDial.hpp` line 285: the scale factor `szs` of the static image. -/
def ImageDial.szs (d : ImageDial F) : F :=
  let w := d.effectiveWidth
  let h := d.effectiveHeight
  let ws : F := (d.staticImageWidth : F)
  let hs : F := (d.staticImageHeight : F)
  if w / ws < h / hs then w / ws else h / hs

/-- From `ImageDial.hpp` line 286: the x coordinate `xc` of the centre of rotation. -/
def ImageDial.xc (d : ImageDial F) : F :=
  d.xOffset + (1 / 2) * d.effectiveWidth - (1 / 2) * (d.staticImageWidth : F) * d.szs
    + d.staticAnchor.x * d.szs

/-- From `ImageDial.hpp` line 287: the y coordinate `yc` of the centre of rotation. -/
def ImageDial.yc (d : ImageDial F) : F :=
  d.yOffset + (1 / 2) * d.effectiveHeight - (1 / 2) * (d.staticImageHeight : F) * d.szs
    + d.staticAnchor.y * d.szs

/-- From `ImageDial.hpp` line 288: the distance `r` of the pointer from the centre. -/
def ImageDial.radius (m : Libm F) (d : ImageDial F) (p : Point F) : F :=
  m.sqrt ((p.x - d.xc) ^ 2 + (p.y - d.yc) ^ 2)

/-- From `ImageDial.hpp` line 291: the angle of the pointer about the centre. -/
def ImageDial.pressAngle (m : Libm F) (d : ImageDial F) (p : Point F) : F :=
  if p.y < d.yc then 2 * m.pi - m.acos ((p.x - d.xc) / d.radius m p)
  else m.acos ((p.x - d.xc) / d.radius m p)

/-- From `ImageDial.hpp` lines 292 and 293: one step of `2π` up if the angle is
below the window, then one step of `2π` down if it is above. -/
def ImageDial.wrapAngle (m : Libm F) (d : ImageDial F) (a : F) : F :=
  let a := if a < d.staticMinAngle then a + 2 * m.pi else a
  let a := if a > d.staticMaxAngle then a - 2 * m.pi else a
  a

/-- The handler `ImageDial::onButtonPressed` (`ImageDial.hpp` lines 269 to 303). -/
def ImageDial.onButtonPressed (m : Libm F) (d : ImageDial F) (event : Event F) :
    ImageDial F × List (Call F) :=
  match event with
  | .pointer position _ =>
    let r : ImageDial F × List (Call F) :=
      if d.staticMinAngle ≠ d.staticMaxAngle then
        let w := d.effectiveWidth
        let h := d.effectiveHeight
        let ws : F := (d.staticImageWidth : F)
        let hs : F := (d.staticImageHeight : F)
        if ws ≥ 1 ∧ hs ≥ 1 ∧ w ≥ 1 ∧ h ≥ 1 then
          let r := d.radius m position
          if r ≥ 1 then
            let a := d.wrapAngle m (d.pressAngle m position)
            if a ≥ d.staticMinAngle ∧ a ≤ d.staticMaxAngle then
              let a := if d.step < 0 then d.staticMaxAngle - (a - d.staticMinAngle) else a
              let ratio := (a - d.staticMinAngle) / (d.staticMaxAngle - d.staticMinAngle)
              let v := d.getValueFromRatio ratio
              (d.setValue v, [Call.getValueFromRatio ratio, Call.setValue v])
            else (d, [])
          else (d, [])
        else (d, [])
      else (d, [])
    (r.1, r.2 ++ [Call.clickableOnButtonPressed])
  | _ => (d, [])

/-- The handler `ImageDial::onPointerDragged` (`ImageDial.hpp` lines 305 to 324). -/
def ImageDial.onPointerDragged (m : Libm F) (d : ImageDial F) (event : Event F) :
    ImageDial F × List (Call F) :=
  if d.clickable then
    let r := d.onButtonPressed m event
    (r.1, r.2 ++ [Call.draggableOnPointerDragged])
  else
    match event with
    | .pointer _ delta =>
      let w := d.effectiveWidth
      let h := d.effectiveHeight
      let r := (1 / 2) * Min.min w h
      let s : ImageDial F × List (Call F) :=
        if d.staticMinAngle ≠ d.staticMaxAngle ∧ r ≥ 1 then
          if d.step ≠ 0 then
            let v := d.value - delta.y * d.step
            (d.setValue v, [Call.setValue v])
          else
            let rho := d.getRatioFromValue d.value
            let ratio := rho - delta.y / ((d.staticMaxAngle - d.staticMinAngle) * r)
            let v := d.getValueFromRatio ratio
            (d.setValue v,
              [Call.getRatioFromValue d.value, Call.getValueFromRatio ratio, Call.setValue v])
        else (d, [])
      (s.1, s.2 ++ [Call.draggableOnPointerDragged])
    | _ => (d, [])

/-- The handler `ImageDial::onWheelScrolled` (`ImageDial.hpp` lines 326 to 342). -/
def ImageDial.onWheelScrolled (d : ImageDial F) (event : Event F) :
    ImageDial F × List (Call F) :=
  match event with
  | .wheel _ delta =>
    let w := d.effectiveWidth
    let h := d.effectiveHeight
    let r := (1 / 2) * Min.min w h
    let s : ImageDial F × List (Call F) :=
      if d.staticMinAngle ≠ d.staticMaxAngle ∧ r ≥ 1 then
        if d.step ≠ 0 then
          let v := d.value - delta.y * d.step
          (d.setValue v, [Call.setValue v])
        else
          let rho := d.getRatioFromValue d.value
          let ratio := rho - delta.y / ((d.staticMaxAngle - d.staticMinAngle) * r)
          let v := d.getValueFromRatio ratio
          (d.setValue v,
            [Call.getRatioFromValue d.value, Call.getValueFromRatio ratio, Call.setValue v])
      else (d, [])
    (s.1, s.2 ++ [Call.scrollableOnWheelScrolled])
  | _ => (d, [])

/-- From `ImageVSlider.hpp` line 279 (and 311, 334): the scale factor `szs` of the
static image. -/
def ImageVSlider.szs (d : ImageVSlider F) : F :=
  let w := d.effectiveWidth
  let h := d.effectiveHeight
  let ws : F := (d.staticImageWidth : F)
  let hs : F := (d.staticImageHeight : F)
  if w / ws < h / hs then w / ws else h / hs

/-- From `ImageVSlider.hpp` lines 272 and 280: `y0s`, computed from
`x0 = getXOffset()`. -/
def ImageVSlider.y0s (d : ImageVSlider F) : F :=
  let x0 := d.xOffset
  x0 + (1 / 2) * d.effectiveHeight - (1 / 2) * (d.staticImageHeight : F) * d.szs

/-- The handler `ImageVSlider::onButtonPressed` (`ImageVSlider.hpp` lines 265 to 293). -/
def ImageVSlider.onButtonPressed (d : ImageVSlider F) (event : Event F) :
    ImageVSlider F × List (Call F) :=
  match event with
  | .pointer position _ =>
    let r : ImageVSlider F × List (Call F) :=
      if d.staticAnchors.1.y ≠ d.staticAnchors.2.y then
        let w := d.effectiveWidth
        let h := d.effectiveHeight
        let ws : F := (d.staticImageWidth : F)
        let hs : F := (d.staticImageHeight : F)
        if ws ≥ 1 ∧ hs ≥ 1 ∧ w ≥ 1 ∧ h ≥ 1 then
          let szs := d.szs
          let y0s := d.y0s
          if d.step ≥ 0 then
            let ratio := (position.y - y0s - d.staticAnchors.1.y * szs)
              / ((d.staticAnchors.2.y - d.staticAnchors.1.y) * szs)
            let v := d.getValueFromRatio ratio
            (d.setValue v, [Call.getValueFromRatio ratio, Call.setValue v])
          else
            let ratio := 1 - (position.y - y0s - d.staticAnchors.1.y * szs)
              / ((d.staticAnchors.2.y - d.staticAnchors.1.y) * szs)
            let v := d.getValueFromRatio ratio
            (d.setValue v, [Call.getValueFromRatio ratio, Call.setValue v])
        else (d, [])
      else (d, [])
    (r.1, r.2 ++ [Call.clickableOnButtonPressed])
  | _ => (d, [])

/-- The handler `ImageVSlider::onPointerDragged` (`ImageVSlider.hpp` lines 295 to 319). -/
def ImageVSlider.onPointerDragged (d : ImageVSlider F) (event : Event F) :
    ImageVSlider F × List (Call F) :=
  if d.clickable then
    let r := d.onButtonPressed event
    (r.1, r.2 ++ [Call.draggableOnPointerDragged])
  else
    match event with
    | .pointer _ delta =>
      let s : ImageVSlider F × List (Call F) :=
        if d.staticAnchors.1.y ≠ d.staticAnchors.2.y then
          let w := d.effectiveWidth
          let h := d.effectiveHeight
          let ws : F := (d.staticImageWidth : F)
          let hs : F := (d.staticImageHeight : F)
          if ws ≥ 1 ∧ hs ≥ 1 ∧ w ≥ 1 ∧ h ≥ 1 then
            let szs := d.szs
            if d.step ≠ 0 then
              let v := d.value - delta.y * d.step
              (d.setValue v, [Call.setValue v])
            else
              let rho := d.getRatioFromValue d.value
              let ratio := rho + delta.y / ((d.staticAnchors.2.y - d.staticAnchors.1.y) * szs)
              let v := d.getValueFromRatio ratio
              (d.setValue v,
                [Call.getRatioFromValue d.value, Call.getValueFromRatio ratio, Call.setValue v])
          else (d, [])
        else (d, [])
      (s.1, s.2 ++ [Call.draggableOnPointerDragged])
    | _ => (d, [])

/-- The handler `ImageVSlider::onWheelScrolled` (`ImageVSlider.hpp` lines 321 to 342). -/
def ImageVSlider.onWheelScrolled (d : ImageVSlider F) (event : Event F) :
    ImageVSlider F × List (Call F) :=
  match event with
  | .wheel _ delta =>
    let s : ImageVSlider F × List (Call F) :=
      if d.staticAnchors.1.y ≠ d.staticAnchors.2.y then
        let w := d.effectiveWidth
        let h := d.effectiveHeight
        let ws : F := (d.staticImageWidth : F)
        let hs : F := (d.staticImageHeight : F)
        if ws ≥ 1 ∧ hs ≥ 1 ∧ w ≥ 1 ∧ h ≥ 1 then
          let szs := d.szs
          if d.step ≠ 0 then
            let v := d.value - delta.y * d.step
            (d.setValue v, [Call.setValue v])
          else
            let rho := d.getRatioFromValue d.value
            let ratio := rho + delta.y / ((d.staticAnchors.2.y - d.staticAnchors.1.y) * szs)
            let v := d.getValueFromRatio ratio
            (d.setValue v,
              [Call.getRatioFromValue d.value, Call.getValueFromRatio ratio, Call.setValue v])
        else (d, [])
      else (d, [])
    (s.1, s.2 ++ [Call.scrollableOnWheelScrolled])
  | _ => (d, [])

end Handlers

/-- A dial of effective size 100 by 100 without offset whose 100 by 100 static
image is anchored at its centre, so that the centre of rotation is `(50, 50)`;
range `[0, 1]`, value `0`, identity transfer. -/
def ImageDial.sample {F : Type} [LinearOrderedField F] (minAngle maxAngle step : F)
    (clickable : Bool) : ImageDial F :=
  { value := 0, min := 0, max := 1, step := step, transfer := id, reTransfer := id,
    xOffset := 0, yOffset := 0, effectiveWidth := 100, effectiveHeight := 100,
    staticImageWidth := 100, staticImageHeight := 100, staticAnchor := Point.mk 50 50,
    staticMinAngle := minAngle, staticMaxAngle := maxAngle, clickable := clickable }

/-- A vertical slider of effective size 100 by 100 whose 100 by 100 static
image has its min anchor at `(50, minY)` and its max anchor at `(50, maxY)`;
range `[0, 1]`, identity transfer. -/
def ImageVSlider.sample {F : Type} [LinearOrderedField F] (xOffset yOffset minY maxY : F)
    (value step : F) (clickable : Bool) : ImageVSlider F :=
  { value := value, min := 0, max := 1, step := step, transfer := id, reTransfer := id,
    xOffset := xOffset, yOffset := yOffset, effectiveWidth := 100, effectiveHeight := 100,
    staticImageWidth := 100, staticImageHeight := 100,
    staticAnchors := (Point.mk 50 minY, Point.mk 50 maxY), clickable := clickable }

/-- The ratios passed to `getValueFromRatio` in a list of calls, in order. -/
def Call.requestedRatios {F : Type} : List (Call F) → List F
  | [] => []
  | Call.getValueFromRatio ratio :: cs => ratio :: Call.requestedRatios cs
  | Call.getRatioFromValue _ :: cs => Call.requestedRatios cs
  | Call.setValue _ :: cs => Call.requestedRatios cs
  | Call.clickableOnButtonPressed :: cs => Call.requestedRatios cs
  | Call.draggableOnPointerDragged :: cs => Call.requestedRatios cs
  | Call.scrollableOnWheelScrolled :: cs => Call.requestedRatios cs

/-- The values passed to `setValue` in a list of calls, in order. -/
def Call.requestedValues {F : Type} : List (Call F) → List F
  | [] => []
  | Call.setValue v :: cs => v :: Call.requestedValues cs
  | Call.getValueFromRatio _ :: cs => Call.requestedValues cs
  | Call.getRatioFromValue _ :: cs => Call.requestedValues cs
  | Call.clickableOnButtonPressed :: cs => Call.requestedValues cs
  | Call.draggableOnPointerDragged :: cs => Call.requestedValues cs
  | Call.scrollableOnWheelScrolled :: cs => Call.requestedValues cs

/-- Whether a call is one of the handlers of the mixins
(`Clickable::onButtonPressed`, `Draggable::onPointerDragged`,
`Scrollable::onWheelScrolled`). -/
def Call.isMixinHandler {F : Type} : Call F → Bool
  | Call.clickableOnButtonPressed => true
  | Call.draggableOnPointerDragged => true
  | Call.scrollableOnWheelScrolled => true
  | _ => false

/-- Whether a call is a call of `getRatioFromValue` or `getValueFromRatio`. -/
def Call.isRatioCall {F : Type} : Call F → Bool
  | Call.getRatioFromValue _ => true
  | Call.getValueFromRatio _ => true
  | _ => false

/-- The dial with the range `[min, max]` in place of its own. -/
def ImageDial.withRange {F : Type} (d : ImageDial F) (min max : F) : ImageDial F :=
  { d with min := min, max := max }

/-- The slider with the range `[min, max]` in place of its own. -/
def ImageVSlider.withRange {F : Type} (v : ImageVSlider F) (min max : F) : ImageVSlider F :=
  { v with min := min, max := max }

/-- The type `BUtilities::Area<>`. -/
structure Area (F : Type) where
  x : F
  y : F
  width : F
  height : F

/-- The function `ValueTransferable<double>::noTransfer`, the default of the
transfer functions and of `gradient_`: the linear function
`[] (const double& x) {return x;}` (`RadialMeter.hpp` lines 70 and 193). -/
def noTransfer {F : Type} (x : F) : F := x

/-- Modelled from the spec: the content of a style entry (`BUtilities::Any`,
declared outside the embedded sources), "a typed-erased value": a colour map,
a nested style, or a value of another type. -/
inductive Any (C : Type) where
  | colorMap (colors : C)
  | style
  | other

/-- Modelled from the spec: whether a style entry is a nested style
(`Style::isStyle`, declared outside the embedded sources). -/
def Any.isStyle {C : Type} : Any C → Bool
  | Any.style => true
  | _ => false

/-- Modelled from the spec: the call `get<BStyles::ColorMap> ()` on a style entry
(`BUtilities::Any`, declared outside the embedded sources): the colour map the
entry holds; `dflt` stands for what it returns on content of another type. -/
def Any.getColorMap {C : Type} (dflt : C) : Any C → C
  | Any.colorMap colors => colors
  | _ => dflt

/-- Modelled from the spec: the style store `BStyles::Style` (declared outside
the embedded sources), a "mapping from a property identifier (opaque comparable
key, conceptually a URI/URID) to a typed-erased value". -/
def Style (C : Type) : Type := Nat → Option (Any C)

/-- Modelled from the spec: the lookup `style_.find (urid)`; `none` is
`style_.end ()`. -/
def Style.find {C : Type} (s : Style C) (urid : Nat) : Option (Any C) := s urid

/-- Modelled from the spec: the assignment `style_[urid] = entry`, which
"writes only to the local store". -/
def Style.set {C : Type} (s : Style C) (urid : Nat) (entry : Any C) : Style C :=
  fun u => if u = urid then some entry else s u

/-- The members of class `Widget` (declared outside the embedded sources) that
`RadialMeter` reads. `surface` is `none` for a null `surface_`, and otherwise
tells whether `cairo_surface_status (surface_)` is `CAIRO_STATUS_SUCCESS`.
`parentStyles` lists the style stores along the parent reference of the widget
node, the nearest ancestor first and the root last; it is empty for a widget
without a parent. -/
structure Widget (F C : Type) where
  x : F
  y : F
  width : F
  height : F
  urid : Nat
  title : String
  surface : Option Bool
  style : Style C
  parentStyles : List (Style C)

/-- The member functions of class `Widget` (declared outside the embedded
sources) that `RadialMeter` calls, as parameters: the constructor
`Widget (x, y, width, height, urid, title)`, `Widget::copy` (from the widget and
the one copied from to the widget afterwards) and `getFgColors`. -/
structure WidgetMembers (F C : Type) where
  construct : F → F → F → F → Nat → String → Widget F C
  copy : Widget F C → Widget F C → Widget F C
  getFgColors : Widget F C → C

/-- The class `RadialMeter`: the `Widget` part, the value model
(`ValueableTyped<double>`, `ValidatableRange<double>`,
`ValueTransferable<double>`), and the members `scale_` and `gradient_`. -/
structure RadialMeter (F C : Type) extends Valueable F where
  widget : Widget F C
  scale : Area F
  gradient : F → F

/-- The operations `RadialMeter::draw` performs, in order. The colour and
gradient arguments of `drawRMeter` are not recorded. -/
inductive DrawOp (F : Type) where
  | widgetDraw (area : Area F)
  | cairoCreate
  | cairoRectangle (x : F) (y : F) (width : F) (height : F)
  | cairoClip
  | getRatioFromValue (v : F)
  | drawRMeter (xc : F) (yc : F) (rad : F) (start : F) (stop : F) (drv : F)
  | cairoDestroy

/-- Whether a drawing operation is the call of `drawRMeter`. -/
def DrawOp.isDrawRMeter {F : Type} : DrawOp F → Bool
  | DrawOp.drawRMeter _ _ _ _ _ _ => true
  | _ => false

/-- Whether a drawing operation is the call of `getRatioFromValue`. -/
def DrawOp.isRatioCall {F : Type} : DrawOp F → Bool
  | DrawOp.getRatioFromValue _ => true
  | _ => false

/-- Whether a drawing operation is the call of `Widget::draw`. -/
def DrawOp.isWidgetDraw {F : Type} : DrawOp F → Bool
  | DrawOp.widgetDraw _ => true
  | _ => false

/-- The parameter list of the full constructors of `ImageDial` and of its base
class `ImageRadialMeter` (`ImageDial.hpp` lines 134 to 141). -/
structure ImageRadialMeterArgs (F : Type) where
  x : F
  y : F
  width : F
  height : F
  staticImage : String
  staticAnchor : Point F
  staticMinAngle : F
  staticMaxAngle : F
  activeImage : String
  activeAnchor : Point F
  dynamicImage : String
  dynamicAnchor : Point F
  value : F
  min : F
  max : F
  step : F
  transferFunc : F → F
  reTransferFunc : F → F
  urid : Nat
  title : String

/-- The parameter list of the full constructors of `ImageVSlider` and of its
base class `ImageVMeter` (`ImageVSlider.hpp` lines 132 to 139). -/
structure ImageVMeterArgs (F : Type) where
  x : F
  y : F
  width : F
  height : F
  staticImage : String
  staticAnchors : Point F × Point F
  activeImage : String
  activeAnchor : Point F
  dynamicImage : String
  dynamicAnchor : Point F
  value : F
  min : F
  max : F
  step : F
  transferFunc : F → F
  reTransferFunc : F → F
  urid : Nat
  title : String

/-- The full constructor `ImageDial::ImageDial` (`ImageDial.hpp` lines 234 to
252): what the constructor `base` of `ImageRadialMeter` (declared outside the
embedded sources) builds from the arguments handed to it; the mixins are
default constructed. -/
def ImageDial.new {F M : Type} (base : ImageRadialMeterArgs F → M)
    (a : ImageRadialMeterArgs F) : M :=
  base { x := a.x, y := a.y, width := a.width, height := a.height,
         staticImage := a.staticImage, staticAnchor := a.staticAnchor,
         staticMinAngle := a.staticMinAngle, staticMaxAngle := a.staticMaxAngle,
         activeImage := a.activeImage, activeAnchor := a.activeAnchor,
         dynamicImage := a.dynamicImage, dynamicAnchor := a.dynamicAnchor,
         value := a.value, min := a.min, max := a.max, step := a.step,
         transferFunc := noTransfer, reTransferFunc := noTransfer,
         urid := a.urid, title := a.title }

/-- The full constructor `ImageVSlider::ImageVSlider` (`ImageVSlider.hpp` lines
230 to 248): what the constructor `base` of `ImageVMeter` (declared outside the
embedded sources) builds from the arguments handed to it; the mixins are
default constructed. -/
def ImageVSlider.new {F M : Type} (base : ImageVMeterArgs F → M)
    (a : ImageVMeterArgs F) : M :=
  base { x := a.x, y := a.y, width := a.width, height := a.height,
         staticImage := a.staticImage, staticAnchors := a.staticAnchors,
         activeImage := a.activeImage, activeAnchor := a.activeAnchor,
         dynamicImage := a.dynamicImage, dynamicAnchor := a.dynamicAnchor,
         value := a.value, min := a.min, max := a.max, step := a.step,
         transferFunc := noTransfer, reTransferFunc := noTransfer,
         urid := a.urid, title := a.title }

section RadialMeterModel

variable {F C : Type} [LinearOrderedField F]

/-- The full constructor `RadialMeter::RadialMeter` (`RadialMeter.hpp` lines 249
to 260); the constructors of the value model store their arguments. -/
def RadialMeter.new (W : WidgetMembers F C) (x y width height value min max step : F)
    (transferFunc reTransferFunc : F → F) (urid : Nat) (title : String) : RadialMeter F C :=
  { widget := W.construct x y width height urid title,
    value := value, min := min, max := max, step := step,
    transfer := transferFunc, reTransfer := reTransferFunc,
    scale := Area.mk 0 0 width height,
    gradient := noTransfer }

/-- The constructor `RadialMeter::RadialMeter (urid, title)` (`RadialMeter.hpp`
lines 231 to 238), with `BWIDGETS_DEFAULT_RADIALMETER_WIDTH` and
`BWIDGETS_DEFAULT_RADIALMETER_HEIGHT` both `40.0`. -/
def RadialMeter.newUridTitle (W : WidgetMembers F C) (urid : Nat) (title : String) :
    RadialMeter F C :=
  RadialMeter.new W 0 0 40 40 0 0 1 0 noTransfer noTransfer urid title

/-- The member `RadialMeter::copy` (`RadialMeter.hpp` lines 269 to 277). -/
def RadialMeter.copy (W : WidgetMembers F C) (self that : RadialMeter F C) : RadialMeter F C :=
  { widget := W.copy self.widget that.widget,
    value := that.value, min := that.min, max := that.max, step := that.step,
    transfer := that.transfer, reTransfer := that.reTransfer,
    scale := that.scale,
    gradient := that.gradient }

/-- The member `RadialMeter::clone` (`RadialMeter.hpp` lines 262 to 267). The
new object is held in a `Widget*`, so `f->copy (this)` is `Widget::copy`:
`RadialMeter::copy (const RadialMeter*)` is not virtual and overrides nothing. -/
def RadialMeter.clone (W : WidgetMembers F C) (m : RadialMeter F C) : RadialMeter F C :=
  let f := RadialMeter.newUridTitle W m.widget.urid m.widget.title
  { f with widget := W.copy f.widget m.widget }

/-- The member `RadialMeter::getHiColors` (`RadialMeter.hpp` lines 314 to 319);
`hiColorsUrid` is `BUtilities::Urid::urid (STYLEPROPERTY_HICOLORS_URI)`. -/
def RadialMeter.getHiColors (W : WidgetMembers F C) (hiColorsUrid : Nat) (dflt : C)
    (m : RadialMeter F C) : C :=
  match m.widget.style.find hiColorsUrid with
  | none => W.getFgColors m.widget
  | some entry =>
    if entry.isStyle then W.getFgColors m.widget else entry.getColorMap dflt

/-- The member `RadialMeter::setHiColors` (`RadialMeter.hpp` lines 321 to 324). -/
def RadialMeter.setHiColors (hiColorsUrid : Nat) (m : RadialMeter F C) (colors : C) :
    RadialMeter F C :=
  { m with widget := { m.widget with style := m.widget.style.set hiColorsUrid
                                                  (Any.colorMap colors) } }

/-- Modelled from the spec: the cascading resolution `get (key)` of the style
system (declared outside the embedded sources) over the stores of a widget and
of its ancestors, nearest first: "check local store; if absent, delegate to
parent's `get(key)`"; `none` when "the root is reached with no match". -/
def Style.cascade : List (Style C) → Nat → Option (Any C)
  | [], _ => none
  | s :: ancestors, urid =>
    match s.find urid with
    | some entry => some entry
    | none => Style.cascade ancestors urid

/-- Modelled from the spec: the meter linked into a tree (`addChild`, declared
outside the embedded sources) below ancestors whose style stores are `parents`,
nearest first; nothing else of the meter changes. -/
def RadialMeter.withParents (m : RadialMeter F C) (parents : List (Style C)) :
    RadialMeter F C :=
  { m with widget := { m.widget with parentStyles := parents } }

/-- The member `RadialMeter::draw (area)` (`RadialMeter.hpp` lines 336 to 373).
`crOk` tells whether `cairo_status (cr)` is `CAIRO_STATUS_SUCCESS` for the
context created. -/
def RadialMeter.draw (lib : Libm F) (crOk : Bool) (m : RadialMeter F C) (area : Area F) :
    List (DrawOp F) :=
  match m.widget.surface with
  | none => []
  | some false => []
  | some true =>
    let meter : List (DrawOp F) :=
      if m.widget.height ≥ 1 ∧ m.widget.width ≥ 1 ∧ m.min < m.max then
        let inner : List (DrawOp F) :=
          if crOk then
            let rad := (1 / 2) *
              (if m.scale.width < m.scale.height then m.scale.width else m.scale.height)
            let rval := m.getRatioFromValue m.value
            let drv :=
              if |m.step| > 1 / ((3 / 2) * lib.pi * rad) then |m.step / (m.max - m.min)|
              else 1 / ((3 / 2) * lib.pi * rad)
            [DrawOp.cairoRectangle area.x area.y area.width area.height, DrawOp.cairoClip,
              DrawOp.getRatioFromValue m.value]
            ++ (if m.step ≥ 0 then
                  [DrawOp.drawRMeter ((1 / 2) * m.scale.width) ((1 / 2) * m.scale.height)
                    rad 0 rval drv]
                else
                  [DrawOp.drawRMeter ((1 / 2) * m.scale.width) ((1 / 2) * m.scale.height)
                    rad (1 - rval) 1 drv])
          else []
        [DrawOp.cairoCreate] ++ inner ++ [DrawOp.cairoDestroy]
      else []
    [DrawOp.widgetDraw area] ++ meter

end RadialMeterModel

/-- A stand-in for the members of `Widget`, for evaluation: the constructor
stores its arguments, with a valid surface, an empty style and no parent; `copy`
takes over position, extents, surface and style and keeps the identifier, the
title and the parent; `getFgColors` returns `fg`. -/
def WidgetMembers.sample {F C : Type} (fg : C) : WidgetMembers F C :=
  { construct := fun x y width height urid title =>
      { x := x, y := y, width := width, height := height, urid := urid, title := title,
        surface := some true, style := fun _ => none, parentStyles := [] },
    copy := fun self that =>
      { x := that.x, y := that.y, width := that.width, height := that.height,
        urid := self.urid, title := self.title, surface := that.surface,
        style := that.style, parentStyles := self.parentStyles },
    getFgColors := fun _ => fg }

/-- A radial meter of 40 by 40 built by the full constructor over the stand-in
`Widget`, with identity transfer. -/
def RadialMeter.sample {F C : Type} [LinearOrderedField F] (fg : C) (value min max step : F) :
    RadialMeter F C :=
  RadialMeter.new (WidgetMembers.sample fg) 0 0 40 40 value min max step noTransfer noTransfer
    7 "meter"

/-- Arguments for the full constructor of `ImageDial`, for evaluation. -/
def ImageDial.sampleArgs {F : Type} [LinearOrderedField F] (transferFunc reTransferFunc : F → F) :
    ImageRadialMeterArgs F :=
  { x := 0, y := 0, width := 100, height := 100,
    staticImage := "dial.png", staticAnchor := Point.mk 50 50,
    staticMinAngle := 0, staticMaxAngle := 6,
    activeImage := "", activeAnchor := Point.mk 0 0,
    dynamicImage := "", dynamicAnchor := Point.mk 0 0,
    value := 0, min := 0, max := 1, step := 0,
    transferFunc := transferFunc, reTransferFunc := reTransferFunc,
    urid := 7, title := "dial" }

/-- Arguments for the full constructor of `ImageVSlider`, for evaluation. -/
def ImageVSlider.sampleArgs {F : Type} [LinearOrderedField F]
    (transferFunc reTransferFunc : F → F) : ImageVMeterArgs F :=
  { x := 0, y := 0, width := 100, height := 100,
    staticImage := "slider.png", staticAnchors := (Point.mk 50 100, Point.mk 50 0),
    activeImage := "", activeAnchor := Point.mk 0 0,
    dynamicImage := "", dynamicAnchor := Point.mk 0 0,
    value := 0, min := 0, max := 1, step := 0,
    transferFunc := transferFunc, reTransferFunc := reTransferFunc,
    urid := 7, title := "slider" }

/-- The enumeration `Fill::FillType` (`Fill.hpp` lines 37 to 41). -/
inductive FillType where
  | FILL_COLOR
  | FILL_IMAGE
  deriving DecidableEq

/-- The Cairo functions that `Fill` calls on surfaces (declared outside the
embedded sources), as parameters. A surface is named by its address, a natural
number, and a pointer to a surface is an `Option Nat`, with `none` for
`nullptr`. `status a` tells whether `cairo_surface_status` of the surface at `a`
is `CAIRO_STATUS_SUCCESS`; `createFromPng` is
`cairo_image_surface_create_from_png`, and `clone` is
`cairoplus_image_surface_clone_from_image_surface`. -/
structure CairoSurfaces where
  status : Nat → Bool
  createFromPng : String → Option Nat
  clone : Nat → Option Nat

/-- The class `Fill` (`Fill.hpp` lines 43 to 45): `color_`, `surface_` (`none`
for `nullptr`) and `type_`. The type `Col` stands for `Color` (declared outside
the embedded sources). -/
structure Fill (Col : Type) where
  color_ : Col
  surface_ : Option Nat
  type_ : FillType

/-- A call on a Cairo context made by `Fill::setCairoSource`:
`cairo_set_source_rgba` with the components of a colour, or
`cairo_set_source_surface` with a surface and the offsets `(0.0, 0.0)`. -/
inductive CairoCall (Col : Type) where
  | setSourceRgba (color : Col)
  | setSourceSurface (surface : Nat)

section FillModel

variable {Col : Type}

/-- The test `surface && (cairo_surface_status (surface) == CAIRO_STATUS_SUCCESS)`
that `Fill` applies to a pointer to a surface. -/
def CairoSurfaces.valid (lib : CairoSurfaces) : Option Nat → Bool
  | none => false
  | some a => lib.status a

/-- The constructor `Fill::Fill ()` (`Fill.hpp` lines 52 to 58); `default`
stands for the colour `Color ()`. -/
def Fill.new [Inhabited Col] : Fill Col :=
  { color_ := default, surface_ := none, type_ := FillType.FILL_COLOR }

/-- The constructor `Fill::Fill (const Color&)` (`Fill.hpp` lines 64 to 70). -/
def Fill.ofColor (color : Col) : Fill Col :=
  { color_ := color, surface_ := none, type_ := FillType.FILL_COLOR }

/-- The constructor `Fill::Fill (cairo_surface_t*)` (`Fill.hpp` lines 78 to 86). -/
def Fill.ofSurface [Inhabited Col] (lib : CairoSurfaces) (surface : Option Nat) : Fill Col :=
  { color_ := default,
    surface_ := match surface with
      | none => none
      | some a => if lib.status a then lib.clone a else none,
    type_ := FillType.FILL_IMAGE }

/-- The constructor `Fill::Fill (const std::string&)` (`Fill.hpp` lines 92 to
98): the result of `cairo_image_surface_create_from_png` is stored as it is. -/
def Fill.ofFile [Inhabited Col] (lib : CairoSurfaces) (filename : String) : Fill Col :=
  { color_ := default, surface_ := lib.createFromPng filename, type_ := FillType.FILL_IMAGE }

/-- The copy constructor `Fill::Fill (const Fill&)` (`Fill.hpp` lines 104 to
112). -/
def Fill.copyOf (lib : CairoSurfaces) (that : Fill Col) : Fill Col :=
  { color_ := that.color_,
    surface_ := match that.surface_ with
      | none => none
      | some a => if lib.status a then lib.clone a else none,
    type_ := that.type_ }

/-- The operator `Fill::operator=` (`Fill.hpp` lines 126 to 139); the call of
`cairo_surface_destroy` on the surface held before is not recorded. -/
def Fill.assign (lib : CairoSurfaces) (self that : Fill Col) : Fill Col :=
  { color_ := that.color_,
    surface_ :=
      if self.surface_ ≠ that.surface_ then
        match that.surface_ with
        | some a => lib.clone a
        | none => none
      else self.surface_,
    type_ := that.type_ }

/-- The operator `Fill::operator==` (`Fill.hpp` lines 141 to 144); the
comparison of two colours is the equality of `Col`. -/
def Fill.eq [DecidableEq Col] (self that : Fill Col) : Bool :=
  decide (self.type_ = that.type_)
  && (if self.type_ = FillType.FILL_COLOR then decide (self.color_ = that.color_)
      else decide (self.surface_ = that.surface_))

/-- The operator `Fill::operator!=` (`Fill.hpp` line 146). -/
def Fill.ne [DecidableEq Col] (self that : Fill Col) : Bool :=
  !(self.eq that)

/-- The member `Fill::set (const Color&)` (`Fill.hpp` lines 155 to 161); the
call of `cairo_surface_destroy` on the surface held before is not recorded. -/
def Fill.setColor (self : Fill Col) (color : Col) : Fill Col :=
  { self with surface_ := none, color_ := color, type_ := FillType.FILL_COLOR }

/-- The member `Fill::set (cairo_surface_t*)` (`Fill.hpp` lines 172 to 182); the
call of `cairo_surface_destroy` on the surface held before is not recorded. -/
def Fill.setSurface (lib : CairoSurfaces) (self : Fill Col) (surface : Option Nat) : Fill Col :=
  { self with
    surface_ :=
      if self.surface_ ≠ surface then
        match surface with
        | some a => lib.clone a
        | none => none
      else self.surface_,
    type_ := FillType.FILL_IMAGE }

/-- The member `Fill::set (const std::string&)` (`Fill.hpp` lines 191 to 198);
the call of `cairo_surface_destroy` on the surface held before is not
recorded. -/
def Fill.setFile (lib : CairoSurfaces) (self : Fill Col) (filename : String) : Fill Col :=
  { self with
    surface_ := if filename ≠ "" then lib.createFromPng filename else none,
    type_ := FillType.FILL_IMAGE }

/-- The member `Fill::setCairoSource` (`Fill.hpp` lines 204 to 214): the calls
made on the context, in order. -/
def Fill.setCairoSource (self : Fill Col) : List (CairoCall Col) :=
  match self.type_ with
  | FillType.FILL_COLOR => [CairoCall.setSourceRgba self.color_]
  | FillType.FILL_IMAGE =>
    match self.surface_ with
    | some a => [CairoCall.setSourceSurface a]
    | none => []

end FillModel

/-- A stand-in for the Cairo surface functions, for evaluation: the surfaces at
even addresses are valid and those at odd addresses in an error state; loading
`"dial.png"` gives the valid surface at 2 and loading any other file fails with
the error surface at 1 (Cairo returns a pointer to a "nil" surface in an error
state, not `nullptr`, when a file cannot be loaded); the clone of the surface
at `a` is at `a + 100`. -/
def CairoSurfaces.sample : CairoSurfaces :=
  { status := fun a => a % 2 == 0,
    createFromPng := fun filename => if filename = "dial.png" then some 2 else some 1,
    clone := fun a => some (a + 100) }

/-- The comparison `std::less<std::string>` that orders the keys of a
`std::map`: lexicographic on the characters. -/
def strLess (a b : String) : Bool := decide (a.data < b.data)

/-- The expression `s.substr (0, s.find_first_of (c))` of `std::string`: the text
before the first occurrence of `c`, and the whole of `s` when `c` does not occur
(`find_first_of` then returns `npos`). -/
def substrBefore (s : String) (c : Char) : String :=
  String.mk (s.data.takeWhile (fun x => x ≠ c))

/-- The test `key.find (pre) == 0` of `std::string`: `pre` occurs in `key` at
position 0, that is `key` starts with `pre`. -/
def startsWith (key pre : String) : Bool := pre.data.isPrefixOf key.data

/-- The container `std::map<std::string, V>`: its entries, which an iteration
visits in ascending key order. -/
abbrev SMap (V : Type) : Type := List (String × V)

section SMapModel

variable {V : Type}

/-- The member `find` of `std::map`: the value stored under `key`, `none` for
`end ()`. -/
def SMap.find : SMap V → String → Option V
  | [], _ => none
  | (k, v) :: rest, key => if k = key then some v else SMap.find rest key

/-- The assignment `m[key] = value` of `std::map`: the entry is inserted at its
place in the key order, or the value of the entry with that key is replaced. -/
def SMap.set : SMap V → String → V → SMap V
  | [], key, value => [(key, value)]
  | (k, v) :: rest, key, value =>
    if strLess key k then (key, value) :: (k, v) :: rest
    else if key = k then (key, value) :: rest
    else (k, v) :: SMap.set rest key value

/-- Whether the keys of the entries are strictly ascending, the invariant of a
`std::map`. -/
def SMap.isOrdered : SMap V → Bool
  | [] => true
  | [_] => true
  | a :: b :: rest => strLess a.1 b.1 && SMap.isOrdered (b :: rest)

end SMapModel

/-- The static members of the class `Dictionary` (`Dictionary.cpp` lines 27 to
30): `map_`, from a word and a language to a translation, `lang_` and
`catalog_`; the mutex `mx_` is not modelled. -/
structure Dictionary where
  map_ : SMap (SMap String)
  lang_ : String
  catalog_ : String

/-- The member `Dictionary::setLanguage` (`Dictionary.cpp` lines 32 to 37). -/
def Dictionary.setLanguage (d : Dictionary) (language : String) : Dictionary :=
  { d with lang_ := language }

/-- The statement `map_[word][language] = translation`, on the map: `map_[word]`
is the map stored under `word`, inserted empty when `word` has no entry. -/
def Dictionary.store (m : SMap (SMap String)) (word language translation : String) :
    SMap (SMap String) :=
  m.set word (SMap.set (match m.find word with
    | some inner => inner
    | none => []) language translation)

/-- The member `Dictionary::add (word, language, translation)` (`Dictionary.cpp`
lines 39 to 44). -/
def Dictionary.add (d : Dictionary) (word language translation : String) : Dictionary :=
  { d with map_ := Dictionary.store d.map_ word language translation }

/-- The loop of `Dictionary::add (word, translations)` (`Dictionary.cpp` line 49)
on the map: `for (t : translations) map_[word][t.first] = t.second`. -/
def Dictionary.storeAll (word : String) :
    SMap (SMap String) → List (String × String) → SMap (SMap String)
  | m, [] => m
  | m, t :: rest => Dictionary.storeAll word (Dictionary.store m word t.1 t.2) rest

/-- The member `Dictionary::add (word, translations)` (`Dictionary.cpp` lines 46
to 51). -/
def Dictionary.addList (d : Dictionary) (word : String) (translations : List (String × String)) :
    Dictionary :=
  { d with map_ := Dictionary.storeAll word d.map_ translations }

/-- The member `Dictionary::alsoUseCatalogue` (`Dictionary.cpp` lines 63 to 68). -/
def Dictionary.alsoUseCatalogue (d : Dictionary) (cat : String) : Dictionary :=
  { d with catalog_ := cat }

/-- The loops of `Dictionary::get` (`Dictionary.cpp` lines 87 to 94 and 101 to
108): the translation of the first entry, in the order of the map, whose key
starts with `pre`; `none` when the loop ends without a `break`. -/
def Dictionary.firstStartingWith : SMap String → String → Option String
  | [], _ => none
  | (k, t) :: rest, pre =>
    if startsWith k pre then some t else Dictionary.firstStartingWith rest pre

/-- The member `Dictionary::get` (`Dictionary.cpp` lines 70 to 128). The message
catalogue of `std::locale` is the parameter `facet`: from `catalog_`, `lang_`
and the word to `none` when the catalogue cannot be opened (`cat < 0`) and to
the result of `facet.get (cat, 0, 0, word)` otherwise. An exception of
`std::locale loc (lang_)` is not modelled. -/
def Dictionary.get (facet : String → String → String → Option String) (d : Dictionary)
    (word : String) : String :=
  let fromMap : String :=
    match d.map_.find word with
    | none => ""
    | some inner =>
      let full : String :=
        match inner.find d.lang_ with
        | some t => t
        | none => ""
      let territory : String :=
        if full = "" then
          match Dictionary.firstStartingWith inner (substrBefore d.lang_ '.') with
          | some t => t
          | none => full
        else full
      if territory = "" then
        match Dictionary.firstStartingWith inner (substrBefore d.lang_ '_') with
        | some t => t
        | none => territory
      else territory
  let fromCatalogue : String :=
    if fromMap = "" ∧ d.catalog_ ≠ "" then
      match facet d.catalog_ d.lang_ word with
      | some t => t
      | none => fromMap
    else fromMap
  if fromCatalogue = "" then word else fromCatalogue

/-- The loop of `Dictionary::add (translations)` (`Dictionary.cpp` lines 56 to
59) and of `Dictionary::makeMap` (lines 141 to 144) on the map: for each word
`w` of the list, `for (t : w.second) map_[w.first][t.first] = t.second`. -/
def Dictionary.storeWords :
    SMap (SMap String) → List (String × List (String × String)) → SMap (SMap String)
  | m, [] => m
  | m, w :: rest => Dictionary.storeWords (Dictionary.storeAll w.1 m w.2) rest

/-- The member `Dictionary::add (translations)` (`Dictionary.cpp` lines 53 to
61). -/
def Dictionary.addAll (d : Dictionary) (translations : List (String × List (String × String))) :
    Dictionary :=
  { d with map_ := Dictionary.storeWords d.map_ translations }

/-- The member `Dictionary::makeMap` (`Dictionary.cpp` lines 130 to 146) on the
list `il` of the data file, which is empty without
`BUTILITIES_DICTIONARY_DATAFILE`: the words are stored into an empty map. -/
def Dictionary.makeMap (il : List (String × List (String × String))) : SMap (SMap String) :=
  Dictionary.storeWords [] il

/-- Whether the map of words and the map of each word have strictly ascending
keys. -/
def Dictionary.isOrdered (d : Dictionary) : Bool :=
  d.map_.isOrdered && d.map_.all (fun entry => entry.2.isOrdered)

/-- The translation stored for a word and a language, `none` when the word or
the language has no entry. -/
def Dictionary.stored (d : Dictionary) (word language : String) : Option String :=
  match d.map_.find word with
  | none => none
  | some inner => inner.find language

/-- A stand-in for the message catalogues, for evaluation: no catalogue can be
opened. -/
def Dictionary.noFacet (_catalog _lang _word : String) : Option String := none

/-- A dictionary for evaluation, built by `makeMap` from a data list, with the
language `lang` and no external catalogue. -/
def Dictionary.sample (lang : String) : Dictionary :=
  { map_ := Dictionary.makeMap
      [("Hello", [("en_GB", "Hello!"), ("de_DE", "Hallo"), ("en_US", "Hi"), ("fr_FR", "")]),
       ("Exit", [("de_DE", "Beenden")])],
    lang_ := lang,
    catalog_ := "" }

/-- The claim's "first language key, in ascending key order, that starts with"
`pre`, with its translation: `key` has the translation `t` in `inner`, starts
with `pre`, and no key of `inner` that starts with `pre` is smaller. -/
def Dictionary.IsFirstKeyWith (inner : SMap String) (pre key t : String) : Prop :=
  inner.find key = some t ∧ startsWith key pre = true
  ∧ ∀ k t', inner.find k = some t' → startsWith k pre = true → strLess k key = false

/-- No key of `inner` starts with `pre`. -/
def Dictionary.NoKeyWith (inner : SMap String) (pre : String) : Prop :=
  ∀ k t, inner.find k = some t → startsWith k pre = false

/-! ## Lemmas on the geometry -/

section Geometry

variable {F : Type} [LinearOrderedField F]

/-- The scale factor is the smaller of the two axis ratios. -/
theorem ImageDial.szs_eq_min (d : ImageDial F) :
    d.szs = Min.min (d.effectiveWidth / (d.staticImageWidth : F))
      (d.effectiveHeight / (d.staticImageHeight : F)) := by
  unfold ImageDial.szs
  simp only
  split_ifs with h
  · exact (min_eq_left (le_of_lt h)).symm
  · exact (min_eq_right (not_lt.mp h)).symm

/-- With all four sizes at least one the scale factor is positive. -/
theorem ImageDial.szs_pos (d : ImageDial F)
    (hws : (1 : F) ≤ (d.staticImageWidth : F)) (hhs : (1 : F) ≤ (d.staticImageHeight : F))
    (hw : 1 ≤ d.effectiveWidth) (hh : 1 ≤ d.effectiveHeight) : 0 < d.szs := by
  rw [ImageDial.szs_eq_min]
  exact lt_min (div_pos (by linarith) (by linarith)) (div_pos (by linarith) (by linarith))

/-- An angle inside the window is left as it is. -/
theorem ImageDial.wrapAngle_of_mem (m : Libm F) (d : ImageDial F) (a : F)
    (h1 : d.staticMinAngle ≤ a) (h2 : a ≤ d.staticMaxAngle) : d.wrapAngle m a = a := by
  unfold ImageDial.wrapAngle
  simp only [not_lt.mpr h1, if_false]
  exact if_neg (not_lt.mpr h2)

/-- An angle not below the window but above it is moved down by one turn. -/
theorem ImageDial.wrapAngle_of_above (m : Libm F) (d : ImageDial F) (a : F)
    (h1 : d.staticMinAngle ≤ a) (h2 : d.staticMaxAngle < a) :
    d.wrapAngle m a = a - 2 * m.pi := by
  unfold ImageDial.wrapAngle
  simp only [not_lt.mpr h1, if_false]
  exact if_pos h2

/-- An angle below the window is moved up by one turn, and stays there unless
that is above the window. -/
theorem ImageDial.wrapAngle_of_below (m : Libm F) (d : ImageDial F) (a : F)
    (h1 : a < d.staticMinAngle) (h2 : a + 2 * m.pi ≤ d.staticMaxAngle) :
    d.wrapAngle m a = a + 2 * m.pi := by
  unfold ImageDial.wrapAngle
  simp only [h1, if_true]
  exact if_neg (not_lt.mpr h2)

/-- The single wrap reaches the window whenever the raw angle, or the raw
angle one turn up or down, lies in it. -/
theorem ImageDial.wrapAngle_reaches (m : Libm F) (d : ImageDial F) (a0 : F)
    (hpi : 0 < m.pi)
    (hrep : (d.staticMinAngle ≤ a0 - 2 * m.pi ∧ a0 - 2 * m.pi ≤ d.staticMaxAngle)
      ∨ (d.staticMinAngle ≤ a0 ∧ a0 ≤ d.staticMaxAngle)
      ∨ (d.staticMinAngle ≤ a0 + 2 * m.pi ∧ a0 + 2 * m.pi ≤ d.staticMaxAngle)) :
    (d.wrapAngle m a0 = a0 - 2 * m.pi ∨ d.wrapAngle m a0 = a0
        ∨ d.wrapAngle m a0 = a0 + 2 * m.pi)
      ∧ d.staticMinAngle ≤ d.wrapAngle m a0 ∧ d.wrapAngle m a0 ≤ d.staticMaxAngle := by
  unfold ImageDial.wrapAngle
  simp only
  rcases hrep with ⟨h1, h2⟩ | ⟨h1, h2⟩ | ⟨h1, h2⟩
  · have hlt : ¬ (a0 < d.staticMinAngle) := by
      intro h
      linarith
    simp only [hlt, if_false]
    by_cases hgt : a0 > d.staticMaxAngle
    · simp only [hgt, if_true]
      exact ⟨Or.inl trivial, h1, h2⟩
    · simp only [hgt, if_false]
      exact ⟨Or.inr (Or.inl trivial), by linarith, not_lt.mp hgt⟩
  · have hlt : ¬ (a0 < d.staticMinAngle) := not_lt.mpr h1
    have hgt : ¬ (a0 > d.staticMaxAngle) := not_lt.mpr h2
    simp only [hlt, hgt, if_false]
    exact ⟨Or.inr (Or.inl trivial), h1, h2⟩
  · by_cases hlt : a0 < d.staticMinAngle
    · have hgt : ¬ (a0 + 2 * m.pi > d.staticMaxAngle) := not_lt.mpr h2
      simp only [hlt, if_true, hgt, if_false]
      exact ⟨Or.inr (Or.inr trivial), h1, h2⟩
    · have hgt : ¬ (a0 > d.staticMaxAngle) := by
        intro h
        have h3 : d.staticMaxAngle < a0 := h
        linarith
      simp only [hlt, hgt, if_false]
      exact ⟨Or.inr (Or.inl trivial), not_lt.mp hlt, not_lt.mp hgt⟩

/-- The centre of rotation of the sample dial is `(50, 50)`. -/
theorem ImageDial.sample_centre {F : Type} [LinearOrderedField F] (a b s : F) (c : Bool) :
    (ImageDial.sample a b s c).xc = 50 ∧ (ImageDial.sample a b s c).yc = 50 := by
  constructor
  · norm_num [ImageDial.xc, ImageDial.szs, ImageDial.sample]
  · norm_num [ImageDial.yc, ImageDial.szs, ImageDial.sample]

/-- With all four sizes at least one the scale factor of the slider is positive. -/
theorem ImageVSlider.szs_positive (d : ImageVSlider F)
    (hws : (1 : F) ≤ (d.staticImageWidth : F)) (hhs : (1 : F) ≤ (d.staticImageHeight : F))
    (hw : 1 ≤ d.effectiveWidth) (hh : 1 ≤ d.effectiveHeight) : 0 < d.szs := by
  unfold ImageVSlider.szs
  simp only
  split_ifs
  · exact div_pos (by linarith) (by linarith)
  · exact div_pos (by linarith) (by linarith)

/-- The scale factor of the sample slider is `1` and its `y0s` is its x offset. -/
theorem ImageVSlider.sample_szs (x0 y0 a b v s : F) (c : Bool) :
    (ImageVSlider.sample x0 y0 a b v s c).szs = 1
      ∧ (ImageVSlider.sample x0 y0 a b v s c).y0s = x0 := by
  have h : (ImageVSlider.sample x0 y0 a b v s c).szs = 1 := by
    norm_num [ImageVSlider.szs, ImageVSlider.sample]
  refine ⟨h, ?_⟩
  unfold ImageVSlider.y0s
  rw [h]
  norm_num [ImageVSlider.sample]

/-- Subtracting `y / c` with `c > 0` moves strictly against the sign of `y`. -/
theorem sub_div_direction (rho y c : F) (hc : 0 < c) :
    (0 < y → rho - y / c < rho) ∧ (y < 0 → rho < rho - y / c) := by
  constructor
  · intro hy
    have := div_pos hy hc
    linarith
  · intro hy
    have := div_neg_of_neg_of_pos hy hc
    linarith

/-- Adding `y / c` moves strictly with the sign of `y` when `c > 0` and
against it when `c < 0`. -/
theorem add_div_direction (rho y c : F) :
    (0 < c → (0 < y → rho < rho + y / c) ∧ (y < 0 → rho + y / c < rho))
      ∧ (c < 0 → (0 < y → rho + y / c < rho) ∧ (y < 0 → rho < rho + y / c)) := by
  refine ⟨fun hc => ⟨fun hy => ?_, fun hy => ?_⟩, fun hc => ⟨fun hy => ?_, fun hy => ?_⟩⟩
  · have := div_pos hy hc
    linarith
  · have := div_neg_of_neg_of_pos hy hc
    linarith
  · have := div_neg_of_pos_of_neg hy hc
    linarith
  · have := div_pos_of_neg_of_neg hy hc
    linarith

end Geometry

/-! ## Lemmas on the real math library -/

/-- A point at distance `r` and angle `t` from the centre lies at distance `r`. -/
theorem ImageDial.radius_polar (d : ImageDial ℝ) (r t : ℝ) (hr : 0 ≤ r) :
    d.radius (Libm.mk Real.sqrt Real.arccos Real.pi)
      (Point.mk (d.xc + r * Real.cos t) (d.yc + r * Real.sin t)) = r := by
  unfold ImageDial.radius
  simp only
  have h : (d.xc + r * Real.cos t - d.xc) ^ 2 + (d.yc + r * Real.sin t - d.yc) ^ 2 = r ^ 2 := by
    have := Real.sin_sq_add_cos_sq t
    nlinarith [this]
  rw [h]
  exact Real.sqrt_sq hr

/-- A point at distance `r > 0` and angle `t` in `[0, π]` from the centre has
press angle `t`. -/
theorem ImageDial.pressAngle_polar (d : ImageDial ℝ) (r t : ℝ) (hr : 0 < r)
    (h0 : 0 ≤ t) (h1 : t ≤ Real.pi) :
    d.pressAngle (Libm.mk Real.sqrt Real.arccos Real.pi)
      (Point.mk (d.xc + r * Real.cos t) (d.yc + r * Real.sin t)) = t := by
  unfold ImageDial.pressAngle
  rw [ImageDial.radius_polar d r t hr.le]
  have hs : 0 ≤ Real.sin t := Real.sin_nonneg_of_nonneg_of_le_pi h0 h1
  have hy : ¬ (d.yc + r * Real.sin t < d.yc) := by
    have := mul_nonneg hr.le hs
    linarith
  simp only [hy, if_false]
  have hx : (d.xc + r * Real.cos t - d.xc) / r = Real.cos t := by
    field_simp
  rw [hx]
  exact Real.arccos_cos h0 h1

/-- On the sample dial the point `(51, 50)` lies at distance `1` and angle `0`. -/
theorem ImageDial.sample_press_east (a b s : ℝ) (c : Bool) :
    (ImageDial.sample a b s c).radius (Libm.mk Real.sqrt Real.arccos Real.pi)
        (Point.mk 51 50) = 1
      ∧ (ImageDial.sample a b s c).pressAngle (Libm.mk Real.sqrt Real.arccos Real.pi)
        (Point.mk 51 50) = 0 := by
  have hr : (ImageDial.sample a b s c).radius (Libm.mk Real.sqrt Real.arccos Real.pi)
      (Point.mk 51 50) = 1 := by
    unfold ImageDial.radius
    rw [(ImageDial.sample_centre a b s c).1, (ImageDial.sample_centre a b s c).2]
    norm_num
  refine ⟨hr, ?_⟩
  unfold ImageDial.pressAngle
  rw [hr, (ImageDial.sample_centre a b s c).1, (ImageDial.sample_centre a b s c).2]
  norm_num

/-- On the sample dial the point `(49, 51)` lies at distance `√2` and angle
`3π/4`. -/
theorem ImageDial.sample_press_southwest (a b s : ℝ) (c : Bool) :
    (ImageDial.sample a b s c).radius (Libm.mk Real.sqrt Real.arccos Real.pi)
        (Point.mk 49 51) = Real.sqrt 2
      ∧ (ImageDial.sample a b s c).pressAngle (Libm.mk Real.sqrt Real.arccos Real.pi)
        (Point.mk 49 51) = 3 * Real.pi / 4 := by
  have hpi := Real.pi_pos
  have h2 : Real.sqrt 2 * Real.sqrt 2 = 2 := Real.mul_self_sqrt (by norm_num)
  have hcos : Real.cos (3 * Real.pi / 4) = - (Real.sqrt 2 / 2) := by
    have h : 3 * Real.pi / 4 = Real.pi - Real.pi / 4 := by ring
    rw [h, Real.cos_pi_sub, Real.cos_pi_div_four]
  have hsin : Real.sin (3 * Real.pi / 4) = Real.sqrt 2 / 2 := by
    have h : 3 * Real.pi / 4 = Real.pi - Real.pi / 4 := by ring
    rw [h, Real.sin_pi_sub, Real.sin_pi_div_four]
  have hp : (Point.mk 49 51 : Point ℝ)
      = Point.mk ((ImageDial.sample a b s c).xc + Real.sqrt 2 * Real.cos (3 * Real.pi / 4))
          ((ImageDial.sample a b s c).yc + Real.sqrt 2 * Real.sin (3 * Real.pi / 4)) := by
    rw [(ImageDial.sample_centre a b s c).1, (ImageDial.sample_centre a b s c).2, hcos, hsin]
    congr 1 <;> nlinarith [h2]
  rw [hp]
  exact ⟨ImageDial.radius_polar _ _ _ (Real.sqrt_nonneg 2),
    ImageDial.pressAngle_polar _ _ _ (Real.sqrt_pos.mpr (by norm_num)) (by linarith)
      (by linarith)⟩

/-! ## The handlers, guard by guard -/

section Guards

variable {F : Type} [LinearOrderedField F] [FloorRing F]

/-- A value on the step grid inside the range is stored as it is. -/
theorem Valueable.setValue_on_grid (s : Valueable F) (n : ℕ) (hstep : 0 < s.step)
    (hmax : s.min + (n : F) * s.step ≤ s.max) :
    (s.setValue (s.min + (n : F) * s.step)).value = s.min + (n : F) * s.step := by
  have hn : (0 : F) ≤ (n : F) * s.step := mul_nonneg (Nat.cast_nonneg n) hstep.le
  have hne : s.step ≠ 0 := ne_of_gt hstep
  unfold Valueable.setValue
  simp only [ne_eq, hne, not_false_eq_true, if_true]
  rw [min_eq_left hmax, max_eq_right (by linarith), abs_of_pos hstep]
  have hq : (s.min + (n : F) * s.step - s.min) / s.step = (n : F) := by
    field_simp
  rw [hq, round_natCast]
  simp

/-- The press handler on a pointer event whose guards all pass: the outcome
is decided by the wrapped angle alone. -/
theorem ImageDial.onButtonPressed_guarded (m : Libm F) (d : ImageDial F) (p q : Point F)
    (hang : d.staticMinAngle ≠ d.staticMaxAngle)
    (hws : (1 : F) ≤ (d.staticImageWidth : F)) (hhs : (1 : F) ≤ (d.staticImageHeight : F))
    (hw : 1 ≤ d.effectiveWidth) (hh : 1 ≤ d.effectiveHeight)
    (hr : 1 ≤ d.radius m p) :
    d.onButtonPressed m (Event.pointer p q) =
      if d.staticMinAngle ≤ d.wrapAngle m (d.pressAngle m p)
          ∧ d.wrapAngle m (d.pressAngle m p) ≤ d.staticMaxAngle then
        (d.setValue (d.getValueFromRatio
            (((if d.step < 0 then
                d.staticMaxAngle - (d.wrapAngle m (d.pressAngle m p) - d.staticMinAngle)
              else d.wrapAngle m (d.pressAngle m p)) - d.staticMinAngle)
              / (d.staticMaxAngle - d.staticMinAngle))),
          [Call.getValueFromRatio
            (((if d.step < 0 then
                d.staticMaxAngle - (d.wrapAngle m (d.pressAngle m p) - d.staticMinAngle)
              else d.wrapAngle m (d.pressAngle m p)) - d.staticMinAngle)
              / (d.staticMaxAngle - d.staticMinAngle)),
           Call.setValue (d.getValueFromRatio
            (((if d.step < 0 then
                d.staticMaxAngle - (d.wrapAngle m (d.pressAngle m p) - d.staticMinAngle)
              else d.wrapAngle m (d.pressAngle m p)) - d.staticMinAngle)
              / (d.staticMaxAngle - d.staticMinAngle))),
           Call.clickableOnButtonPressed])
      else (d, [Call.clickableOnButtonPressed]) := by
  simp only [ImageDial.onButtonPressed, ge_iff_le, ne_eq, hang, not_false_eq_true, if_true,
    hws, hhs, hw, hh, hr, and_self]
  split_ifs <;> simp

/-- The press handler on a pointer event either leaves the dial as it is and
only calls `Clickable::onButtonPressed`, or all guards pass and the wrapped
angle lies in the window. -/
theorem ImageDial.onButtonPressed_rejected_or_inWindow (m : Libm F) (d : ImageDial F)
    (p q : Point F) :
    d.onButtonPressed m (Event.pointer p q) = (d, [Call.clickableOnButtonPressed]) ∨
      (d.staticMinAngle ≤ d.wrapAngle m (d.pressAngle m p)
        ∧ d.wrapAngle m (d.pressAngle m p) ≤ d.staticMaxAngle) := by
  by_cases hin : d.staticMinAngle ≤ d.wrapAngle m (d.pressAngle m p)
      ∧ d.wrapAngle m (d.pressAngle m p) ≤ d.staticMaxAngle
  · exact Or.inr hin
  · left
    simp only [ImageDial.onButtonPressed, ge_iff_le, hin, if_false]
    split_ifs <;> simp

/-- The wheel handler of the dial with a declared step. -/
theorem ImageDial.onWheelScrolled_step (d : ImageDial F) (p q : Point F)
    (hang : d.staticMinAngle ≠ d.staticMaxAngle)
    (hr : 1 ≤ (1 / 2) * Min.min d.effectiveWidth d.effectiveHeight)
    (hstep : d.step ≠ 0) :
    d.onWheelScrolled (Event.wheel p q) =
      (d.setValue (d.value - q.y * d.step),
        [Call.setValue (d.value - q.y * d.step), Call.scrollableOnWheelScrolled]) := by
  have hg : d.staticMinAngle ≠ d.staticMaxAngle
      ∧ (1 / 2) * Min.min d.effectiveWidth d.effectiveHeight ≥ 1 := ⟨hang, hr⟩
  simp only [ImageDial.onWheelScrolled, if_pos hg, if_pos hstep, List.cons_append,
    List.nil_append]

/-- The wheel handler of the dial in continuous mode. -/
theorem ImageDial.onWheelScrolled_continuous (d : ImageDial F) (p q : Point F)
    (hang : d.staticMinAngle ≠ d.staticMaxAngle)
    (hr : 1 ≤ (1 / 2) * Min.min d.effectiveWidth d.effectiveHeight)
    (hstep : d.step = 0) :
    d.onWheelScrolled (Event.wheel p q) =
      (d.setValue (d.getValueFromRatio (d.getRatioFromValue d.value
          - q.y / ((d.staticMaxAngle - d.staticMinAngle)
            * ((1 / 2) * Min.min d.effectiveWidth d.effectiveHeight)))),
        [Call.getRatioFromValue d.value,
         Call.getValueFromRatio (d.getRatioFromValue d.value
          - q.y / ((d.staticMaxAngle - d.staticMinAngle)
            * ((1 / 2) * Min.min d.effectiveWidth d.effectiveHeight))),
         Call.setValue (d.getValueFromRatio (d.getRatioFromValue d.value
          - q.y / ((d.staticMaxAngle - d.staticMinAngle)
            * ((1 / 2) * Min.min d.effectiveWidth d.effectiveHeight)))),
         Call.scrollableOnWheelScrolled]) := by
  have hg : d.staticMinAngle ≠ d.staticMaxAngle
      ∧ (1 / 2) * Min.min d.effectiveWidth d.effectiveHeight ≥ 1 := ⟨hang, hr⟩
  simp only [ImageDial.onWheelScrolled, if_pos hg, if_neg (not_not.mpr hstep),
    List.cons_append, List.nil_append]

/-- The drag handler of a dial that is not clickable, with a declared step. -/
theorem ImageDial.onPointerDragged_step (m : Libm F) (d : ImageDial F) (p q : Point F)
    (hc : d.clickable = false)
    (hang : d.staticMinAngle ≠ d.staticMaxAngle)
    (hr : 1 ≤ (1 / 2) * Min.min d.effectiveWidth d.effectiveHeight)
    (hstep : d.step ≠ 0) :
    d.onPointerDragged m (Event.pointer p q) =
      (d.setValue (d.value - q.y * d.step),
        [Call.setValue (d.value - q.y * d.step), Call.draggableOnPointerDragged]) := by
  have hg : d.staticMinAngle ≠ d.staticMaxAngle
      ∧ (1 / 2) * Min.min d.effectiveWidth d.effectiveHeight ≥ 1 := ⟨hang, hr⟩
  simp only [ImageDial.onPointerDragged, hc, Bool.false_eq_true, if_false, if_pos hg,
    if_pos hstep, List.cons_append, List.nil_append]

/-- The drag handler of a dial that is not clickable, in continuous mode. -/
theorem ImageDial.onPointerDragged_continuous (m : Libm F) (d : ImageDial F) (p q : Point F)
    (hc : d.clickable = false)
    (hang : d.staticMinAngle ≠ d.staticMaxAngle)
    (hr : 1 ≤ (1 / 2) * Min.min d.effectiveWidth d.effectiveHeight)
    (hstep : d.step = 0) :
    d.onPointerDragged m (Event.pointer p q) =
      (d.setValue (d.getValueFromRatio (d.getRatioFromValue d.value
          - q.y / ((d.staticMaxAngle - d.staticMinAngle)
            * ((1 / 2) * Min.min d.effectiveWidth d.effectiveHeight)))),
        [Call.getRatioFromValue d.value,
         Call.getValueFromRatio (d.getRatioFromValue d.value
          - q.y / ((d.staticMaxAngle - d.staticMinAngle)
            * ((1 / 2) * Min.min d.effectiveWidth d.effectiveHeight))),
         Call.setValue (d.getValueFromRatio (d.getRatioFromValue d.value
          - q.y / ((d.staticMaxAngle - d.staticMinAngle)
            * ((1 / 2) * Min.min d.effectiveWidth d.effectiveHeight)))),
         Call.draggableOnPointerDragged]) := by
  have hg : d.staticMinAngle ≠ d.staticMaxAngle
      ∧ (1 / 2) * Min.min d.effectiveWidth d.effectiveHeight ≥ 1 := ⟨hang, hr⟩
  simp only [ImageDial.onPointerDragged, hc, Bool.false_eq_true, if_false, if_pos hg,
    if_neg (not_not.mpr hstep), List.cons_append, List.nil_append]

/-- The press handler of the slider under valid geometry. -/
theorem ImageVSlider.onButtonPressed_valid (d : ImageVSlider F) (p q : Point F)
    (hanch : d.staticAnchors.1.y ≠ d.staticAnchors.2.y)
    (hws : (1 : F) ≤ (d.staticImageWidth : F)) (hhs : (1 : F) ≤ (d.staticImageHeight : F))
    (hw : 1 ≤ d.effectiveWidth) (hh : 1 ≤ d.effectiveHeight) :
    d.onButtonPressed (Event.pointer p q) =
      (d.setValue (d.getValueFromRatio
          (if 0 ≤ d.step then
            (p.y - d.y0s - d.staticAnchors.1.y * d.szs)
              / ((d.staticAnchors.2.y - d.staticAnchors.1.y) * d.szs)
          else 1 - (p.y - d.y0s - d.staticAnchors.1.y * d.szs)
              / ((d.staticAnchors.2.y - d.staticAnchors.1.y) * d.szs))),
        [Call.getValueFromRatio
          (if 0 ≤ d.step then
            (p.y - d.y0s - d.staticAnchors.1.y * d.szs)
              / ((d.staticAnchors.2.y - d.staticAnchors.1.y) * d.szs)
          else 1 - (p.y - d.y0s - d.staticAnchors.1.y * d.szs)
              / ((d.staticAnchors.2.y - d.staticAnchors.1.y) * d.szs)),
         Call.setValue (d.getValueFromRatio
          (if 0 ≤ d.step then
            (p.y - d.y0s - d.staticAnchors.1.y * d.szs)
              / ((d.staticAnchors.2.y - d.staticAnchors.1.y) * d.szs)
          else 1 - (p.y - d.y0s - d.staticAnchors.1.y * d.szs)
              / ((d.staticAnchors.2.y - d.staticAnchors.1.y) * d.szs))),
         Call.clickableOnButtonPressed]) := by
  simp only [ImageVSlider.onButtonPressed, ge_iff_le, ne_eq, hanch, not_false_eq_true, if_true,
    hws, hhs, hw, hh, and_self]
  split_ifs <;> simp

/-- The wheel handler of the slider with a declared step. -/
theorem ImageVSlider.onWheelScrolled_stepped (d : ImageVSlider F) (p q : Point F)
    (hanch : d.staticAnchors.1.y ≠ d.staticAnchors.2.y)
    (hws : (1 : F) ≤ (d.staticImageWidth : F)) (hhs : (1 : F) ≤ (d.staticImageHeight : F))
    (hw : 1 ≤ d.effectiveWidth) (hh : 1 ≤ d.effectiveHeight)
    (hstep : d.step ≠ 0) :
    d.onWheelScrolled (Event.wheel p q) =
      (d.setValue (d.value - q.y * d.step),
        [Call.setValue (d.value - q.y * d.step), Call.scrollableOnWheelScrolled]) := by
  simp [ImageVSlider.onWheelScrolled, hanch, hws, hhs, hw, hh, hstep]

/-- The wheel handler of the slider in continuous mode. -/
theorem ImageVSlider.onWheelScrolled_stepless (d : ImageVSlider F) (p q : Point F)
    (hanch : d.staticAnchors.1.y ≠ d.staticAnchors.2.y)
    (hws : (1 : F) ≤ (d.staticImageWidth : F)) (hhs : (1 : F) ≤ (d.staticImageHeight : F))
    (hw : 1 ≤ d.effectiveWidth) (hh : 1 ≤ d.effectiveHeight)
    (hstep : d.step = 0) :
    d.onWheelScrolled (Event.wheel p q) =
      (d.setValue (d.getValueFromRatio (d.getRatioFromValue d.value
          + q.y / ((d.staticAnchors.2.y - d.staticAnchors.1.y) * d.szs))),
        [Call.getRatioFromValue d.value,
         Call.getValueFromRatio (d.getRatioFromValue d.value
          + q.y / ((d.staticAnchors.2.y - d.staticAnchors.1.y) * d.szs)),
         Call.setValue (d.getValueFromRatio (d.getRatioFromValue d.value
          + q.y / ((d.staticAnchors.2.y - d.staticAnchors.1.y) * d.szs))),
         Call.scrollableOnWheelScrolled]) := by
  simp [ImageVSlider.onWheelScrolled, hanch, hws, hhs, hw, hh, hstep]

/-- The drag handler of a slider that is not clickable, with a declared step. -/
theorem ImageVSlider.onPointerDragged_stepped (d : ImageVSlider F) (p q : Point F)
    (hc : d.clickable = false)
    (hanch : d.staticAnchors.1.y ≠ d.staticAnchors.2.y)
    (hws : (1 : F) ≤ (d.staticImageWidth : F)) (hhs : (1 : F) ≤ (d.staticImageHeight : F))
    (hw : 1 ≤ d.effectiveWidth) (hh : 1 ≤ d.effectiveHeight)
    (hstep : d.step ≠ 0) :
    d.onPointerDragged (Event.pointer p q) =
      (d.setValue (d.value - q.y * d.step),
        [Call.setValue (d.value - q.y * d.step), Call.draggableOnPointerDragged]) := by
  simp [ImageVSlider.onPointerDragged, hc, hanch, hws, hhs, hw, hh, hstep]

/-- The drag handler of a slider that is not clickable, in continuous mode. -/
theorem ImageVSlider.onPointerDragged_stepless (d : ImageVSlider F) (p q : Point F)
    (hc : d.clickable = false)
    (hanch : d.staticAnchors.1.y ≠ d.staticAnchors.2.y)
    (hws : (1 : F) ≤ (d.staticImageWidth : F)) (hhs : (1 : F) ≤ (d.staticImageHeight : F))
    (hw : 1 ≤ d.effectiveWidth) (hh : 1 ≤ d.effectiveHeight)
    (hstep : d.step = 0) :
    d.onPointerDragged (Event.pointer p q) =
      (d.setValue (d.getValueFromRatio (d.getRatioFromValue d.value
          + q.y / ((d.staticAnchors.2.y - d.staticAnchors.1.y) * d.szs))),
        [Call.getRatioFromValue d.value,
         Call.getValueFromRatio (d.getRatioFromValue d.value
          + q.y / ((d.staticAnchors.2.y - d.staticAnchors.1.y) * d.szs)),
         Call.setValue (d.getValueFromRatio (d.getRatioFromValue d.value
          + q.y / ((d.staticAnchors.2.y - d.staticAnchors.1.y) * d.szs))),
         Call.draggableOnPointerDragged]) := by
  simp [ImageVSlider.onPointerDragged, hc, hanch, hws, hhs, hw, hh, hstep]

/-- The ratio the slider computes for a press at the on-screen position of the
min anchor and of the max anchor, in terms of the two offsets: it is off by
`(yOffset - xOffset) / ((second.y - first.y) * szs)`. -/
theorem ImageVSlider.onButtonPressed_anchor_ratio (d : ImageVSlider F) (p q : Point F)
    (hanch : d.staticAnchors.1.y ≠ d.staticAnchors.2.y)
    (hws : (1 : F) ≤ (d.staticImageWidth : F)) (hhs : (1 : F) ≤ (d.staticImageHeight : F))
    (hw : 1 ≤ d.effectiveWidth) (hh : 1 ≤ d.effectiveHeight) (hstep : 0 ≤ d.step) :
    (p.y = d.yOffset + d.effectiveHeight / 2 - (d.staticImageHeight : F) * d.szs / 2
        + d.staticAnchors.1.y * d.szs →
      (d.onButtonPressed (Event.pointer p q)).2 =
        [Call.getValueFromRatio
          (0 + (d.yOffset - d.xOffset) / ((d.staticAnchors.2.y - d.staticAnchors.1.y) * d.szs)),
         Call.setValue (d.getValueFromRatio
          (0 + (d.yOffset - d.xOffset) / ((d.staticAnchors.2.y - d.staticAnchors.1.y) * d.szs))),
         Call.clickableOnButtonPressed])
    ∧ (p.y = d.yOffset + d.effectiveHeight / 2 - (d.staticImageHeight : F) * d.szs / 2
        + d.staticAnchors.2.y * d.szs →
      (d.onButtonPressed (Event.pointer p q)).2 =
        [Call.getValueFromRatio
          (1 + (d.yOffset - d.xOffset) / ((d.staticAnchors.2.y - d.staticAnchors.1.y) * d.szs)),
         Call.setValue (d.getValueFromRatio
          (1 + (d.yOffset - d.xOffset) / ((d.staticAnchors.2.y - d.staticAnchors.1.y) * d.szs))),
         Call.clickableOnButtonPressed]) := by
  have hs : d.szs ≠ 0 := ne_of_gt (ImageVSlider.szs_positive d hws hhs hw hh)
  have hd : d.staticAnchors.2.y - d.staticAnchors.1.y ≠ 0 :=
    sub_ne_zero.mpr (Ne.symm hanch)
  rw [ImageVSlider.onButtonPressed_valid d p q hanch hws hhs hw hh]
  simp only [if_pos hstep]
  constructor
  · intro hp
    have : (p.y - d.y0s - d.staticAnchors.1.y * d.szs)
        / ((d.staticAnchors.2.y - d.staticAnchors.1.y) * d.szs)
        = 0 + (d.yOffset - d.xOffset) / ((d.staticAnchors.2.y - d.staticAnchors.1.y) * d.szs) := by
      rw [hp]
      unfold ImageVSlider.y0s
      field_simp
      ring
    rw [this]
  · intro hp
    have : (p.y - d.y0s - d.staticAnchors.1.y * d.szs)
        / ((d.staticAnchors.2.y - d.staticAnchors.1.y) * d.szs)
        = 1 + (d.yOffset - d.xOffset) / ((d.staticAnchors.2.y - d.staticAnchors.1.y) * d.szs) := by
      rw [hp]
      unfold ImageVSlider.y0s
      field_simp
      ring
    rw [this]

end Guards

/-! ## The claims -/

/-- C1: `ImageDial::onButtonPressed`, radial mapping. The centre of rotation is
`(x0 + w/2 - ws*szs/2 + anchor.x*szs, y0 + h/2 - hs*szs/2 + anchor.y*szs)` with
`szs = min (w/ws) (h/hs)`; under valid geometry, with `step >= 0` and the
wrapped angle `a` of the pointer inside `[minAngle, maxAngle]`, the handler
calls `setValue (getValueFromRatio ((a - minAngle) / (maxAngle - minAngle)))`
and then `Clickable::onButtonPressed`. With `minAngle = 0`, `maxAngle = 3π/2`,
`min = 0`, `max = 1`, `step = 0`, identity transfer and a press at angle
`3π/4` (at any distance `r >= 1`) the stored value is `1/2`. -/
theorem ImageDial.onButtonPressed_radial_mapping :
    (∀ (F : Type) [LinearOrderedField F] [FloorRing F] (m : Libm F) (d : ImageDial F)
        (p q : Point F),
      (d.xc = d.xOffset + d.effectiveWidth / 2
          - (d.staticImageWidth : F)
            * Min.min (d.effectiveWidth / (d.staticImageWidth : F))
                (d.effectiveHeight / (d.staticImageHeight : F)) / 2
          + d.staticAnchor.x
            * Min.min (d.effectiveWidth / (d.staticImageWidth : F))
                (d.effectiveHeight / (d.staticImageHeight : F))) ∧
      (d.yc = d.yOffset + d.effectiveHeight / 2
          - (d.staticImageHeight : F)
            * Min.min (d.effectiveWidth / (d.staticImageWidth : F))
                (d.effectiveHeight / (d.staticImageHeight : F)) / 2
          + d.staticAnchor.y
            * Min.min (d.effectiveWidth / (d.staticImageWidth : F))
                (d.effectiveHeight / (d.staticImageHeight : F))) ∧
      (d.staticMinAngle ≠ d.staticMaxAngle →
        1 ≤ d.effectiveWidth → 1 ≤ d.effectiveHeight →
        (1 : F) ≤ (d.staticImageWidth : F) → (1 : F) ≤ (d.staticImageHeight : F) →
        1 ≤ m.sqrt ((p.x - d.xc) ^ 2 + (p.y - d.yc) ^ 2) →
        0 ≤ d.step →
        d.staticMinAngle ≤ d.wrapAngle m (d.pressAngle m p) →
        d.wrapAngle m (d.pressAngle m p) ≤ d.staticMaxAngle →
        d.onButtonPressed m (Event.pointer p q) =
          (d.setValue (d.getValueFromRatio
              ((d.wrapAngle m (d.pressAngle m p) - d.staticMinAngle)
                / (d.staticMaxAngle - d.staticMinAngle))),
            [Call.getValueFromRatio
              ((d.wrapAngle m (d.pressAngle m p) - d.staticMinAngle)
                / (d.staticMaxAngle - d.staticMinAngle)),
             Call.setValue (d.getValueFromRatio
              ((d.wrapAngle m (d.pressAngle m p) - d.staticMinAngle)
                / (d.staticMaxAngle - d.staticMinAngle))),
             Call.clickableOnButtonPressed])))
    ∧
    (∀ (d : ImageDial ℝ) (r : ℝ) (q : Point ℝ),
      d.staticMinAngle = 0 → d.staticMaxAngle = 3 * Real.pi / 2 →
      d.min = 0 → d.max = 1 → d.step = 0 →
      d.transfer = id → d.reTransfer = id →
      1 ≤ d.effectiveWidth → 1 ≤ d.effectiveHeight →
      (1 : ℝ) ≤ (d.staticImageWidth : ℝ) → (1 : ℝ) ≤ (d.staticImageHeight : ℝ) →
      1 ≤ r →
      (d.onButtonPressed (Libm.mk Real.sqrt Real.arccos Real.pi)
        (Event.pointer
          (Point.mk (d.xc + r * Real.cos (3 * Real.pi / 4))
            (d.yc + r * Real.sin (3 * Real.pi / 4))) q)).1.value = 1 / 2) := by
  constructor
  · intro F _ _ m d p q
    refine ⟨?_, ?_, ?_⟩
    · rw [← ImageDial.szs_eq_min]
      unfold ImageDial.xc
      ring
    · rw [← ImageDial.szs_eq_min]
      unfold ImageDial.yc
      ring
    · intro hang hw hh hws hhs hr hstep hlo hhi
      rw [ImageDial.onButtonPressed_guarded m d p q hang hws hhs hw hh hr]
      simp only [hlo, hhi, and_self, if_true, not_lt.mpr hstep, if_false]
  · intro d r q hmin hmax hlo hhi hstep htr hre hw hh hws hhs hr
    have hpi := Real.pi_pos
    have hr0 : (0 : ℝ) < r := by linarith
    have h0 : (0 : ℝ) ≤ 3 * Real.pi / 4 := by linarith
    have h1 : 3 * Real.pi / 4 ≤ Real.pi := by linarith
    have hang : d.staticMinAngle ≠ d.staticMaxAngle := by
      rw [hmin, hmax]
      intro h
      linarith
    have hrad : 1 ≤ d.radius (Libm.mk Real.sqrt Real.arccos Real.pi)
        (Point.mk (d.xc + r * Real.cos (3 * Real.pi / 4))
          (d.yc + r * Real.sin (3 * Real.pi / 4))) := by
      rw [ImageDial.radius_polar d r _ hr0.le]
      exact hr
    rw [ImageDial.onButtonPressed_guarded _ d _ q hang hws hhs hw hh hrad]
    rw [ImageDial.pressAngle_polar d r _ hr0 h0 h1]
    have hwrap : d.wrapAngle (Libm.mk Real.sqrt Real.arccos Real.pi) (3 * Real.pi / 4)
        = 3 * Real.pi / 4 := by
      unfold ImageDial.wrapAngle
      have ha : ¬ (3 * Real.pi / 4 < 0) := by linarith
      have hb : ¬ (3 * Real.pi / 4 > 3 * Real.pi / 2) := by
        intro h
        have h2 : 3 * Real.pi / 2 < 3 * Real.pi / 4 := h
        linarith
      simp only [hmin, hmax, ha, hb, if_false]
    rw [hwrap, hmin, hmax, hstep]
    rw [if_pos ⟨by linarith, by linarith⟩]
    simp only [lt_irrefl, if_false, ImageDial.setValue, Valueable.setValue,
      Valueable.getValueFromRatio, hlo, hhi, hstep, htr, hre, id, ne_eq, not_true_eq_false]
    have hratio : (3 * Real.pi / 4 - 0) / (3 * Real.pi / 2 - 0) = 1 / 2 := by
      field_simp
      ring
    rw [hratio]
    norm_num

/-- Witness of C1: the sample dial with window `[0, 3π/2]`, pressed at
`(49, 51)` (distance `√2`, angle `3π/4`), and pressed at distance `1` and
angle `3π/4`. -/
theorem ImageDial.onButtonPressed_radial_mapping_witness :
    ((ImageDial.sample (0 : ℝ) (3 * Real.pi / 2) 0 true).onButtonPressed
        (Libm.mk Real.sqrt Real.arccos Real.pi)
        (Event.pointer (Point.mk 49 51) (Point.mk 0 0))).2
      = [Call.getValueFromRatio (1 / 2), Call.setValue (1 / 2), Call.clickableOnButtonPressed]
    ∧ ((ImageDial.sample (0 : ℝ) (3 * Real.pi / 2) 0 true).onButtonPressed
        (Libm.mk Real.sqrt Real.arccos Real.pi)
        (Event.pointer
          (Point.mk ((ImageDial.sample (0 : ℝ) (3 * Real.pi / 2) 0 true).xc
              + 1 * Real.cos (3 * Real.pi / 4))
            ((ImageDial.sample (0 : ℝ) (3 * Real.pi / 2) 0 true).yc
              + 1 * Real.sin (3 * Real.pi / 4))) (Point.mk 0 0))).1.value = 1 / 2 := by
  have hpi := Real.pi_pos
  have hsw := ImageDial.sample_press_southwest 0 (3 * Real.pi / 2) 0 true
  have hwrap : (ImageDial.sample (0 : ℝ) (3 * Real.pi / 2) 0 true).wrapAngle
      (Libm.mk Real.sqrt Real.arccos Real.pi)
      ((ImageDial.sample (0 : ℝ) (3 * Real.pi / 2) 0 true).pressAngle
        (Libm.mk Real.sqrt Real.arccos Real.pi) (Point.mk 49 51)) = 3 * Real.pi / 4 := by
    rw [hsw.2]
    apply ImageDial.wrapAngle_of_mem
    · show (0 : ℝ) ≤ 3 * Real.pi / 4
      linarith
    · show 3 * Real.pi / 4 ≤ 3 * Real.pi / 2
      linarith
  have hne : (0 : ℝ) ≠ 3 * Real.pi / 2 := by
    intro h
    linarith
  have h1 := (ImageDial.onButtonPressed_radial_mapping.1 ℝ
    (Libm.mk Real.sqrt Real.arccos Real.pi)
    (ImageDial.sample (0 : ℝ) (3 * Real.pi / 2) 0 true) (Point.mk 49 51) (Point.mk 0 0)).2.2
    hne (by norm_num [ImageDial.sample]) (by norm_num [ImageDial.sample])
    (by norm_num [ImageDial.sample]) (by norm_num [ImageDial.sample])
    (by
      show 1 ≤ (ImageDial.sample (0 : ℝ) (3 * Real.pi / 2) 0 true).radius
        (Libm.mk Real.sqrt Real.arccos Real.pi) (Point.mk 49 51)
      rw [hsw.1]
      exact Real.one_le_sqrt.mpr (by norm_num))
    (le_refl (0 : ℝ))
    (by
      rw [hwrap]
      show (0 : ℝ) ≤ 3 * Real.pi / 4
      linarith)
    (by
      rw [hwrap]
      show 3 * Real.pi / 4 ≤ 3 * Real.pi / 2
      linarith)
  have h2 := ImageDial.onButtonPressed_radial_mapping.2
    (ImageDial.sample (0 : ℝ) (3 * Real.pi / 2) 0 true) 1 (Point.mk 0 0)
    rfl rfl rfl rfl rfl rfl rfl
    (by norm_num [ImageDial.sample]) (by norm_num [ImageDial.sample])
    (by norm_num [ImageDial.sample]) (by norm_num [ImageDial.sample]) (le_refl 1)
  refine ⟨?_, h2⟩
  rw [h1, hwrap]
  have hratio : (3 * Real.pi / 4 - (ImageDial.sample (0 : ℝ) (3 * Real.pi / 2) 0 true).staticMinAngle)
      / ((ImageDial.sample (0 : ℝ) (3 * Real.pi / 2) 0 true).staticMaxAngle
        - (ImageDial.sample (0 : ℝ) (3 * Real.pi / 2) 0 true).staticMinAngle) = 1 / 2 := by
    show (3 * Real.pi / 4 - 0) / (3 * Real.pi / 2 - 0) = 1 / 2
    field_simp
    ring
  rw [hratio]
  norm_num [ImageDial.sample, Valueable.getValueFromRatio]

section ClaimC2

variable {F : Type} [LinearOrderedField F] [FloorRing F]

/-- C2: `ImageDial::onButtonPressed` rejects out-of-window angles. If the angle
of the pointer, after the adjustment by `+2π` and `-2π`, is not within
`[minAngle, maxAngle]`, the handler makes no `setValue` call (its only call
is `Clickable::onButtonPressed`) and the dial, in particular the stored
value, is exactly as before. -/
theorem ImageDial.onButtonPressed_out_of_window (m : Libm F) (d : ImageDial F)
    (p q : Point F)
    (hout : ¬ (d.staticMinAngle ≤ d.wrapAngle m (d.pressAngle m p)
      ∧ d.wrapAngle m (d.pressAngle m p) ≤ d.staticMaxAngle)) :
    d.onButtonPressed m (Event.pointer p q) = (d, [Call.clickableOnButtonPressed])
      ∧ (d.onButtonPressed m (Event.pointer p q)).1.value = d.value
      ∧ (∀ c ∈ (d.onButtonPressed m (Event.pointer p q)).2, c.isSetValue = false) := by
  have h : d.onButtonPressed m (Event.pointer p q) = (d, [Call.clickableOnButtonPressed]) := by
    rcases ImageDial.onButtonPressed_rejected_or_inWindow m d p q with h | h
    · exact h
    · exact absurd h hout
  refine ⟨h, ?_, ?_⟩
  · rw [h]
  · rw [h]
    intro c hc
    simp only [List.mem_singleton] at hc
    rw [hc]
    rfl

end ClaimC2

/-- Witness of C2: the sample dial with window `[0, π/2]` pressed at `(49, 51)`,
whose angle `3π/4` is wrapped to `-5π/4`. -/
theorem ImageDial.onButtonPressed_out_of_window_witness :
    (ImageDial.sample (0 : ℝ) (Real.pi / 2) 0 true).onButtonPressed
        (Libm.mk Real.sqrt Real.arccos Real.pi)
        (Event.pointer (Point.mk 49 51) (Point.mk 0 0))
      = (ImageDial.sample (0 : ℝ) (Real.pi / 2) 0 true, [Call.clickableOnButtonPressed]) := by
  have hpi := Real.pi_pos
  have hsw := ImageDial.sample_press_southwest 0 (Real.pi / 2) 0 true
  refine (ImageDial.onButtonPressed_out_of_window (Libm.mk Real.sqrt Real.arccos Real.pi)
    (ImageDial.sample (0 : ℝ) (Real.pi / 2) 0 true) (Point.mk 49 51) (Point.mk 0 0) ?_).1
  rw [hsw.2, ImageDial.wrapAngle_of_above _ _ _
    (show (0 : ℝ) ≤ 3 * Real.pi / 4 by linarith)
    (show Real.pi / 2 < 3 * Real.pi / 4 by linarith)]
  intro h
  have h0 : (0 : ℝ) ≤ 3 * Real.pi / 4 - 2 * Real.pi := h.1
  linarith

section ClaimC3

variable {F : Type} [LinearOrderedField F] [FloorRing F]

/-- C3 (amended): angle normalization by a single wrap. For every window
`minAngle < maxAngle` and every press under valid geometry whose raw angle
`a0` has `a0 - 2π`, `a0` or `a0 + 2π` in `[minAngle, maxAngle]`, the press is
accepted: the wrapped angle `a` is one of these three, lies in the window,
and the handler calls `setValue (getValueFromRatio ratio)` with the ratio
computed from `a` (reversed when `step < 0`). -/
theorem ImageDial.onButtonPressed_single_wrap (m : Libm F) (d : ImageDial F)
    (p q : Point F) (hpi : 0 < m.pi)
    (hwin : d.staticMinAngle < d.staticMaxAngle)
    (hw : 1 ≤ d.effectiveWidth) (hh : 1 ≤ d.effectiveHeight)
    (hws : (1 : F) ≤ (d.staticImageWidth : F)) (hhs : (1 : F) ≤ (d.staticImageHeight : F))
    (hr : 1 ≤ d.radius m p)
    (hrep : (d.staticMinAngle ≤ d.pressAngle m p - 2 * m.pi
          ∧ d.pressAngle m p - 2 * m.pi ≤ d.staticMaxAngle)
      ∨ (d.staticMinAngle ≤ d.pressAngle m p ∧ d.pressAngle m p ≤ d.staticMaxAngle)
      ∨ (d.staticMinAngle ≤ d.pressAngle m p + 2 * m.pi
          ∧ d.pressAngle m p + 2 * m.pi ≤ d.staticMaxAngle)) :
    ∃ a : F,
      (a = d.pressAngle m p - 2 * m.pi ∨ a = d.pressAngle m p
        ∨ a = d.pressAngle m p + 2 * m.pi)
      ∧ d.staticMinAngle ≤ a ∧ a ≤ d.staticMaxAngle
      ∧ d.onButtonPressed m (Event.pointer p q) =
          (d.setValue (d.getValueFromRatio
              (((if d.step < 0 then d.staticMaxAngle - (a - d.staticMinAngle) else a)
                - d.staticMinAngle) / (d.staticMaxAngle - d.staticMinAngle))),
            [Call.getValueFromRatio
              (((if d.step < 0 then d.staticMaxAngle - (a - d.staticMinAngle) else a)
                - d.staticMinAngle) / (d.staticMaxAngle - d.staticMinAngle)),
             Call.setValue (d.getValueFromRatio
              (((if d.step < 0 then d.staticMaxAngle - (a - d.staticMinAngle) else a)
                - d.staticMinAngle) / (d.staticMaxAngle - d.staticMinAngle))),
             Call.clickableOnButtonPressed]) := by
  obtain ⟨hk, hlo, hhi⟩ := ImageDial.wrapAngle_reaches m d (d.pressAngle m p) hpi hrep
  refine ⟨d.wrapAngle m (d.pressAngle m p), hk, hlo, hhi, ?_⟩
  rw [ImageDial.onButtonPressed_guarded m d p q (ne_of_lt hwin) hws hhs hw hh hr]
  rw [if_pos ⟨hlo, hhi⟩]

end ClaimC3

/-- Witness of C3: the sample dial with window `[2π, 3π]` pressed at `(49, 51)`,
whose angle `3π/4` is one turn below the window. -/
theorem ImageDial.onButtonPressed_single_wrap_witness :
    ∃ a : ℝ,
      (a = (ImageDial.sample (2 * Real.pi) (3 * Real.pi) 0 true).pressAngle
            (Libm.mk Real.sqrt Real.arccos Real.pi) (Point.mk 49 51) - 2 * Real.pi
        ∨ a = (ImageDial.sample (2 * Real.pi) (3 * Real.pi) 0 true).pressAngle
            (Libm.mk Real.sqrt Real.arccos Real.pi) (Point.mk 49 51)
        ∨ a = (ImageDial.sample (2 * Real.pi) (3 * Real.pi) 0 true).pressAngle
            (Libm.mk Real.sqrt Real.arccos Real.pi) (Point.mk 49 51) + 2 * Real.pi)
      ∧ 2 * Real.pi ≤ a ∧ a ≤ 3 * Real.pi
      ∧ (ImageDial.sample (2 * Real.pi) (3 * Real.pi) 0 true).onButtonPressed
          (Libm.mk Real.sqrt Real.arccos Real.pi)
          (Event.pointer (Point.mk 49 51) (Point.mk 0 0)) =
          ((ImageDial.sample (2 * Real.pi) (3 * Real.pi) 0 true).setValue
            ((ImageDial.sample (2 * Real.pi) (3 * Real.pi) 0 true).getValueFromRatio
              (((if (0 : ℝ) < 0 then 3 * Real.pi - (a - 2 * Real.pi) else a)
                - 2 * Real.pi) / (3 * Real.pi - 2 * Real.pi))),
            [Call.getValueFromRatio
              (((if (0 : ℝ) < 0 then 3 * Real.pi - (a - 2 * Real.pi) else a)
                - 2 * Real.pi) / (3 * Real.pi - 2 * Real.pi)),
             Call.setValue
              ((ImageDial.sample (2 * Real.pi) (3 * Real.pi) 0 true).getValueFromRatio
                (((if (0 : ℝ) < 0 then 3 * Real.pi - (a - 2 * Real.pi) else a)
                  - 2 * Real.pi) / (3 * Real.pi - 2 * Real.pi))),
             Call.clickableOnButtonPressed]) := by
  have hpi := Real.pi_pos
  have hsw := ImageDial.sample_press_southwest (2 * Real.pi) (3 * Real.pi) 0 true
  exact ImageDial.onButtonPressed_single_wrap (Libm.mk Real.sqrt Real.arccos Real.pi)
    (ImageDial.sample (2 * Real.pi) (3 * Real.pi) 0 true) (Point.mk 49 51) (Point.mk 0 0)
    Real.pi_pos
    (show 2 * Real.pi < 3 * Real.pi by linarith)
    (by norm_num [ImageDial.sample]) (by norm_num [ImageDial.sample])
    (by norm_num [ImageDial.sample]) (by norm_num [ImageDial.sample])
    (by
      rw [hsw.1]
      exact Real.one_le_sqrt.mpr (by norm_num))
    (by
      rw [hsw.2]
      right
      right
      constructor
      · show 2 * Real.pi ≤ 3 * Real.pi / 4 + 2 * Real.pi
        linarith
      · show 3 * Real.pi / 4 + 2 * Real.pi ≤ 3 * Real.pi
        linarith)

/-- C3 (counterexample): the sample dial with window `[3π, 5π]` pressed at
`(51, 50)`. The geometry is valid, the raw angle is `0`, which lies in
`[0, 2π]` and is congruent to `4π` in the window, but the single wrap only
reaches `2π`: the press is rejected and no `setValue` call is made. -/
theorem ImageDial.onButtonPressed_normalization_incomplete :
    (ImageDial.sample (3 * Real.pi) (5 * Real.pi) 0 true).staticMinAngle
        < (ImageDial.sample (3 * Real.pi) (5 * Real.pi) 0 true).staticMaxAngle
    ∧ 1 ≤ (ImageDial.sample (3 * Real.pi) (5 * Real.pi) 0 true).radius
        (Libm.mk Real.sqrt Real.arccos Real.pi) (Point.mk 51 50)
    ∧ (ImageDial.sample (3 * Real.pi) (5 * Real.pi) 0 true).pressAngle
        (Libm.mk Real.sqrt Real.arccos Real.pi) (Point.mk 51 50) = 0
    ∧ ((0 : ℝ) ≤ 0 ∧ (0 : ℝ) ≤ 2 * Real.pi)
    ∧ ((ImageDial.sample (3 * Real.pi) (5 * Real.pi) 0 true).staticMinAngle
          ≤ 0 + 2 * (2 * Real.pi)
        ∧ 0 + 2 * (2 * Real.pi)
          ≤ (ImageDial.sample (3 * Real.pi) (5 * Real.pi) 0 true).staticMaxAngle)
    ∧ (ImageDial.sample (3 * Real.pi) (5 * Real.pi) 0 true).onButtonPressed
        (Libm.mk Real.sqrt Real.arccos Real.pi)
        (Event.pointer (Point.mk 51 50) (Point.mk 0 0))
      = (ImageDial.sample (3 * Real.pi) (5 * Real.pi) 0 true,
          [Call.clickableOnButtonPressed])
    ∧ (∀ c ∈ ((ImageDial.sample (3 * Real.pi) (5 * Real.pi) 0 true).onButtonPressed
        (Libm.mk Real.sqrt Real.arccos Real.pi)
        (Event.pointer (Point.mk 51 50) (Point.mk 0 0))).2, c.isSetValue = false) := by
  have hpi := Real.pi_pos
  have he := ImageDial.sample_press_east (3 * Real.pi) (5 * Real.pi) 0 true
  have hwrap : (ImageDial.sample (3 * Real.pi) (5 * Real.pi) 0 true).wrapAngle
      (Libm.mk Real.sqrt Real.arccos Real.pi) 0 = 0 + 2 * Real.pi :=
    ImageDial.wrapAngle_of_below _ _ _
      (show (0 : ℝ) < 3 * Real.pi by linarith)
      (show (0 : ℝ) + 2 * Real.pi ≤ 5 * Real.pi by linarith)
  have hrej : (ImageDial.sample (3 * Real.pi) (5 * Real.pi) 0 true).onButtonPressed
        (Libm.mk Real.sqrt Real.arccos Real.pi)
        (Event.pointer (Point.mk 51 50) (Point.mk 0 0))
      = (ImageDial.sample (3 * Real.pi) (5 * Real.pi) 0 true,
          [Call.clickableOnButtonPressed]) := by
    rcases ImageDial.onButtonPressed_rejected_or_inWindow
      (Libm.mk Real.sqrt Real.arccos Real.pi)
      (ImageDial.sample (3 * Real.pi) (5 * Real.pi) 0 true) (Point.mk 51 50) (Point.mk 0 0)
      with h | h
    · exact h
    · rw [he.2, hwrap] at h
      have h3 : 3 * Real.pi ≤ 0 + 2 * Real.pi := h.1
      linarith
  refine ⟨?_, ?_, he.2, ⟨le_refl 0, by linarith⟩, ⟨?_, ?_⟩, hrej, ?_⟩
  · show 3 * Real.pi < 5 * Real.pi
    linarith
  · rw [he.1]
  · show 3 * Real.pi ≤ 0 + 2 * (2 * Real.pi)
    linarith
  · show 0 + 2 * (2 * Real.pi) ≤ 5 * Real.pi
    linarith
  · rw [hrej]
    intro c hc
    simp only [List.mem_singleton] at hc
    rw [hc]
    rfl

/-- C4 (failing input): the sample slider with `getXOffset() = 0` and
`getYOffset() = 10`, min anchor at `y = 100`, max anchor at `y = 0`. The min
anchor is on screen at `y = 110` and the max anchor at `y = 10`. A press at
`y = 110` passes ratio `-1/10` (not `0`), and a press at `y = 10` passes ratio
`9/10` (not `1`) and stores `9/10`: the handler computes `y0s` from
`getXOffset()`. -/
theorem ImageVSlider.onButtonPressed_uses_xOffset :
    ((ImageVSlider.sample (0 : ℚ) 10 100 0 0 0 true).yOffset
        + (ImageVSlider.sample (0 : ℚ) 10 100 0 0 0 true).effectiveHeight / 2
        - ((ImageVSlider.sample (0 : ℚ) 10 100 0 0 0 true).staticImageHeight : ℚ)
          * (ImageVSlider.sample (0 : ℚ) 10 100 0 0 0 true).szs / 2
        + (ImageVSlider.sample (0 : ℚ) 10 100 0 0 0 true).staticAnchors.1.y
          * (ImageVSlider.sample (0 : ℚ) 10 100 0 0 0 true).szs = 110)
    ∧ ((ImageVSlider.sample (0 : ℚ) 10 100 0 0 0 true).yOffset
        + (ImageVSlider.sample (0 : ℚ) 10 100 0 0 0 true).effectiveHeight / 2
        - ((ImageVSlider.sample (0 : ℚ) 10 100 0 0 0 true).staticImageHeight : ℚ)
          * (ImageVSlider.sample (0 : ℚ) 10 100 0 0 0 true).szs / 2
        + (ImageVSlider.sample (0 : ℚ) 10 100 0 0 0 true).staticAnchors.2.y
          * (ImageVSlider.sample (0 : ℚ) 10 100 0 0 0 true).szs = 10)
    ∧ ((ImageVSlider.sample (0 : ℚ) 10 100 0 0 0 true).onButtonPressed
        (Event.pointer (Point.mk 50 110) (Point.mk 0 0))).2
      = [Call.getValueFromRatio (-1 / 10), Call.setValue (-1 / 10),
          Call.clickableOnButtonPressed]
    ∧ ((ImageVSlider.sample (0 : ℚ) 10 100 0 0 0 true).onButtonPressed
        (Event.pointer (Point.mk 50 10) (Point.mk 0 0))).2
      = [Call.getValueFromRatio (9 / 10), Call.setValue (9 / 10),
          Call.clickableOnButtonPressed]
    ∧ ((ImageVSlider.sample (0 : ℚ) 10 100 0 0 0 true).onButtonPressed
        (Event.pointer (Point.mk 50 10) (Point.mk 0 0))).1.value = 9 / 10 := by
  have hs := ImageVSlider.sample_szs (0 : ℚ) 10 100 0 0 0 true
  have hg := fun p => ImageVSlider.onButtonPressed_valid
    (ImageVSlider.sample (0 : ℚ) 10 100 0 0 0 true) p (Point.mk 0 0)
    (by norm_num [ImageVSlider.sample]) (by norm_num [ImageVSlider.sample])
    (by norm_num [ImageVSlider.sample]) (by norm_num [ImageVSlider.sample])
    (by norm_num [ImageVSlider.sample])
  refine ⟨?_, ?_, ?_, ?_, ?_⟩
  · rw [hs.1]
    norm_num [ImageVSlider.sample]
  · rw [hs.1]
    norm_num [ImageVSlider.sample]
  · rw [hg, hs.1, hs.2]
    norm_num [ImageVSlider.sample, Valueable.getValueFromRatio]
  · rw [hg, hs.1, hs.2]
    norm_num [ImageVSlider.sample, Valueable.getValueFromRatio]
  · rw [hg, hs.1, hs.2]
    norm_num [ImageVSlider.sample, Valueable.getValueFromRatio, ImageVSlider.setValue,
      Valueable.setValue]

section ClaimC5

variable {F : Type} [LinearOrderedField F] [FloorRing F]

/-- C5: direction reversal is the same for both shapes. For an accepted press
on a dial (valid geometry, wrapped angle `a` in the window) the ratio passed
to `getValueFromRatio` with `step >= 0` is `(a - minAngle) / (maxAngle -
minAngle)` and with a step `s < 0` on the otherwise same dial it is one minus
that ratio; for a press on a slider under valid geometry the ratio passed with
a step `s < 0` is one minus the ratio passed with `step >= 0`. In all four
runs `min`, `max`, `minAngle`, `maxAngle` and the anchors are as before. -/
theorem ImageDial.onButtonPressed_reversal (m : Libm F) (d : ImageDial F) (v : ImageVSlider F)
    (p q : Point F) (s : F)
    (hang : d.staticMinAngle ≠ d.staticMaxAngle)
    (hw : 1 ≤ d.effectiveWidth) (hh : 1 ≤ d.effectiveHeight)
    (hws : (1 : F) ≤ (d.staticImageWidth : F)) (hhs : (1 : F) ≤ (d.staticImageHeight : F))
    (hr : 1 ≤ d.radius m p)
    (hlo : d.staticMinAngle ≤ d.wrapAngle m (d.pressAngle m p))
    (hhi : d.wrapAngle m (d.pressAngle m p) ≤ d.staticMaxAngle)
    (hanch : v.staticAnchors.1.y ≠ v.staticAnchors.2.y)
    (hvw : 1 ≤ v.effectiveWidth) (hvh : 1 ≤ v.effectiveHeight)
    (hvws : (1 : F) ≤ (v.staticImageWidth : F)) (hvhs : (1 : F) ≤ (v.staticImageHeight : F))
    (hd : 0 ≤ d.step) (hv : 0 ≤ v.step) (hs : s < 0) :
    (∃ ratio : F,
      ratio = (d.wrapAngle m (d.pressAngle m p) - d.staticMinAngle)
        / (d.staticMaxAngle - d.staticMinAngle)
      ∧ (d.onButtonPressed m (Event.pointer p q)).2 =
        [Call.getValueFromRatio ratio, Call.setValue (d.getValueFromRatio ratio),
          Call.clickableOnButtonPressed]
      ∧ (({ d with step := s } : ImageDial F).onButtonPressed m (Event.pointer p q)).2 =
        [Call.getValueFromRatio (1 - ratio),
          Call.setValue (({ d with step := s } : ImageDial F).getValueFromRatio (1 - ratio)),
          Call.clickableOnButtonPressed])
    ∧ (∃ ratio : F,
      ratio = (p.y - v.y0s - v.staticAnchors.1.y * v.szs)
        / ((v.staticAnchors.2.y - v.staticAnchors.1.y) * v.szs)
      ∧ (v.onButtonPressed (Event.pointer p q)).2 =
        [Call.getValueFromRatio ratio, Call.setValue (v.getValueFromRatio ratio),
          Call.clickableOnButtonPressed]
      ∧ (({ v with step := s } : ImageVSlider F).onButtonPressed (Event.pointer p q)).2 =
        [Call.getValueFromRatio (1 - ratio),
          Call.setValue (({ v with step := s } : ImageVSlider F).getValueFromRatio (1 - ratio)),
          Call.clickableOnButtonPressed])
    ∧ ((d.onButtonPressed m (Event.pointer p q)).1.min = d.min
      ∧ (d.onButtonPressed m (Event.pointer p q)).1.max = d.max
      ∧ (d.onButtonPressed m (Event.pointer p q)).1.staticMinAngle = d.staticMinAngle
      ∧ (d.onButtonPressed m (Event.pointer p q)).1.staticMaxAngle = d.staticMaxAngle)
    ∧ ((({ d with step := s } : ImageDial F).onButtonPressed m (Event.pointer p q)).1.min = d.min
      ∧ (({ d with step := s } : ImageDial F).onButtonPressed m (Event.pointer p q)).1.max
          = d.max
      ∧ (({ d with step := s } : ImageDial F).onButtonPressed m
          (Event.pointer p q)).1.staticMinAngle = d.staticMinAngle
      ∧ (({ d with step := s } : ImageDial F).onButtonPressed m
          (Event.pointer p q)).1.staticMaxAngle = d.staticMaxAngle)
    ∧ ((v.onButtonPressed (Event.pointer p q)).1.min = v.min
      ∧ (v.onButtonPressed (Event.pointer p q)).1.max = v.max
      ∧ (v.onButtonPressed (Event.pointer p q)).1.staticAnchors = v.staticAnchors)
    ∧ ((({ v with step := s } : ImageVSlider F).onButtonPressed (Event.pointer p q)).1.min
          = v.min
      ∧ (({ v with step := s } : ImageVSlider F).onButtonPressed (Event.pointer p q)).1.max
          = v.max
      ∧ (({ v with step := s } : ImageVSlider F).onButtonPressed
          (Event.pointer p q)).1.staticAnchors = v.staticAnchors) := by
  have hne : d.staticMaxAngle - d.staticMinAngle ≠ 0 := sub_ne_zero.mpr (Ne.symm hang)
  have h1 := ImageDial.onButtonPressed_guarded m d p q hang hws hhs hw hh hr
  rw [if_pos ⟨hlo, hhi⟩, if_neg (not_lt.mpr hd)] at h1
  have h2 := ImageDial.onButtonPressed_guarded m ({ d with step := s } : ImageDial F) p q
    hang hws hhs hw hh hr
  rw [if_pos ⟨hlo, hhi⟩] at h2
  have hstep2 : ({ d with step := s } : ImageDial F).step < 0 := hs
  rw [if_pos hstep2] at h2
  have h3 := ImageVSlider.onButtonPressed_valid v p q hanch hvws hvhs hvw hvh
  rw [if_pos hv] at h3
  have h4 := ImageVSlider.onButtonPressed_valid ({ v with step := s } : ImageVSlider F) p q
    hanch hvws hvhs hvw hvh
  have hstep4 : ¬ (0 ≤ ({ v with step := s } : ImageVSlider F).step) := not_le.mpr hs
  rw [if_neg hstep4] at h4
  refine ⟨⟨_, rfl, ?_, ?_⟩, ⟨_, rfl, ?_, ?_⟩, ?_, ?_, ?_, ?_⟩
  · rw [h1]
  · rw [h2]
    have hrev : (({ d with step := s } : ImageDial F).staticMaxAngle
          - (({ d with step := s } : ImageDial F).wrapAngle m
              (({ d with step := s } : ImageDial F).pressAngle m p)
            - ({ d with step := s } : ImageDial F).staticMinAngle)
          - ({ d with step := s } : ImageDial F).staticMinAngle)
        / (({ d with step := s } : ImageDial F).staticMaxAngle
          - ({ d with step := s } : ImageDial F).staticMinAngle)
        = 1 - (d.wrapAngle m (d.pressAngle m p) - d.staticMinAngle)
          / (d.staticMaxAngle - d.staticMinAngle) := by
      show (d.staticMaxAngle - (d.wrapAngle m (d.pressAngle m p) - d.staticMinAngle)
          - d.staticMinAngle) / (d.staticMaxAngle - d.staticMinAngle)
        = 1 - (d.wrapAngle m (d.pressAngle m p) - d.staticMinAngle)
          / (d.staticMaxAngle - d.staticMinAngle)
      field_simp
      ring
    rw [hrev]
  · rw [h3]
  · rw [h4]
    rfl
  · rw [h1]
    exact ⟨rfl, rfl, rfl, rfl⟩
  · rw [h2]
    exact ⟨rfl, rfl, rfl, rfl⟩
  · rw [h3]
    exact ⟨rfl, rfl, rfl⟩
  · rw [h4]
    exact ⟨rfl, rfl, rfl⟩

end ClaimC5

/-- Witness of C5: the sample dial with window `[0, 3π/2]` and the sample
slider, pressed at `(49, 51)`, with the reversed step `-1`. -/
theorem ImageDial.onButtonPressed_reversal_witness :
    (∃ ratio : ℝ,
      ((ImageDial.sample (0 : ℝ) (3 * Real.pi / 2) 0 true).onButtonPressed
          (Libm.mk Real.sqrt Real.arccos Real.pi)
          (Event.pointer (Point.mk 49 51) (Point.mk 0 0))).2 =
        [Call.getValueFromRatio ratio,
          Call.setValue
            ((ImageDial.sample (0 : ℝ) (3 * Real.pi / 2) 0 true).getValueFromRatio ratio),
          Call.clickableOnButtonPressed]
      ∧ ((ImageDial.sample (0 : ℝ) (3 * Real.pi / 2) (-1) true).onButtonPressed
          (Libm.mk Real.sqrt Real.arccos Real.pi)
          (Event.pointer (Point.mk 49 51) (Point.mk 0 0))).2 =
        [Call.getValueFromRatio (1 - ratio),
          Call.setValue
            ((ImageDial.sample (0 : ℝ) (3 * Real.pi / 2) (-1) true).getValueFromRatio
              (1 - ratio)),
          Call.clickableOnButtonPressed])
    ∧ (∃ ratio : ℝ,
      ((ImageVSlider.sample (0 : ℝ) 0 100 0 0 0 true).onButtonPressed
          (Event.pointer (Point.mk 49 51) (Point.mk 0 0))).2 =
        [Call.getValueFromRatio ratio,
          Call.setValue ((ImageVSlider.sample (0 : ℝ) 0 100 0 0 0 true).getValueFromRatio ratio),
          Call.clickableOnButtonPressed]
      ∧ ((ImageVSlider.sample (0 : ℝ) 0 100 0 0 (-1) true).onButtonPressed
          (Event.pointer (Point.mk 49 51) (Point.mk 0 0))).2 =
        [Call.getValueFromRatio (1 - ratio),
          Call.setValue
            ((ImageVSlider.sample (0 : ℝ) 0 100 0 0 (-1) true).getValueFromRatio (1 - ratio)),
          Call.clickableOnButtonPressed]) := by
  have hpi := Real.pi_pos
  have hsw := ImageDial.sample_press_southwest 0 (3 * Real.pi / 2) 0 true
  have hne : (0 : ℝ) ≠ 3 * Real.pi / 2 := by
    intro h
    linarith
  have hwrap : (ImageDial.sample (0 : ℝ) (3 * Real.pi / 2) 0 true).wrapAngle
      (Libm.mk Real.sqrt Real.arccos Real.pi)
      ((ImageDial.sample (0 : ℝ) (3 * Real.pi / 2) 0 true).pressAngle
        (Libm.mk Real.sqrt Real.arccos Real.pi) (Point.mk 49 51)) = 3 * Real.pi / 4 := by
    rw [hsw.2]
    apply ImageDial.wrapAngle_of_mem
    · show (0 : ℝ) ≤ 3 * Real.pi / 4
      linarith
    · show 3 * Real.pi / 4 ≤ 3 * Real.pi / 2
      linarith
  have h := ImageDial.onButtonPressed_reversal (Libm.mk Real.sqrt Real.arccos Real.pi)
    (ImageDial.sample (0 : ℝ) (3 * Real.pi / 2) 0 true)
    (ImageVSlider.sample (0 : ℝ) 0 100 0 0 0 true) (Point.mk 49 51) (Point.mk 0 0) (-1)
    hne (by norm_num [ImageDial.sample]) (by norm_num [ImageDial.sample])
    (by norm_num [ImageDial.sample]) (by norm_num [ImageDial.sample])
    (by
      rw [hsw.1]
      exact Real.one_le_sqrt.mpr (by norm_num))
    (by
      rw [hwrap]
      show (0 : ℝ) ≤ 3 * Real.pi / 4
      linarith)
    (by
      rw [hwrap]
      show 3 * Real.pi / 4 ≤ 3 * Real.pi / 2
      linarith)
    (by norm_num [ImageVSlider.sample]) (by norm_num [ImageVSlider.sample])
    (by norm_num [ImageVSlider.sample]) (by norm_num [ImageVSlider.sample])
    (by norm_num [ImageVSlider.sample]) (le_refl (0 : ℝ)) (le_refl (0 : ℝ)) (by norm_num)
  obtain ⟨⟨r1, _, h1, h2⟩, ⟨r2, _, h3, h4⟩, _⟩ := h
  exact ⟨⟨r1, h1, h2⟩, ⟨r2, h3, h4⟩⟩

section ClaimC6

variable {F : Type} [LinearOrderedField F] [FloorRing F]

/-- C6: click-to-set-then-follow. For a clickable dial and a clickable slider
and every event, `onPointerDragged` leaves the widget, in particular the
stored value, exactly as `onButtonPressed` does from the same state; its calls
are those of `onButtonPressed` followed by `Draggable::onPointerDragged`; and
the outcome does not depend on the delta of the pointer event. -/
theorem ImageDial.onPointerDragged_clickable (m : Libm F) (d : ImageDial F)
    (v : ImageVSlider F) (e : Event F) (p q q2 : Point F)
    (hd : d.clickable = true) (hv : v.clickable = true) :
    ((d.onPointerDragged m e).1.value = (d.onButtonPressed m e).1.value
      ∧ (d.onPointerDragged m e).1 = (d.onButtonPressed m e).1
      ∧ (d.onPointerDragged m e).2
          = (d.onButtonPressed m e).2 ++ [Call.draggableOnPointerDragged])
    ∧ ((v.onPointerDragged e).1.value = (v.onButtonPressed e).1.value
      ∧ (v.onPointerDragged e).1 = (v.onButtonPressed e).1
      ∧ (v.onPointerDragged e).2
          = (v.onButtonPressed e).2 ++ [Call.draggableOnPointerDragged])
    ∧ d.onPointerDragged m (Event.pointer p q) = d.onPointerDragged m (Event.pointer p q2)
    ∧ v.onPointerDragged (Event.pointer p q) = v.onPointerDragged (Event.pointer p q2) := by
  have h1 : d.onPointerDragged m e
      = ((d.onButtonPressed m e).1,
          (d.onButtonPressed m e).2 ++ [Call.draggableOnPointerDragged]) := by
    simp only [ImageDial.onPointerDragged, hd, if_true]
  have h2 : v.onPointerDragged e
      = ((v.onButtonPressed e).1,
          (v.onButtonPressed e).2 ++ [Call.draggableOnPointerDragged]) := by
    simp only [ImageVSlider.onPointerDragged, hv, if_true]
  refine ⟨⟨?_, ?_, ?_⟩, ⟨?_, ?_, ?_⟩, ?_, ?_⟩
  · rw [h1]
  · rw [h1]
  · rw [h1]
  · rw [h2]
  · rw [h2]
  · rw [h2]
  · simp only [ImageDial.onPointerDragged, hd, if_true]
    rfl
  · simp only [ImageVSlider.onPointerDragged, hv, if_true]
    rfl

end ClaimC6

/-- Witness of C6: the clickable sample dial and sample slider with a pointer
event at `(49, 51)`. -/
theorem ImageDial.onPointerDragged_clickable_witness :
    ((ImageDial.sample (0 : ℝ) (2 * Real.pi) 0 true).onPointerDragged
        (Libm.mk Real.sqrt Real.arccos Real.pi)
        (Event.pointer (Point.mk 49 51) (Point.mk 3 4))).1.value
      = ((ImageDial.sample (0 : ℝ) (2 * Real.pi) 0 true).onButtonPressed
        (Libm.mk Real.sqrt Real.arccos Real.pi)
        (Event.pointer (Point.mk 49 51) (Point.mk 3 4))).1.value
    ∧ ((ImageVSlider.sample (0 : ℝ) 0 100 0 0 0 true).onPointerDragged
        (Event.pointer (Point.mk 49 51) (Point.mk 3 4))).1.value
      = ((ImageVSlider.sample (0 : ℝ) 0 100 0 0 0 true).onButtonPressed
        (Event.pointer (Point.mk 49 51) (Point.mk 3 4))).1.value := by
  have h := ImageDial.onPointerDragged_clickable (Libm.mk Real.sqrt Real.arccos Real.pi)
    (ImageDial.sample (0 : ℝ) (2 * Real.pi) 0 true)
    (ImageVSlider.sample (0 : ℝ) 0 100 0 0 0 true)
    (Event.pointer (Point.mk 49 51) (Point.mk 3 4)) (Point.mk 49 51) (Point.mk 3 4)
    (Point.mk 0 0) rfl rfl
  exact ⟨h.1.1, h.2.1.1⟩

section ClaimC7

variable {F : Type} [LinearOrderedField F] [FloorRing F]

/-- C7: relative-delta rule with a declared step. With `step != 0` and valid
geometry (dial: `minAngle != maxAngle` and `0.5 * min (w, h) >= 1`; slider:
anchors of different `y` and `w, h, ws, hs >= 1`), `onWheelScrolled`, and
`onPointerDragged` on a widget that is not clickable, call
`setValue (getValue() - delta.y * getStep())` exactly once, followed by the
handler of the mixin. -/
theorem ImageDial.relative_delta_with_step (m : Libm F) (d : ImageDial F)
    (v : ImageVSlider F) (p q : Point F)
    (hdstep : d.step ≠ 0) (hvstep : v.step ≠ 0)
    (hang : d.staticMinAngle ≠ d.staticMaxAngle)
    (hr : 1 ≤ (1 / 2) * Min.min d.effectiveWidth d.effectiveHeight)
    (hanch : v.staticAnchors.1.y ≠ v.staticAnchors.2.y)
    (hvw : 1 ≤ v.effectiveWidth) (hvh : 1 ≤ v.effectiveHeight)
    (hvws : (1 : F) ≤ (v.staticImageWidth : F)) (hvhs : (1 : F) ≤ (v.staticImageHeight : F)) :
    (d.onWheelScrolled (Event.wheel p q) =
        (d.setValue (d.value - q.y * d.step),
          [Call.setValue (d.value - q.y * d.step), Call.scrollableOnWheelScrolled])
      ∧ List.countP Call.isSetValue (d.onWheelScrolled (Event.wheel p q)).2 = 1)
    ∧ (d.clickable = false →
        d.onPointerDragged m (Event.pointer p q) =
          (d.setValue (d.value - q.y * d.step),
            [Call.setValue (d.value - q.y * d.step), Call.draggableOnPointerDragged])
        ∧ List.countP Call.isSetValue (d.onPointerDragged m (Event.pointer p q)).2 = 1)
    ∧ (v.onWheelScrolled (Event.wheel p q) =
        (v.setValue (v.value - q.y * v.step),
          [Call.setValue (v.value - q.y * v.step), Call.scrollableOnWheelScrolled])
      ∧ List.countP Call.isSetValue (v.onWheelScrolled (Event.wheel p q)).2 = 1)
    ∧ (v.clickable = false →
        v.onPointerDragged (Event.pointer p q) =
          (v.setValue (v.value - q.y * v.step),
            [Call.setValue (v.value - q.y * v.step), Call.draggableOnPointerDragged])
        ∧ List.countP Call.isSetValue (v.onPointerDragged (Event.pointer p q)).2 = 1) := by
  refine ⟨⟨ImageDial.onWheelScrolled_step d p q hang hr hdstep, ?_⟩, ?_,
    ⟨ImageVSlider.onWheelScrolled_stepped v p q hanch hvws hvhs hvw hvh hvstep, ?_⟩, ?_⟩
  · rw [ImageDial.onWheelScrolled_step d p q hang hr hdstep]
    rfl
  · intro hc
    rw [ImageDial.onPointerDragged_step m d p q hc hang hr hdstep]
    exact ⟨rfl, rfl⟩
  · rw [ImageVSlider.onWheelScrolled_stepped v p q hanch hvws hvhs hvw hvh hvstep]
    rfl
  · intro hc
    rw [ImageVSlider.onPointerDragged_stepped v p q hc hanch hvws hvhs hvw hvh hvstep]
    exact ⟨rfl, rfl⟩

end ClaimC7

/-- Witness of C7: the sample dial and sample slider with `step = 1/10`, not
clickable, and an event of delta `(0, 1)`. -/
theorem ImageDial.relative_delta_with_step_witness :
    ((ImageDial.sample (0 : ℝ) 6 (1 / 10) false).onWheelScrolled
        (Event.wheel (Point.mk 50 50) (Point.mk 0 1))).2
      = [Call.setValue
          ((ImageDial.sample (0 : ℝ) 6 (1 / 10) false).value
            - (Point.mk (0 : ℝ) 1).y * (ImageDial.sample (0 : ℝ) 6 (1 / 10) false).step),
          Call.scrollableOnWheelScrolled]
    ∧ ((ImageVSlider.sample (0 : ℝ) 0 100 0 0 (1 / 10) false).onPointerDragged
        (Event.pointer (Point.mk 50 50) (Point.mk 0 1))).2
      = [Call.setValue
          ((ImageVSlider.sample (0 : ℝ) 0 100 0 0 (1 / 10) false).value
            - (Point.mk (0 : ℝ) 1).y
              * (ImageVSlider.sample (0 : ℝ) 0 100 0 0 (1 / 10) false).step),
          Call.draggableOnPointerDragged] := by
  have h := ImageDial.relative_delta_with_step (Libm.mk Real.sqrt Real.arccos Real.pi)
    (ImageDial.sample (0 : ℝ) 6 (1 / 10) false)
    (ImageVSlider.sample (0 : ℝ) 0 100 0 0 (1 / 10) false) (Point.mk 50 50) (Point.mk 0 1)
    (by norm_num [ImageDial.sample]) (by norm_num [ImageVSlider.sample])
    (by norm_num [ImageDial.sample]) (by norm_num [ImageDial.sample])
    (by norm_num [ImageVSlider.sample]) (by norm_num [ImageVSlider.sample])
    (by norm_num [ImageVSlider.sample]) (by norm_num [ImageVSlider.sample])
    (by norm_num [ImageVSlider.sample])
  refine ⟨?_, ?_⟩
  · rw [h.1.1]
  · rw [(h.2.2.2 rfl).1]

section ClaimC8

variable {F : Type} [LinearOrderedField F] [FloorRing F]

/-- C8 (amended): vertical slider with `step = 0.1`, draggable but not
clickable, under valid geometry. A drag with vertical delta `-5` calls
`setValue (prior + 5 * 0.1)` exactly once; from a prior value on the step grid,
`min + k * 0.1`, with `prior + 5 * 0.1 <= max`, the stored value is
`prior + 5 * 0.1`: five increments above the prior value, one per pixel. -/
theorem ImageVSlider.onPointerDragged_five_steps (v : ImageVSlider F) (p q : Point F) (k : ℕ)
    (hstep : v.step = 1 / 10) (hc : v.clickable = false) (hq : q.y = -5)
    (hanch : v.staticAnchors.1.y ≠ v.staticAnchors.2.y)
    (hvw : 1 ≤ v.effectiveWidth) (hvh : 1 ≤ v.effectiveHeight)
    (hvws : (1 : F) ≤ (v.staticImageWidth : F)) (hvhs : (1 : F) ≤ (v.staticImageHeight : F))
    (hgrid : v.value = v.min + (k : F) * (1 / 10))
    (hmax : v.value + 5 * (1 / 10) ≤ v.max) :
    (v.onPointerDragged (Event.pointer p q)).2
        = [Call.setValue (v.value + 5 * (1 / 10)), Call.draggableOnPointerDragged]
      ∧ (v.onPointerDragged (Event.pointer p q)).1.value = v.value + 5 * (1 / 10) := by
  have hne : v.step ≠ 0 := by
    rw [hstep]
    norm_num
  have harg : v.value - q.y * v.step = v.value + 5 * (1 / 10) := by
    rw [hq, hstep]
    ring
  rw [ImageVSlider.onPointerDragged_stepped v p q hc hanch hvws hvhs hvw hvh hne, harg]
  refine ⟨rfl, ?_⟩
  have hval : v.value + 5 * (1 / 10) = v.min + ((k + 5 : ℕ) : F) * v.step := by
    rw [hgrid, hstep]
    push_cast
    ring
  have hpos : 0 < v.step := by
    rw [hstep]
    norm_num
  show (v.toValueable.setValue (v.value + 5 * (1 / 10))).value = v.value + 5 * (1 / 10)
  rw [hval]
  apply Valueable.setValue_on_grid v.toValueable (k + 5) hpos
  rw [← hval]
  exact hmax

end ClaimC8

/-- Witness of C8: the sample slider with `step = 1/10`, not clickable, at the
value `3/10`; a drag with delta `(0, -5)` stores `8/10`. -/
theorem ImageVSlider.onPointerDragged_five_steps_witness :
    ((ImageVSlider.sample (0 : ℚ) 0 100 0 (3 / 10) (1 / 10) false).onPointerDragged
        (Event.pointer (Point.mk 50 50) (Point.mk 0 (-5)))).1.value = 8 / 10 := by
  have h := ImageVSlider.onPointerDragged_five_steps
    (ImageVSlider.sample (0 : ℚ) 0 100 0 (3 / 10) (1 / 10) false)
    (Point.mk 50 50) (Point.mk 0 (-5)) 3 rfl rfl rfl
    (by norm_num [ImageVSlider.sample]) (by norm_num [ImageVSlider.sample])
    (by norm_num [ImageVSlider.sample]) (by norm_num [ImageVSlider.sample])
    (by norm_num [ImageVSlider.sample]) (by norm_num [ImageVSlider.sample])
    (by norm_num [ImageVSlider.sample])
  rw [h.2]
  norm_num [ImageVSlider.sample]

/-- C8 (counterexample): the sample slider, 100 tall with anchors 100 apart,
`step = 1/10`, not clickable, at value `0` in the range `[0, 1]`. A drag with
vertical delta `-5` calls `setValue (1/2)` and stores `1/2`, which is neither
the prior value nor one increment above it. -/
theorem ImageVSlider.onPointerDragged_not_one_step :
    ((ImageVSlider.sample (0 : ℚ) 0 100 0 0 (1 / 10) false).onPointerDragged
        (Event.pointer (Point.mk 50 50) (Point.mk 0 (-5)))).2
      = [Call.setValue (1 / 2), Call.draggableOnPointerDragged]
    ∧ ((ImageVSlider.sample (0 : ℚ) 0 100 0 0 (1 / 10) false).onPointerDragged
        (Event.pointer (Point.mk 50 50) (Point.mk 0 (-5)))).1.value = 1 / 2
    ∧ ((ImageVSlider.sample (0 : ℚ) 0 100 0 0 (1 / 10) false).onPointerDragged
        (Event.pointer (Point.mk 50 50) (Point.mk 0 (-5)))).1.value
      ≠ (ImageVSlider.sample (0 : ℚ) 0 100 0 0 (1 / 10) false).value
    ∧ ((ImageVSlider.sample (0 : ℚ) 0 100 0 0 (1 / 10) false).onPointerDragged
        (Event.pointer (Point.mk 50 50) (Point.mk 0 (-5)))).1.value
      ≠ (ImageVSlider.sample (0 : ℚ) 0 100 0 0 (1 / 10) false).value + 1 / 10 := by
  have h : ((ImageVSlider.sample (0 : ℚ) 0 100 0 0 (1 / 10) false).onPointerDragged
      (Event.pointer (Point.mk 50 50) (Point.mk 0 (-5)))).1.value = 1 / 2 := by
    rw [ImageVSlider.onPointerDragged_stepped _ _ _ rfl (by norm_num [ImageVSlider.sample])
      (by norm_num [ImageVSlider.sample]) (by norm_num [ImageVSlider.sample])
      (by norm_num [ImageVSlider.sample]) (by norm_num [ImageVSlider.sample])
      (by norm_num [ImageVSlider.sample])]
    have hv := Valueable.setValue_on_grid
      (ImageVSlider.sample (0 : ℚ) 0 100 0 0 (1 / 10) false).toValueable 5
      (by norm_num [ImageVSlider.sample]) (by norm_num [ImageVSlider.sample])
    have harg : (ImageVSlider.sample (0 : ℚ) 0 100 0 0 (1 / 10) false).value
        - (Point.mk (0 : ℚ) (-5)).y * (ImageVSlider.sample (0 : ℚ) 0 100 0 0 (1 / 10) false).step
        = (ImageVSlider.sample (0 : ℚ) 0 100 0 0 (1 / 10) false).min
          + ((5 : ℕ) : ℚ) * (ImageVSlider.sample (0 : ℚ) 0 100 0 0 (1 / 10) false).step := by
      norm_num [ImageVSlider.sample]
    rw [harg]
    show ((ImageVSlider.sample (0 : ℚ) 0 100 0 0 (1 / 10) false).toValueable.setValue _).value
      = 1 / 2
    rw [hv]
    norm_num [ImageVSlider.sample]
  refine ⟨?_, h, ?_, ?_⟩
  · rw [ImageVSlider.onPointerDragged_stepped _ _ _ rfl (by norm_num [ImageVSlider.sample])
      (by norm_num [ImageVSlider.sample]) (by norm_num [ImageVSlider.sample])
      (by norm_num [ImageVSlider.sample]) (by norm_num [ImageVSlider.sample])
      (by norm_num [ImageVSlider.sample])]
    norm_num [ImageVSlider.sample]
  · rw [h]
    norm_num [ImageVSlider.sample]
  · rw [h]
    norm_num [ImageVSlider.sample]

/-- C9: continuous wheel on the dial. With `step = 0`, `minAngle != maxAngle`
and `r = 0.5 * min (w, h) >= 1`, `onWheelScrolled` calls
`setValue (getValueFromRatio ρ')` with `ρ = getRatioFromValue (getValue())` and
`ρ' = ρ - delta.y / ((maxAngle - minAngle) * r)`. With `maxAngle - minAngle = π`,
`r = 50` and `delta.y = 1` this is `ρ' = ρ - 1 / (π * 50)`, so
`|ρ' - ρ| = 1 / (π * 50)`. -/
theorem ImageDial.onWheelScrolled_continuous_shift :
    (∀ (F : Type) [LinearOrderedField F] [FloorRing F] (d : ImageDial F) (p q : Point F),
      d.step = 0 → d.staticMinAngle ≠ d.staticMaxAngle →
      1 ≤ (1 / 2) * Min.min d.effectiveWidth d.effectiveHeight →
      d.onWheelScrolled (Event.wheel p q) =
        (d.setValue (d.getValueFromRatio (d.getRatioFromValue d.value
            - q.y / ((d.staticMaxAngle - d.staticMinAngle)
              * ((1 / 2) * Min.min d.effectiveWidth d.effectiveHeight)))),
          [Call.getRatioFromValue d.value,
           Call.getValueFromRatio (d.getRatioFromValue d.value
            - q.y / ((d.staticMaxAngle - d.staticMinAngle)
              * ((1 / 2) * Min.min d.effectiveWidth d.effectiveHeight))),
           Call.setValue (d.getValueFromRatio (d.getRatioFromValue d.value
            - q.y / ((d.staticMaxAngle - d.staticMinAngle)
              * ((1 / 2) * Min.min d.effectiveWidth d.effectiveHeight)))),
           Call.scrollableOnWheelScrolled]))
    ∧
    (∀ (d : ImageDial ℝ) (p q : Point ℝ),
      d.step = 0 → d.staticMaxAngle - d.staticMinAngle = Real.pi →
      (1 / 2) * Min.min d.effectiveWidth d.effectiveHeight = 50 → q.y = 1 →
      ∃ ratio : ℝ,
        d.onWheelScrolled (Event.wheel p q) =
          (d.setValue (d.getValueFromRatio ratio),
            [Call.getRatioFromValue d.value, Call.getValueFromRatio ratio,
              Call.setValue (d.getValueFromRatio ratio), Call.scrollableOnWheelScrolled])
        ∧ ratio = d.getRatioFromValue d.value - 1 / (Real.pi * 50)
        ∧ |ratio - d.getRatioFromValue d.value| = 1 / (Real.pi * 50)) := by
  constructor
  · intro F _ _ d p q hstep hang hr
    exact ImageDial.onWheelScrolled_continuous d p q hang hr hstep
  · intro d p q hstep hspan hrad hq
    have hpi := Real.pi_pos
    have hang : d.staticMinAngle ≠ d.staticMaxAngle := by
      intro h
      rw [h, sub_self] at hspan
      linarith
    have hr : 1 ≤ (1 / 2) * Min.min d.effectiveWidth d.effectiveHeight := by
      rw [hrad]
      norm_num
    refine ⟨d.getRatioFromValue d.value - 1 / (Real.pi * 50), ?_, rfl, ?_⟩
    · rw [ImageDial.onWheelScrolled_continuous d p q hang hr hstep, hspan, hrad, hq]
    · have hpos : 0 < 1 / (Real.pi * 50) := by positivity
      rw [sub_sub_cancel_left, abs_neg, abs_of_pos hpos]

/-- Witness of C9: the sample dial (`r = 50`) with window `[0, π]` and
`step = 0`, scrolled with delta `(0, 1)`. -/
theorem ImageDial.onWheelScrolled_continuous_shift_witness :
    ∃ ratio : ℝ,
      (ImageDial.sample (0 : ℝ) Real.pi 0 true).onWheelScrolled
          (Event.wheel (Point.mk 50 50) (Point.mk 0 1)) =
        ((ImageDial.sample (0 : ℝ) Real.pi 0 true).setValue
            ((ImageDial.sample (0 : ℝ) Real.pi 0 true).getValueFromRatio ratio),
          [Call.getRatioFromValue (ImageDial.sample (0 : ℝ) Real.pi 0 true).value,
            Call.getValueFromRatio ratio,
            Call.setValue ((ImageDial.sample (0 : ℝ) Real.pi 0 true).getValueFromRatio ratio),
            Call.scrollableOnWheelScrolled])
      ∧ ratio = (ImageDial.sample (0 : ℝ) Real.pi 0 true).getRatioFromValue
          (ImageDial.sample (0 : ℝ) Real.pi 0 true).value - 1 / (Real.pi * 50)
      ∧ |ratio - (ImageDial.sample (0 : ℝ) Real.pi 0 true).getRatioFromValue
          (ImageDial.sample (0 : ℝ) Real.pi 0 true).value| = 1 / (Real.pi * 50) :=
  ImageDial.onWheelScrolled_continuous_shift.2 (ImageDial.sample (0 : ℝ) Real.pi 0 true)
    (Point.mk 50 50) (Point.mk 0 1) rfl
    (by
      show Real.pi - 0 = Real.pi
      ring)
    (by norm_num [ImageDial.sample]) rfl

section ClaimC10

variable {F : Type} [LinearOrderedField F] [FloorRing F]

/-- C10 (amended): direction in continuous mode (`step = 0`, valid geometry).
On a dial with `minAngle < maxAngle` a wheel event or a drag on the dial when
not clickable requests a ratio strictly smaller than the current ratio
`getRatioFromValue (getValue())` for `delta.y > 0` and a strictly larger one for
`delta.y < 0`. On a slider the same holds when the max anchor lies above the
min anchor (`second.y < first.y`); when it lies below (`second.y > first.y`) the
direction is the opposite one. -/
theorem ImageDial.continuous_direction (m : Libm F) (d : ImageDial F) (v : ImageVSlider F)
    (p q : Point F)
    (hdstep : d.step = 0) (hvstep : v.step = 0)
    (hwin : d.staticMinAngle < d.staticMaxAngle)
    (hr : 1 ≤ (1 / 2) * Min.min d.effectiveWidth d.effectiveHeight)
    (hanch : v.staticAnchors.1.y ≠ v.staticAnchors.2.y)
    (hvw : 1 ≤ v.effectiveWidth) (hvh : 1 ≤ v.effectiveHeight)
    (hvws : (1 : F) ≤ (v.staticImageWidth : F)) (hvhs : (1 : F) ≤ (v.staticImageHeight : F)) :
    (∃ ratio : F,
      Call.requestedRatios (d.onWheelScrolled (Event.wheel p q)).2 = [ratio]
      ∧ (d.clickable = false →
          Call.requestedRatios (d.onPointerDragged m (Event.pointer p q)).2 = [ratio])
      ∧ (0 < q.y → ratio < d.getRatioFromValue d.value)
      ∧ (q.y < 0 → d.getRatioFromValue d.value < ratio))
    ∧ (∃ ratio : F,
      Call.requestedRatios (v.onWheelScrolled (Event.wheel p q)).2 = [ratio]
      ∧ (v.clickable = false →
          Call.requestedRatios (v.onPointerDragged (Event.pointer p q)).2 = [ratio])
      ∧ (v.staticAnchors.2.y < v.staticAnchors.1.y →
          (0 < q.y → ratio < v.getRatioFromValue v.value)
          ∧ (q.y < 0 → v.getRatioFromValue v.value < ratio))
      ∧ (v.staticAnchors.1.y < v.staticAnchors.2.y →
          (0 < q.y → v.getRatioFromValue v.value < ratio)
          ∧ (q.y < 0 → ratio < v.getRatioFromValue v.value))) := by
  have hang : d.staticMinAngle ≠ d.staticMaxAngle := ne_of_lt hwin
  have hszs := ImageVSlider.szs_positive v hvws hvhs hvw hvh
  have hc : 0 < (d.staticMaxAngle - d.staticMinAngle)
      * ((1 / 2) * Min.min d.effectiveWidth d.effectiveHeight) :=
    mul_pos (sub_pos.mpr hwin) (by linarith)
  constructor
  · refine ⟨d.getRatioFromValue d.value - q.y / ((d.staticMaxAngle - d.staticMinAngle)
      * ((1 / 2) * Min.min d.effectiveWidth d.effectiveHeight)), ?_, ?_, ?_, ?_⟩
    · rw [ImageDial.onWheelScrolled_continuous d p q hang hr hdstep]
      rfl
    · intro hcl
      rw [ImageDial.onPointerDragged_continuous m d p q hcl hang hr hdstep]
      rfl
    · exact (sub_div_direction _ _ _ hc).1
    · exact (sub_div_direction _ _ _ hc).2
  · refine ⟨v.getRatioFromValue v.value
      + q.y / ((v.staticAnchors.2.y - v.staticAnchors.1.y) * v.szs), ?_, ?_, ?_, ?_⟩
    · rw [ImageVSlider.onWheelScrolled_stepless v p q hanch hvws hvhs hvw hvh hvstep]
      rfl
    · intro hcl
      rw [ImageVSlider.onPointerDragged_stepless v p q hcl hanch hvws hvhs hvw hvh hvstep]
      rfl
    · intro hup
      have hneg : (v.staticAnchors.2.y - v.staticAnchors.1.y) * v.szs < 0 :=
        mul_neg_of_neg_of_pos (sub_neg.mpr hup) hszs
      exact (add_div_direction _ _ _).2 hneg
    · intro hdown
      have hpos : 0 < (v.staticAnchors.2.y - v.staticAnchors.1.y) * v.szs :=
        mul_pos (sub_pos.mpr hdown) hszs
      exact (add_div_direction _ _ _).1 hpos

end ClaimC10

/-- Witness of C10: the sample dial with window `[0, 6]` and the sample slider
with the max anchor above the min anchor, `step = 0`, scrolled with delta
`(0, 1)`. -/
theorem ImageDial.continuous_direction_witness :
    (∃ ratio : ℝ,
      Call.requestedRatios ((ImageDial.sample (0 : ℝ) 6 0 false).onWheelScrolled
          (Event.wheel (Point.mk 50 50) (Point.mk 0 1))).2 = [ratio]
      ∧ ratio < (ImageDial.sample (0 : ℝ) 6 0 false).getRatioFromValue
          (ImageDial.sample (0 : ℝ) 6 0 false).value)
    ∧ (∃ ratio : ℝ,
      Call.requestedRatios ((ImageVSlider.sample (0 : ℝ) 0 100 0 (1 / 2) 0 false).onWheelScrolled
          (Event.wheel (Point.mk 50 50) (Point.mk 0 1))).2 = [ratio]
      ∧ ratio < (ImageVSlider.sample (0 : ℝ) 0 100 0 (1 / 2) 0 false).getRatioFromValue
          (ImageVSlider.sample (0 : ℝ) 0 100 0 (1 / 2) 0 false).value) := by
  have h := ImageDial.continuous_direction (Libm.mk Real.sqrt Real.arccos Real.pi)
    (ImageDial.sample (0 : ℝ) 6 0 false)
    (ImageVSlider.sample (0 : ℝ) 0 100 0 (1 / 2) 0 false) (Point.mk 50 50) (Point.mk 0 1)
    rfl rfl (by norm_num [ImageDial.sample]) (by norm_num [ImageDial.sample])
    (by norm_num [ImageVSlider.sample]) (by norm_num [ImageVSlider.sample])
    (by norm_num [ImageVSlider.sample]) (by norm_num [ImageVSlider.sample])
    (by norm_num [ImageVSlider.sample])
  obtain ⟨⟨r1, h1, _, h2, _⟩, ⟨r2, h3, _, h4, _⟩⟩ := h
  refine ⟨⟨r1, h1, h2 (by norm_num)⟩, ⟨r2, h3, (h4 ?_).1 (by norm_num)⟩⟩
  norm_num [ImageVSlider.sample]

/-- C10 (counterexample): the sample slider with the min anchor at `y = 0` and
the max anchor at `y = 100`, `step = 0`, value `1/2`, valid geometry. A wheel
event with `delta.y = 1 > 0` requests the ratio `51/100`, which is larger than
the current ratio `1/2`. -/
theorem ImageVSlider.onWheelScrolled_direction_counterexample :
    (ImageVSlider.sample (0 : ℚ) 0 0 100 (1 / 2) 0 false).staticAnchors.1.y
        ≠ (ImageVSlider.sample (0 : ℚ) 0 0 100 (1 / 2) 0 false).staticAnchors.2.y
    ∧ (ImageVSlider.sample (0 : ℚ) 0 0 100 (1 / 2) 0 false).step = 0
    ∧ (0 : ℚ) < (Point.mk (0 : ℚ) 1).y
    ∧ (ImageVSlider.sample (0 : ℚ) 0 0 100 (1 / 2) 0 false).getRatioFromValue
        (ImageVSlider.sample (0 : ℚ) 0 0 100 (1 / 2) 0 false).value = 1 / 2
    ∧ Call.requestedRatios
        ((ImageVSlider.sample (0 : ℚ) 0 0 100 (1 / 2) 0 false).onWheelScrolled
          (Event.wheel (Point.mk 50 50) (Point.mk 0 1))).2 = [51 / 100]
    ∧ ¬ ((51 : ℚ) / 100 < 1 / 2) := by
  have hs := ImageVSlider.sample_szs (0 : ℚ) 0 0 100 (1 / 2) 0 false
  have hrho : (ImageVSlider.sample (0 : ℚ) 0 0 100 (1 / 2) 0 false).getRatioFromValue
      (ImageVSlider.sample (0 : ℚ) 0 0 100 (1 / 2) 0 false).value = 1 / 2 := by
    norm_num [ImageVSlider.sample, Valueable.getRatioFromValue]
  refine ⟨by norm_num [ImageVSlider.sample], rfl, by norm_num, hrho, ?_, by norm_num⟩
  rw [ImageVSlider.onWheelScrolled_stepless _ _ _ (by norm_num [ImageVSlider.sample])
    (by norm_num [ImageVSlider.sample]) (by norm_num [ImageVSlider.sample])
    (by norm_num [ImageVSlider.sample]) (by norm_num [ImageVSlider.sample]) rfl]
  rw [hrho, hs.1]
  norm_num [Call.requestedRatios, ImageVSlider.sample]

/-! ## The handlers, call by call -/

section Shapes

variable {F : Type} [LinearOrderedField F] [FloorRing F]

/-- The press handler of the dial on a pointer event makes either no call
before `Clickable::onButtonPressed` and leaves the dial as it is, or the two
calls `getValueFromRatio` and `setValue`. -/
theorem ImageDial.onButtonPressed_shape (m : Libm F) (d : ImageDial F) (p q : Point F) :
    d.onButtonPressed m (Event.pointer p q) = (d, [Call.clickableOnButtonPressed])
    ∨ ∃ ratio : F, d.onButtonPressed m (Event.pointer p q) =
        (d.setValue (d.getValueFromRatio ratio),
          [Call.getValueFromRatio ratio, Call.setValue (d.getValueFromRatio ratio),
            Call.clickableOnButtonPressed]) := by
  simp only [ImageDial.onButtonPressed]
  split_ifs
  · right
    exact ⟨_, rfl⟩
  · right
    exact ⟨_, rfl⟩
  all_goals
    left
    rfl

/-- The press handler of the slider on a pointer event makes either no call
before `Clickable::onButtonPressed` and leaves the slider as it is, or the two
calls `getValueFromRatio` and `setValue`. -/
theorem ImageVSlider.onButtonPressed_calls (d : ImageVSlider F) (p q : Point F) :
    d.onButtonPressed (Event.pointer p q) = (d, [Call.clickableOnButtonPressed])
    ∨ ∃ ratio : F, d.onButtonPressed (Event.pointer p q) =
        (d.setValue (d.getValueFromRatio ratio),
          [Call.getValueFromRatio ratio, Call.setValue (d.getValueFromRatio ratio),
            Call.clickableOnButtonPressed]) := by
  simp only [ImageVSlider.onButtonPressed]
  split_ifs
  · right
    exact ⟨_, rfl⟩
  · right
    exact ⟨_, rfl⟩
  all_goals
    left
    rfl

/-- The calls of the relative rule of the dial (wheel, and drag when not
clickable) before the handler of the mixin: none, or one `setValue`, or
`getRatioFromValue`, `getValueFromRatio` and `setValue`. -/
theorem ImageDial.onWheelScrolled_shape (d : ImageDial F) (p q : Point F) :
    d.onWheelScrolled (Event.wheel p q) = (d, [Call.scrollableOnWheelScrolled])
    ∨ (∃ x : F, d.onWheelScrolled (Event.wheel p q) =
        (d.setValue x, [Call.setValue x, Call.scrollableOnWheelScrolled]))
    ∨ (∃ ratio : F, d.onWheelScrolled (Event.wheel p q) =
        (d.setValue (d.getValueFromRatio ratio),
          [Call.getRatioFromValue d.value, Call.getValueFromRatio ratio,
            Call.setValue (d.getValueFromRatio ratio), Call.scrollableOnWheelScrolled])) := by
  simp only [ImageDial.onWheelScrolled]
  split_ifs
  · right
    left
    exact ⟨_, rfl⟩
  · right
    right
    exact ⟨_, rfl⟩
  · left
    rfl

/-- The calls of the drag handler of a dial that is not clickable. -/
theorem ImageDial.onPointerDragged_shape (m : Libm F) (d : ImageDial F) (p q : Point F)
    (hc : d.clickable = false) :
    d.onPointerDragged m (Event.pointer p q) = (d, [Call.draggableOnPointerDragged])
    ∨ (∃ x : F, d.onPointerDragged m (Event.pointer p q) =
        (d.setValue x, [Call.setValue x, Call.draggableOnPointerDragged]))
    ∨ (∃ ratio : F, d.onPointerDragged m (Event.pointer p q) =
        (d.setValue (d.getValueFromRatio ratio),
          [Call.getRatioFromValue d.value, Call.getValueFromRatio ratio,
            Call.setValue (d.getValueFromRatio ratio), Call.draggableOnPointerDragged])) := by
  simp only [ImageDial.onPointerDragged, hc, Bool.false_eq_true, if_false]
  split_ifs
  · right
    left
    exact ⟨_, rfl⟩
  · right
    right
    exact ⟨_, rfl⟩
  · left
    rfl

/-- The calls of the wheel handler of the slider. -/
theorem ImageVSlider.onWheelScrolled_calls (d : ImageVSlider F) (p q : Point F) :
    d.onWheelScrolled (Event.wheel p q) = (d, [Call.scrollableOnWheelScrolled])
    ∨ (∃ x : F, d.onWheelScrolled (Event.wheel p q) =
        (d.setValue x, [Call.setValue x, Call.scrollableOnWheelScrolled]))
    ∨ (∃ ratio : F, d.onWheelScrolled (Event.wheel p q) =
        (d.setValue (d.getValueFromRatio ratio),
          [Call.getRatioFromValue d.value, Call.getValueFromRatio ratio,
            Call.setValue (d.getValueFromRatio ratio), Call.scrollableOnWheelScrolled])) := by
  simp only [ImageVSlider.onWheelScrolled]
  split_ifs
  · right
    left
    exact ⟨_, rfl⟩
  · right
    right
    exact ⟨_, rfl⟩
  all_goals
    left
    rfl

/-- The calls of the drag handler of a slider that is not clickable. -/
theorem ImageVSlider.onPointerDragged_calls (d : ImageVSlider F) (p q : Point F)
    (hc : d.clickable = false) :
    d.onPointerDragged (Event.pointer p q) = (d, [Call.draggableOnPointerDragged])
    ∨ (∃ x : F, d.onPointerDragged (Event.pointer p q) =
        (d.setValue x, [Call.setValue x, Call.draggableOnPointerDragged]))
    ∨ (∃ ratio : F, d.onPointerDragged (Event.pointer p q) =
        (d.setValue (d.getValueFromRatio ratio),
          [Call.getRatioFromValue d.value, Call.getValueFromRatio ratio,
            Call.setValue (d.getValueFromRatio ratio), Call.draggableOnPointerDragged])) := by
  simp only [ImageVSlider.onPointerDragged, hc, Bool.false_eq_true, if_false]
  split_ifs
  · right
    left
    exact ⟨_, rfl⟩
  · right
    right
    exact ⟨_, rfl⟩
  all_goals
    left
    rfl

end Shapes



section ClaimC11

variable {F : Type} [LinearOrderedField F] [FloorRing F]

/-- C11: wheel events always use the relative-delta rule. For every dial and
slider and every delta, the values (and ratios) requested by `onWheelScrolled`
are the same whether the widget is clickable or not, and they are those
requested by `onPointerDragged` with the same delta on the widget made not
clickable; the value stored afterwards is the same as well. -/
theorem ImageDial.onWheelScrolled_relative_rule (m : Libm F) (d : ImageDial F)
    (v : ImageVSlider F) (p p2 q : Point F) :
    (Call.requestedValues
        (({ d with clickable := true } : ImageDial F).onWheelScrolled (Event.wheel p q)).2
      = Call.requestedValues
        (({ d with clickable := false } : ImageDial F).onWheelScrolled (Event.wheel p q)).2
    ∧ Call.requestedValues (d.onWheelScrolled (Event.wheel p q)).2
      = Call.requestedValues
        (({ d with clickable := false } : ImageDial F).onPointerDragged m
          (Event.pointer p2 q)).2
    ∧ Call.requestedRatios (d.onWheelScrolled (Event.wheel p q)).2
      = Call.requestedRatios
        (({ d with clickable := false } : ImageDial F).onPointerDragged m
          (Event.pointer p2 q)).2
    ∧ (d.onWheelScrolled (Event.wheel p q)).1.value
      = (({ d with clickable := false } : ImageDial F).onPointerDragged m
          (Event.pointer p2 q)).1.value)
    ∧ (Call.requestedValues
        (({ v with clickable := true } : ImageVSlider F).onWheelScrolled (Event.wheel p q)).2
      = Call.requestedValues
        (({ v with clickable := false } : ImageVSlider F).onWheelScrolled (Event.wheel p q)).2
    ∧ Call.requestedValues (v.onWheelScrolled (Event.wheel p q)).2
      = Call.requestedValues
        (({ v with clickable := false } : ImageVSlider F).onPointerDragged
          (Event.pointer p2 q)).2
    ∧ Call.requestedRatios (v.onWheelScrolled (Event.wheel p q)).2
      = Call.requestedRatios
        (({ v with clickable := false } : ImageVSlider F).onPointerDragged
          (Event.pointer p2 q)).2
    ∧ (v.onWheelScrolled (Event.wheel p q)).1.value
      = (({ v with clickable := false } : ImageVSlider F).onPointerDragged
          (Event.pointer p2 q)).1.value) := by
  refine ⟨⟨?_, ?_, ?_, ?_⟩, ⟨?_, ?_, ?_, ?_⟩⟩
  · simp only [ImageDial.onWheelScrolled]
    split_ifs <;> rfl
  · simp only [ImageDial.onWheelScrolled, ImageDial.onPointerDragged, Bool.false_eq_true,
      if_false]
    split_ifs <;> rfl
  · simp only [ImageDial.onWheelScrolled, ImageDial.onPointerDragged, Bool.false_eq_true,
      if_false]
    split_ifs <;> rfl
  · simp only [ImageDial.onWheelScrolled, ImageDial.onPointerDragged, Bool.false_eq_true,
      if_false]
    split_ifs <;> rfl
  · simp only [ImageVSlider.onWheelScrolled]
    split_ifs <;> rfl
  · simp only [ImageVSlider.onWheelScrolled, ImageVSlider.onPointerDragged, Bool.false_eq_true,
      if_false]
    split_ifs <;> rfl
  · simp only [ImageVSlider.onWheelScrolled, ImageVSlider.onPointerDragged, Bool.false_eq_true,
      if_false]
    split_ifs <;> rfl
  · simp only [ImageVSlider.onWheelScrolled, ImageVSlider.onPointerDragged, Bool.false_eq_true,
      if_false]
    split_ifs <;> rfl

end ClaimC11

section NoOp

variable {F : Type} [LinearOrderedField F] [FloorRing F]

/-- The press handler of the dial makes no `setValue` call and leaves the dial
as it is when one of its guards fails. -/
theorem ImageDial.onButtonPressed_no_op (m : Libm F) (d : ImageDial F) (e : Event F)
    (h : d.staticMinAngle = d.staticMaxAngle ∨ d.effectiveWidth < 1 ∨ d.effectiveHeight < 1
      ∨ (d.staticImageWidth : F) < 1 ∨ (d.staticImageHeight : F) < 1
      ∨ ∃ p q, e = Event.pointer p q ∧ d.radius m p < 1) :
    (d.onButtonPressed m e).1 = d ∧ Call.requestedValues (d.onButtonPressed m e).2 = [] := by
  cases e with
  | pointer p q =>
    simp only [ImageDial.onButtonPressed]
    split_ifs with h1 h2 h3 h4 h5
    all_goals first
      | exact ⟨rfl, rfl⟩
      | (exfalso
         rcases h with h | h | h | h | h | ⟨p2, q2, he, h⟩
         · exact h1 h
         · exact absurd h2.2.2.1 (not_le.mpr h)
         · exact absurd h2.2.2.2 (not_le.mpr h)
         · exact absurd h2.1 (not_le.mpr h)
         · exact absurd h2.2.1 (not_le.mpr h)
         · injection he with hp hq
           rw [← hp] at h
           exact absurd h3 (not_le.mpr h))
  | wheel p q => exact ⟨rfl, rfl⟩
  | other => exact ⟨rfl, rfl⟩

/-- The press handler of the slider makes no `setValue` call and leaves the
slider as it is when one of its guards fails. -/
theorem ImageVSlider.onButtonPressed_idle (v : ImageVSlider F) (e : Event F)
    (h : v.staticAnchors.1.y = v.staticAnchors.2.y ∨ v.effectiveWidth < 1
      ∨ v.effectiveHeight < 1 ∨ (v.staticImageWidth : F) < 1
      ∨ (v.staticImageHeight : F) < 1) :
    (v.onButtonPressed e).1 = v ∧ Call.requestedValues (v.onButtonPressed e).2 = [] := by
  cases e with
  | pointer p q =>
    simp only [ImageVSlider.onButtonPressed]
    split_ifs with h1 h2 h3
    all_goals first
      | exact ⟨rfl, rfl⟩
      | (exfalso
         rcases h with h | h | h | h | h
         · exact h1 h
         · exact absurd h2.2.2.1 (not_le.mpr h)
         · exact absurd h2.2.2.2 (not_le.mpr h)
         · exact absurd h2.1 (not_le.mpr h)
         · exact absurd h2.2.1 (not_le.mpr h))
  | wheel p q => exact ⟨rfl, rfl⟩
  | other => exact ⟨rfl, rfl⟩

/-- The wheel handler of the slider makes no `setValue` call and leaves the
slider as it is when one of its guards fails. -/
theorem ImageVSlider.onWheelScrolled_idle (v : ImageVSlider F) (e : Event F)
    (h : v.staticAnchors.1.y = v.staticAnchors.2.y ∨ v.effectiveWidth < 1
      ∨ v.effectiveHeight < 1 ∨ (v.staticImageWidth : F) < 1
      ∨ (v.staticImageHeight : F) < 1) :
    (v.onWheelScrolled e).1 = v ∧ Call.requestedValues (v.onWheelScrolled e).2 = [] := by
  cases e with
  | wheel p q =>
    simp only [ImageVSlider.onWheelScrolled]
    split_ifs with h1 h2 h3
    all_goals first
      | exact ⟨rfl, rfl⟩
      | (exfalso
         rcases h with h | h | h | h | h
         · exact h1 h
         · exact absurd h2.2.2.1 (not_le.mpr h)
         · exact absurd h2.2.2.2 (not_le.mpr h)
         · exact absurd h2.1 (not_le.mpr h)
         · exact absurd h2.2.1 (not_le.mpr h))
  | pointer p q => exact ⟨rfl, rfl⟩
  | other => exact ⟨rfl, rfl⟩

/-- The drag handler of the slider, clickable or not, makes no `setValue` call
and leaves the slider as it is when one of its guards fails. -/
theorem ImageVSlider.onPointerDragged_idle (v : ImageVSlider F) (e : Event F)
    (h : v.staticAnchors.1.y = v.staticAnchors.2.y ∨ v.effectiveWidth < 1
      ∨ v.effectiveHeight < 1 ∨ (v.staticImageWidth : F) < 1
      ∨ (v.staticImageHeight : F) < 1) :
    (v.onPointerDragged e).1 = v ∧ Call.requestedValues (v.onPointerDragged e).2 = [] := by
  by_cases hc : v.clickable = true
  · have hp := ImageVSlider.onButtonPressed_idle v e h
    simp only [ImageVSlider.onPointerDragged, hc, if_true]
    refine ⟨hp.1, ?_⟩
    cases e with
    | pointer p q =>
      rcases ImageVSlider.onButtonPressed_calls v p q with h1 | ⟨r, h1⟩
      · rw [h1]
        rfl
      · rw [h1] at hp
        exact absurd hp.2 (by simp [Call.requestedValues])
    | wheel p q => rfl
    | other => rfl
  · have hc : v.clickable = false := Bool.eq_false_iff.mpr hc
    cases e with
    | pointer p q =>
      simp only [ImageVSlider.onPointerDragged, hc, Bool.false_eq_true, if_false]
      split_ifs with h1 h2 h3
      all_goals first
        | exact ⟨rfl, rfl⟩
        | (exfalso
           rcases h with h | h | h | h | h
           · exact h1 h
           · exact absurd h2.2.2.1 (not_le.mpr h)
           · exact absurd h2.2.2.2 (not_le.mpr h)
           · exact absurd h2.1 (not_le.mpr h)
           · exact absurd h2.2.1 (not_le.mpr h))
    | wheel p q =>
      simp only [ImageVSlider.onPointerDragged, hc, Bool.false_eq_true, if_false]
      exact ⟨trivial, rfl⟩
    | other =>
      simp only [ImageVSlider.onPointerDragged, hc, Bool.false_eq_true, if_false]
      exact ⟨trivial, rfl⟩

/-- The wheel handler of the dial makes no `setValue` call and leaves the dial
as it is when its guard fails. -/
theorem ImageDial.onWheelScrolled_no_op (d : ImageDial F) (e : Event F)
    (h : d.staticMinAngle = d.staticMaxAngle
      ∨ (1 / 2) * Min.min d.effectiveWidth d.effectiveHeight < 1) :
    (d.onWheelScrolled e).1 = d ∧ Call.requestedValues (d.onWheelScrolled e).2 = [] := by
  cases e with
  | wheel p q =>
    simp only [ImageDial.onWheelScrolled]
    split_ifs with h1 h2
    · exfalso
      rcases h with h | h
      · exact h1.1 h
      · exact absurd h1.2 (not_le.mpr h)
    · exfalso
      rcases h with h | h
      · exact h1.1 h
      · exact absurd h1.2 (not_le.mpr h)
    · exact ⟨rfl, rfl⟩
  | pointer p q => exact ⟨rfl, rfl⟩
  | other => exact ⟨rfl, rfl⟩

/-- The drag handler of a dial that is not clickable makes no `setValue` call
and leaves the dial as it is when its guard fails. -/
theorem ImageDial.onPointerDragged_no_op (m : Libm F) (d : ImageDial F) (e : Event F)
    (hc : d.clickable = false)
    (h : d.staticMinAngle = d.staticMaxAngle
      ∨ (1 / 2) * Min.min d.effectiveWidth d.effectiveHeight < 1) :
    (d.onPointerDragged m e).1 = d ∧ Call.requestedValues (d.onPointerDragged m e).2 = [] := by
  cases e with
  | pointer p q =>
    simp only [ImageDial.onPointerDragged, hc, Bool.false_eq_true, if_false]
    split_ifs with h1 h2
    · exfalso
      rcases h with h | h
      · exact h1.1 h
      · exact absurd h1.2 (not_le.mpr h)
    · exfalso
      rcases h with h | h
      · exact h1.1 h
      · exact absurd h1.2 (not_le.mpr h)
    · exact ⟨rfl, rfl⟩
  | wheel p q =>
    simp only [ImageDial.onPointerDragged, hc, Bool.false_eq_true, if_false]
    exact ⟨trivial, rfl⟩
  | other =>
    simp only [ImageDial.onPointerDragged, hc, Bool.false_eq_true, if_false]
    exact ⟨trivial, rfl⟩

end NoOp

section ClaimC12

variable {F : Type} [LinearOrderedField F] [FloorRing F]

/-- C12: invalid geometry is a silent no-op. `ImageDial::onButtonPressed` makes
no `setValue` call when `minAngle = maxAngle`, or the effective width or height
is below 1, or the width or height of the static image is below 1, or the
pointer is closer than 1 to the centre; the three handlers of `ImageVSlider`
make none when the two anchors have equal `y` or one of the four sizes is below
1; the wheel handler and the drag handler (when not clickable) of `ImageDial`
make none when `minAngle = maxAngle` or `0.5 * min (w, h) < 1`. In each case
the widget, in particular the value, is as before. -/
theorem ImageDial.invalid_geometry_no_op (m : Libm F) (d : ImageDial F) (v : ImageVSlider F)
    (e : Event F) :
    ((d.staticMinAngle = d.staticMaxAngle ∨ d.effectiveWidth < 1 ∨ d.effectiveHeight < 1
        ∨ (d.staticImageWidth : F) < 1 ∨ (d.staticImageHeight : F) < 1
        ∨ ∃ p q, e = Event.pointer p q ∧ d.radius m p < 1) →
      (d.onButtonPressed m e).1 = d ∧ (d.onButtonPressed m e).1.value = d.value
        ∧ Call.requestedValues (d.onButtonPressed m e).2 = [])
    ∧ ((v.staticAnchors.1.y = v.staticAnchors.2.y ∨ v.effectiveWidth < 1
        ∨ v.effectiveHeight < 1 ∨ (v.staticImageWidth : F) < 1
        ∨ (v.staticImageHeight : F) < 1) →
      ((v.onButtonPressed e).1 = v ∧ (v.onButtonPressed e).1.value = v.value
        ∧ Call.requestedValues (v.onButtonPressed e).2 = [])
      ∧ ((v.onPointerDragged e).1 = v ∧ (v.onPointerDragged e).1.value = v.value
        ∧ Call.requestedValues (v.onPointerDragged e).2 = [])
      ∧ ((v.onWheelScrolled e).1 = v ∧ (v.onWheelScrolled e).1.value = v.value
        ∧ Call.requestedValues (v.onWheelScrolled e).2 = []))
    ∧ ((d.staticMinAngle = d.staticMaxAngle
        ∨ (1 / 2) * Min.min d.effectiveWidth d.effectiveHeight < 1) →
      ((d.onWheelScrolled e).1 = d ∧ (d.onWheelScrolled e).1.value = d.value
        ∧ Call.requestedValues (d.onWheelScrolled e).2 = [])
      ∧ (d.clickable = false →
        (d.onPointerDragged m e).1 = d ∧ (d.onPointerDragged m e).1.value = d.value
          ∧ Call.requestedValues (d.onPointerDragged m e).2 = [])) := by
  refine ⟨fun h => ?_, fun h => ⟨?_, ?_, ?_⟩, fun h => ⟨?_, fun hc => ?_⟩⟩
  · have := ImageDial.onButtonPressed_no_op m d e h
    exact ⟨this.1, by rw [this.1], this.2⟩
  · have := ImageVSlider.onButtonPressed_idle v e h
    exact ⟨this.1, by rw [this.1], this.2⟩
  · have := ImageVSlider.onPointerDragged_idle v e h
    exact ⟨this.1, by rw [this.1], this.2⟩
  · have := ImageVSlider.onWheelScrolled_idle v e h
    exact ⟨this.1, by rw [this.1], this.2⟩
  · have := ImageDial.onWheelScrolled_no_op d e h
    exact ⟨this.1, by rw [this.1], this.2⟩
  · have := ImageDial.onPointerDragged_no_op m d e hc h
    exact ⟨this.1, by rw [this.1], this.2⟩

end ClaimC12

/-- Witness of C12: the sample dial with `minAngle = maxAngle = 0` and the
sample slider with both anchors at `y = 100`, with a pointer event at
`(49, 51)`. -/
theorem ImageDial.invalid_geometry_no_op_witness :
    Call.requestedValues
        ((ImageDial.sample (0 : ℝ) 0 (1 / 10) false).onButtonPressed
          (Libm.mk Real.sqrt Real.arccos Real.pi)
          (Event.pointer (Point.mk 49 51) (Point.mk 0 1))).2 = []
    ∧ ((ImageVSlider.sample (0 : ℝ) 0 100 100 0 (1 / 10) false).onPointerDragged
          (Event.pointer (Point.mk 49 51) (Point.mk 0 1))).1.value
        = (ImageVSlider.sample (0 : ℝ) 0 100 100 0 (1 / 10) false).value
    ∧ Call.requestedValues
        ((ImageDial.sample (0 : ℝ) 0 (1 / 10) false).onPointerDragged
          (Libm.mk Real.sqrt Real.arccos Real.pi)
          (Event.pointer (Point.mk 49 51) (Point.mk 0 1))).2 = [] := by
  have h := ImageDial.invalid_geometry_no_op (Libm.mk Real.sqrt Real.arccos Real.pi)
    (ImageDial.sample (0 : ℝ) 0 (1 / 10) false)
    (ImageVSlider.sample (0 : ℝ) 0 100 100 0 (1 / 10) false)
    (Event.pointer (Point.mk 49 51) (Point.mk 0 1))
  exact ⟨(h.1 (Or.inl rfl)).2.2, (h.2.1 (Or.inl rfl)).2.1.2.1,
    ((h.2.2 (Or.inl rfl)).2 rfl).2.2⟩

section ClaimC13

variable {F : Type} [LinearOrderedField F] [FloorRing F]

/-- C13 (amended): the handlers do not test the range. For every dial and
slider, whatever its `min` and `max` (also with `min >= max`), under valid
geometry `onButtonPressed` on a pointer event calls `getValueFromRatio` and
`setValue` (on the dial when the wrapped angle lies in the window), and
`onWheelScrolled` and `onPointerDragged` on a widget that is not clickable make
exactly one `setValue` call. -/
theorem ImageDial.range_not_tested (m : Libm F) (d : ImageDial F) (v : ImageVSlider F)
    (p q : Point F)
    (hang : d.staticMinAngle ≠ d.staticMaxAngle)
    (hw : 1 ≤ d.effectiveWidth) (hh : 1 ≤ d.effectiveHeight)
    (hws : (1 : F) ≤ (d.staticImageWidth : F)) (hhs : (1 : F) ≤ (d.staticImageHeight : F))
    (hr : 1 ≤ d.radius m p)
    (hlo : d.staticMinAngle ≤ d.wrapAngle m (d.pressAngle m p))
    (hhi : d.wrapAngle m (d.pressAngle m p) ≤ d.staticMaxAngle)
    (hrad : 1 ≤ (1 / 2) * Min.min d.effectiveWidth d.effectiveHeight)
    (hanch : v.staticAnchors.1.y ≠ v.staticAnchors.2.y)
    (hvw : 1 ≤ v.effectiveWidth) (hvh : 1 ≤ v.effectiveHeight)
    (hvws : (1 : F) ≤ (v.staticImageWidth : F)) (hvhs : (1 : F) ≤ (v.staticImageHeight : F)) :
    (∃ ratio : F, (d.onButtonPressed m (Event.pointer p q)).2 =
        [Call.getValueFromRatio ratio, Call.setValue (d.getValueFromRatio ratio),
          Call.clickableOnButtonPressed])
    ∧ (∃ ratio : F, (v.onButtonPressed (Event.pointer p q)).2 =
        [Call.getValueFromRatio ratio, Call.setValue (v.getValueFromRatio ratio),
          Call.clickableOnButtonPressed])
    ∧ (∃ x : F, Call.requestedValues (d.onWheelScrolled (Event.wheel p q)).2 = [x])
    ∧ (∃ x : F, Call.requestedValues (v.onWheelScrolled (Event.wheel p q)).2 = [x])
    ∧ (d.clickable = false →
        ∃ x : F, Call.requestedValues (d.onPointerDragged m (Event.pointer p q)).2 = [x])
    ∧ (v.clickable = false →
        ∃ x : F, Call.requestedValues (v.onPointerDragged (Event.pointer p q)).2 = [x]) := by
  refine ⟨?_, ?_, ?_, ?_, ?_, ?_⟩
  · rw [ImageDial.onButtonPressed_guarded m d p q hang hws hhs hw hh hr, if_pos ⟨hlo, hhi⟩]
    exact ⟨_, rfl⟩
  · rw [ImageVSlider.onButtonPressed_valid v p q hanch hvws hvhs hvw hvh]
    exact ⟨_, rfl⟩
  · by_cases hs : d.step = 0
    · rw [ImageDial.onWheelScrolled_continuous d p q hang hrad hs]
      exact ⟨_, rfl⟩
    · rw [ImageDial.onWheelScrolled_step d p q hang hrad hs]
      exact ⟨_, rfl⟩
  · by_cases hs : v.step = 0
    · rw [ImageVSlider.onWheelScrolled_stepless v p q hanch hvws hvhs hvw hvh hs]
      exact ⟨_, rfl⟩
    · rw [ImageVSlider.onWheelScrolled_stepped v p q hanch hvws hvhs hvw hvh hs]
      exact ⟨_, rfl⟩
  · intro hc
    by_cases hs : d.step = 0
    · rw [ImageDial.onPointerDragged_continuous m d p q hc hang hrad hs]
      exact ⟨_, rfl⟩
    · rw [ImageDial.onPointerDragged_step m d p q hc hang hrad hs]
      exact ⟨_, rfl⟩
  · intro hc
    by_cases hs : v.step = 0
    · rw [ImageVSlider.onPointerDragged_stepless v p q hc hanch hvws hvhs hvw hvh hs]
      exact ⟨_, rfl⟩
    · rw [ImageVSlider.onPointerDragged_stepped v p q hc hanch hvws hvhs hvw hvh hs]
      exact ⟨_, rfl⟩

end ClaimC13

/-- C13 (counterexample): the sample slider with the range `[0, 0]`
(`min >= max`) under valid geometry. A press at `(50, 50)` calls
`getValueFromRatio (1/2)` and `setValue`, and with `step = 1/10` a wheel event of
delta `(0, 1)` calls `setValue (-1/10)`: the computation is not skipped. -/
theorem ImageVSlider.degenerate_range_not_skipped :
    ((ImageVSlider.sample (0 : ℚ) 0 100 0 0 0 true).withRange 0 0).max
        ≤ ((ImageVSlider.sample (0 : ℚ) 0 100 0 0 0 true).withRange 0 0).min
    ∧ (((ImageVSlider.sample (0 : ℚ) 0 100 0 0 0 true).withRange 0 0).onButtonPressed
        (Event.pointer (Point.mk 50 50) (Point.mk 0 0))).2
      = [Call.getValueFromRatio (1 / 2), Call.setValue 0, Call.clickableOnButtonPressed]
    ∧ (((ImageVSlider.sample (0 : ℚ) 0 100 0 0 (1 / 10) true).withRange 0 0).onWheelScrolled
        (Event.wheel (Point.mk 50 50) (Point.mk 0 1))).2
      = [Call.setValue (-1 / 10), Call.scrollableOnWheelScrolled] := by
  refine ⟨le_refl _, ?_, ?_⟩
  · rw [ImageVSlider.onButtonPressed_valid _ _ _
      (by norm_num [ImageVSlider.sample, ImageVSlider.withRange])
      (by norm_num [ImageVSlider.sample, ImageVSlider.withRange])
      (by norm_num [ImageVSlider.sample, ImageVSlider.withRange])
      (by norm_num [ImageVSlider.sample, ImageVSlider.withRange])
      (by norm_num [ImageVSlider.sample, ImageVSlider.withRange])]
    have hs : ((ImageVSlider.sample (0 : ℚ) 0 100 0 0 0 true).withRange 0 0).szs = 1 :=
      (ImageVSlider.sample_szs (0 : ℚ) 0 100 0 0 0 true).1
    have hy : ((ImageVSlider.sample (0 : ℚ) 0 100 0 0 0 true).withRange 0 0).y0s = 0 :=
      (ImageVSlider.sample_szs (0 : ℚ) 0 100 0 0 0 true).2
    rw [hs, hy]
    norm_num [ImageVSlider.sample, ImageVSlider.withRange, Valueable.getValueFromRatio]
  · rw [ImageVSlider.onWheelScrolled_stepped _ _ _
      (by norm_num [ImageVSlider.sample, ImageVSlider.withRange])
      (by norm_num [ImageVSlider.sample, ImageVSlider.withRange])
      (by norm_num [ImageVSlider.sample, ImageVSlider.withRange])
      (by norm_num [ImageVSlider.sample, ImageVSlider.withRange])
      (by norm_num [ImageVSlider.sample, ImageVSlider.withRange])
      (by norm_num [ImageVSlider.sample, ImageVSlider.withRange])]
    norm_num [ImageVSlider.sample, ImageVSlider.withRange]

/-- Witness of C13: the sample dial with window `[0, 3π/2]` and the sample
slider, both with the range `[1, 0]`, and an event at `(49, 51)`. -/
theorem ImageDial.range_not_tested_witness :
    (∃ ratio : ℝ,
      (((ImageDial.sample (0 : ℝ) (3 * Real.pi / 2) 0 false).withRange 1 0).onButtonPressed
          (Libm.mk Real.sqrt Real.arccos Real.pi)
          (Event.pointer (Point.mk 49 51) (Point.mk 0 1))).2 =
        [Call.getValueFromRatio ratio,
          Call.setValue
            (((ImageDial.sample (0 : ℝ) (3 * Real.pi / 2) 0 false).withRange
              1 0).getValueFromRatio ratio),
          Call.clickableOnButtonPressed])
    ∧ (∃ x : ℝ, Call.requestedValues
        (((ImageVSlider.sample (0 : ℝ) 0 100 0 0 0 false).withRange 1 0).onWheelScrolled
          (Event.wheel (Point.mk 49 51) (Point.mk 0 1))).2 = [x]) := by
  have hpi := Real.pi_pos
  have hsw := ImageDial.sample_press_southwest 0 (3 * Real.pi / 2) 0 false
  have hrad : ((ImageDial.sample (0 : ℝ) (3 * Real.pi / 2) 0 false).withRange 1 0).radius
      (Libm.mk Real.sqrt Real.arccos Real.pi) (Point.mk 49 51) = Real.sqrt 2 := hsw.1
  have hangle : ((ImageDial.sample (0 : ℝ) (3 * Real.pi / 2) 0 false).withRange 1 0).pressAngle
      (Libm.mk Real.sqrt Real.arccos Real.pi) (Point.mk 49 51) = 3 * Real.pi / 4 := hsw.2
  have hwrap : ((ImageDial.sample (0 : ℝ) (3 * Real.pi / 2) 0 false).withRange 1 0).wrapAngle
      (Libm.mk Real.sqrt Real.arccos Real.pi)
      (((ImageDial.sample (0 : ℝ) (3 * Real.pi / 2) 0 false).withRange 1 0).pressAngle
        (Libm.mk Real.sqrt Real.arccos Real.pi) (Point.mk 49 51)) = 3 * Real.pi / 4 := by
    rw [hangle]
    apply ImageDial.wrapAngle_of_mem
    · show (0 : ℝ) ≤ 3 * Real.pi / 4
      linarith
    · show 3 * Real.pi / 4 ≤ 3 * Real.pi / 2
      linarith
  have h := ImageDial.range_not_tested (Libm.mk Real.sqrt Real.arccos Real.pi)
    ((ImageDial.sample (0 : ℝ) (3 * Real.pi / 2) 0 false).withRange 1 0)
    ((ImageVSlider.sample (0 : ℝ) 0 100 0 0 0 false).withRange 1 0)
    (Point.mk 49 51) (Point.mk 0 1)
    (by
      show (0 : ℝ) ≠ 3 * Real.pi / 2
      intro h0
      linarith)
    (by norm_num [ImageDial.sample, ImageDial.withRange])
    (by norm_num [ImageDial.sample, ImageDial.withRange])
    (by norm_num [ImageDial.sample, ImageDial.withRange])
    (by norm_num [ImageDial.sample, ImageDial.withRange])
    (by
      rw [hrad]
      exact Real.one_le_sqrt.mpr (by norm_num))
    (by
      rw [hwrap]
      show (0 : ℝ) ≤ 3 * Real.pi / 4
      linarith)
    (by
      rw [hwrap]
      show 3 * Real.pi / 4 ≤ 3 * Real.pi / 2
      linarith)
    (by norm_num [ImageDial.sample, ImageDial.withRange])
    (by norm_num [ImageVSlider.sample, ImageVSlider.withRange])
    (by norm_num [ImageVSlider.sample, ImageVSlider.withRange])
    (by norm_num [ImageVSlider.sample, ImageVSlider.withRange])
    (by norm_num [ImageVSlider.sample, ImageVSlider.withRange])
    (by norm_num [ImageVSlider.sample, ImageVSlider.withRange])
  exact ⟨h.1, h.2.2.2.1⟩

section ClaimC14

variable {F : Type} [LinearOrderedField F] [FloorRing F]

/-- C14 (failing input): an event that is not a pointer event handed to
`onPointerDragged` of a clickable dial or slider. The value is unchanged, but
`Draggable::onPointerDragged` is invoked all the same. The other mismatches
are dropped: `onButtonPressed` on an event that is not a pointer event,
`onWheelScrolled` on an event that is not a wheel event and `onPointerDragged`
of a widget that is not clickable make no call at all. -/
theorem ImageDial.onPointerDragged_mismatch_not_dropped (m : Libm F) (d : ImageDial F)
    (v : ImageVSlider F) (p q : Point F) :
    (({ d with clickable := true } : ImageDial F).onPointerDragged m (Event.wheel p q)
        = (({ d with clickable := true } : ImageDial F), [Call.draggableOnPointerDragged])
      ∧ ({ d with clickable := true } : ImageDial F).onPointerDragged m Event.other
        = (({ d with clickable := true } : ImageDial F), [Call.draggableOnPointerDragged])
      ∧ ({ v with clickable := true } : ImageVSlider F).onPointerDragged (Event.wheel p q)
        = (({ v with clickable := true } : ImageVSlider F), [Call.draggableOnPointerDragged])
      ∧ ({ v with clickable := true } : ImageVSlider F).onPointerDragged Event.other
        = (({ v with clickable := true } : ImageVSlider F), [Call.draggableOnPointerDragged]))
    ∧ (({ d with clickable := false } : ImageDial F).onPointerDragged m (Event.wheel p q)
        = (({ d with clickable := false } : ImageDial F), [])
      ∧ ({ d with clickable := false } : ImageDial F).onPointerDragged m Event.other
        = (({ d with clickable := false } : ImageDial F), [])
      ∧ ({ v with clickable := false } : ImageVSlider F).onPointerDragged (Event.wheel p q)
        = (({ v with clickable := false } : ImageVSlider F), [])
      ∧ ({ v with clickable := false } : ImageVSlider F).onPointerDragged Event.other
        = (({ v with clickable := false } : ImageVSlider F), []))
    ∧ (d.onButtonPressed m (Event.wheel p q) = (d, [])
      ∧ d.onButtonPressed m Event.other = (d, [])
      ∧ v.onButtonPressed (Event.wheel p q) = (v, [])
      ∧ v.onButtonPressed Event.other = (v, []))
    ∧ (d.onWheelScrolled (Event.pointer p q) = (d, [])
      ∧ d.onWheelScrolled Event.other = (d, [])
      ∧ v.onWheelScrolled (Event.pointer p q) = (v, [])
      ∧ v.onWheelScrolled Event.other = (v, [])) := by
  refine ⟨⟨rfl, rfl, rfl, rfl⟩, ⟨rfl, rfl, rfl, rfl⟩, ⟨rfl, rfl, rfl, rfl⟩, ⟨rfl, rfl, rfl, rfl⟩⟩

end ClaimC14

section ClaimC15

variable {F : Type} [LinearOrderedField F] [FloorRing F]

/-- C15: bookkeeping runs last. For every recognised event (a pointer event
for `onButtonPressed` and `onPointerDragged`, a wheel event for
`onWheelScrolled`) the calls of the handler of the dial and of the slider are
some calls followed by the handler of the mixin (`Clickable::onButtonPressed`,
`Draggable::onPointerDragged`, `Scrollable::onWheelScrolled`), which does not
occur among the calls before it: it is the last call, it is made exactly once,
and every `setValue` call precedes it. -/
theorem ImageDial.mixin_handler_last (m : Libm F) (d : ImageDial F) (v : ImageVSlider F)
    (p q : Point F) :
    (∃ pre : List (Call F),
      (d.onButtonPressed m (Event.pointer p q)).2 = pre ++ [Call.clickableOnButtonPressed]
      ∧ ∀ c ∈ pre, c.isMixinHandler = false)
    ∧ (∃ pre : List (Call F),
      (d.onPointerDragged m (Event.pointer p q)).2 = pre ++ [Call.draggableOnPointerDragged]
      ∧ ∀ c ∈ pre, c ≠ Call.draggableOnPointerDragged)
    ∧ (∃ pre : List (Call F),
      (d.onWheelScrolled (Event.wheel p q)).2 = pre ++ [Call.scrollableOnWheelScrolled]
      ∧ ∀ c ∈ pre, c.isMixinHandler = false)
    ∧ (∃ pre : List (Call F),
      (v.onButtonPressed (Event.pointer p q)).2 = pre ++ [Call.clickableOnButtonPressed]
      ∧ ∀ c ∈ pre, c.isMixinHandler = false)
    ∧ (∃ pre : List (Call F),
      (v.onPointerDragged (Event.pointer p q)).2 = pre ++ [Call.draggableOnPointerDragged]
      ∧ ∀ c ∈ pre, c ≠ Call.draggableOnPointerDragged)
    ∧ (∃ pre : List (Call F),
      (v.onWheelScrolled (Event.wheel p q)).2 = pre ++ [Call.scrollableOnWheelScrolled]
      ∧ ∀ c ∈ pre, c.isMixinHandler = false) := by
  refine ⟨?_, ?_, ?_, ?_, ?_, ?_⟩
  · rcases ImageDial.onButtonPressed_shape m d p q with h | ⟨r, h⟩
    · exact ⟨[], by rw [h]; rfl, by simp⟩
    · exact ⟨[Call.getValueFromRatio r, Call.setValue (d.getValueFromRatio r)],
        by rw [h]; rfl, by simp [Call.isMixinHandler]⟩
  · by_cases hc : d.clickable = true
    · have hd : (d.onPointerDragged m (Event.pointer p q)).2
          = (d.onButtonPressed m (Event.pointer p q)).2 ++ [Call.draggableOnPointerDragged] := by
        simp only [ImageDial.onPointerDragged, hc, if_true]
      refine ⟨_, hd, ?_⟩
      rcases ImageDial.onButtonPressed_shape m d p q with h | ⟨r, h⟩
      · rw [h]
        simp
      · rw [h]
        simp
    · have hc : d.clickable = false := Bool.eq_false_iff.mpr hc
      rcases ImageDial.onPointerDragged_shape m d p q hc with h | ⟨x, h⟩ | ⟨r, h⟩
      · exact ⟨[], by rw [h]; rfl, by simp⟩
      · exact ⟨[Call.setValue x], by rw [h]; rfl, by simp⟩
      · exact ⟨[Call.getRatioFromValue d.value, Call.getValueFromRatio r,
          Call.setValue (d.getValueFromRatio r)], by rw [h]; rfl, by simp⟩
  · rcases ImageDial.onWheelScrolled_shape d p q with h | ⟨x, h⟩ | ⟨r, h⟩
    · exact ⟨[], by rw [h]; rfl, by simp⟩
    · exact ⟨[Call.setValue x], by rw [h]; rfl, by simp [Call.isMixinHandler]⟩
    · exact ⟨[Call.getRatioFromValue d.value, Call.getValueFromRatio r,
        Call.setValue (d.getValueFromRatio r)], by rw [h]; rfl, by simp [Call.isMixinHandler]⟩
  · rcases ImageVSlider.onButtonPressed_calls v p q with h | ⟨r, h⟩
    · exact ⟨[], by rw [h]; rfl, by simp⟩
    · exact ⟨[Call.getValueFromRatio r, Call.setValue (v.getValueFromRatio r)],
        by rw [h]; rfl, by simp [Call.isMixinHandler]⟩
  · by_cases hc : v.clickable = true
    · have hd : (v.onPointerDragged (Event.pointer p q)).2
          = (v.onButtonPressed (Event.pointer p q)).2 ++ [Call.draggableOnPointerDragged] := by
        simp only [ImageVSlider.onPointerDragged, hc, if_true]
      refine ⟨_, hd, ?_⟩
      rcases ImageVSlider.onButtonPressed_calls v p q with h | ⟨r, h⟩
      · rw [h]
        simp
      · rw [h]
        simp
    · have hc : v.clickable = false := Bool.eq_false_iff.mpr hc
      rcases ImageVSlider.onPointerDragged_calls v p q hc with h | ⟨x, h⟩ | ⟨r, h⟩
      · exact ⟨[], by rw [h]; rfl, by simp⟩
      · exact ⟨[Call.setValue x], by rw [h]; rfl, by simp⟩
      · exact ⟨[Call.getRatioFromValue v.value, Call.getValueFromRatio r,
          Call.setValue (v.getValueFromRatio r)], by rw [h]; rfl, by simp⟩
  · rcases ImageVSlider.onWheelScrolled_calls v p q with h | ⟨x, h⟩ | ⟨r, h⟩
    · exact ⟨[], by rw [h]; rfl, by simp⟩
    · exact ⟨[Call.setValue x], by rw [h]; rfl, by simp [Call.isMixinHandler]⟩
    · exact ⟨[Call.getRatioFromValue v.value, Call.getValueFromRatio r,
        Call.setValue (v.getValueFromRatio r)], by rw [h]; rfl, by simp [Call.isMixinHandler]⟩

end ClaimC15

/-! ## Construction and cloning -/

/-- C16 (failing input): the full constructors of `ImageDial` and `ImageVSlider`
hand `noTransfer` to the base class in place of `transferFunc` and
`reTransferFunc`. Whatever the constructor of the base class does, the object
built does not depend on the two functions given, so no way of reading a
transfer function back from it returns the one given for every argument list;
the sample arguments with `transferFunc = fun x => 2 * x` build the same object
as with the identity. The full constructor of `RadialMeter` does install the
two functions. -/
theorem ImageDial.new_ignores_transfer :
    (∀ (F M : Type) (base : ImageRadialMeterArgs F → M) (a : ImageRadialMeterArgs F)
        (f g : F → F),
      ImageDial.new base { a with transferFunc := f, reTransferFunc := g }
        = ImageDial.new base a)
    ∧ (∀ (F M : Type) (base : ImageVMeterArgs F → M) (a : ImageVMeterArgs F) (f g : F → F),
      ImageVSlider.new base { a with transferFunc := f, reTransferFunc := g }
        = ImageVSlider.new base a)
    ∧ (∀ (M : Type) (base : ImageRadialMeterArgs ℚ → M) (read : M → ℚ → ℚ),
      ¬ ∀ a : ImageRadialMeterArgs ℚ, read (ImageDial.new base a) = a.transferFunc)
    ∧ (∀ (M : Type) (base : ImageVMeterArgs ℚ → M) (read : M → ℚ → ℚ),
      ¬ ∀ a : ImageVMeterArgs ℚ, read (ImageVSlider.new base a) = a.transferFunc)
    ∧ (∀ (M : Type) (base : ImageRadialMeterArgs ℚ → M),
      ImageDial.new base (ImageDial.sampleArgs (fun x => 2 * x) (fun x => x / 2))
        = ImageDial.new base (ImageDial.sampleArgs (fun x => x) (fun x => x)))
    ∧ (∀ (F C : Type) [LinearOrderedField F] (W : WidgetMembers F C)
        (x y width height value min max step : F) (f g : F → F) (urid : Nat) (title : String),
      (RadialMeter.new W x y width height value min max step f g urid title).transfer = f
      ∧ (RadialMeter.new W x y width height value min max step f g urid title).reTransfer
          = g) := by
  refine ⟨fun F M base a f g => rfl, fun F M base a f g => rfl, ?_, ?_,
    fun M base => rfl, ?_⟩
  · intro M base read h
    have h1 := h (ImageDial.sampleArgs (fun x => 2 * x) (fun x => x / 2))
    have h2 := h (ImageDial.sampleArgs (fun x => x) (fun x => x))
    have h3 : ImageDial.new base (ImageDial.sampleArgs (fun x => 2 * x) (fun x => x / 2))
        = ImageDial.new base (ImageDial.sampleArgs (fun x => x) (fun x => x)) := rfl
    rw [h3, h2] at h1
    have h4 := congrFun h1 1
    norm_num [ImageDial.sampleArgs] at h4
  · intro M base read h
    have h1 := h (ImageVSlider.sampleArgs (fun x => 2 * x) (fun x => x / 2))
    have h2 := h (ImageVSlider.sampleArgs (fun x => x) (fun x => x))
    have h3 : ImageVSlider.new base (ImageVSlider.sampleArgs (fun x => 2 * x) (fun x => x / 2))
        = ImageVSlider.new base (ImageVSlider.sampleArgs (fun x => x) (fun x => x)) := rfl
    rw [h3, h2] at h1
    have h4 := congrFun h1 1
    norm_num [ImageVSlider.sampleArgs] at h4
  · intro F C _ W x y width height value min max step f g urid title
    exact ⟨rfl, rfl⟩

/-- C17 (failing input): `RadialMeter::clone` builds `RadialMeter (urid, title)`
and copies through `Widget::copy` only. Whatever `Widget::copy` and the
constructor of `Widget` do, the clone has value `0`, range `[0, 1]`, step `0`,
the default transfer and gradient functions and the scale area
`(0, 0, 40, 40)`; the clone of the sample meter with value `1/2`, range `[0, 2]`
and step `1/10` has value `0`. `RadialMeter::copy`, which `clone` does not
reach, does take over all of these. -/
theorem RadialMeter.clone_resets_value :
    (∀ (F C : Type) [LinearOrderedField F] (W : WidgetMembers F C) (m : RadialMeter F C),
      (m.clone W).value = 0 ∧ (m.clone W).min = 0 ∧ (m.clone W).max = 1
      ∧ (m.clone W).step = 0
      ∧ (m.clone W).transfer = noTransfer ∧ (m.clone W).reTransfer = noTransfer
      ∧ (m.clone W).scale = Area.mk 0 0 40 40 ∧ (m.clone W).gradient = noTransfer
      ∧ (m.clone W).widget
          = W.copy (W.construct 0 0 40 40 m.widget.urid m.widget.title) m.widget)
    ∧ ((RadialMeter.sample "fg" (1 / 2 : ℚ) 0 2 (1 / 10)).value = 1 / 2
      ∧ ((RadialMeter.sample "fg" (1 / 2 : ℚ) 0 2 (1 / 10)).clone
          (WidgetMembers.sample "fg")).value = 0
      ∧ ((RadialMeter.sample "fg" (1 / 2 : ℚ) 0 2 (1 / 10)).clone
          (WidgetMembers.sample "fg")).max = 1
      ∧ ((RadialMeter.sample "fg" (1 / 2 : ℚ) 0 2 (1 / 10)).clone
          (WidgetMembers.sample "fg")).step = 0)
    ∧ (∀ (F C : Type) [LinearOrderedField F] (W : WidgetMembers F C)
        (self that : RadialMeter F C),
      (self.copy W that).toValueable = that.toValueable
      ∧ (self.copy W that).scale = that.scale
      ∧ (self.copy W that).gradient = that.gradient) := by
  refine ⟨?_, ⟨rfl, rfl, rfl, rfl⟩, ?_⟩
  · intro F C _ W m
    exact ⟨rfl, rfl, rfl, rfl, rfl, rfl, rfl, rfl, rfl⟩
  · intro F C _ W self that
    exact ⟨rfl, rfl, rfl⟩

/-! ## Drawing and colours of the radial meter -/

section DrawLemmas

variable {F C : Type} [LinearOrderedField F]

/-- The operations of `RadialMeter::draw`, case by case: nothing without a
valid surface; `Widget::draw` alone when the minimum requirements fail; with a
failed context only its creation and destruction in addition; otherwise the
clipped meter. -/
theorem RadialMeter.draw_cases (lib : Libm F) (crOk : Bool) (m : RadialMeter F C)
    (area : Area F) :
    (m.widget.surface ≠ some true ∧ m.draw lib crOk area = [])
    ∨ (m.widget.surface = some true
        ∧ ¬ (m.widget.height ≥ 1 ∧ m.widget.width ≥ 1 ∧ m.min < m.max)
        ∧ m.draw lib crOk area = [DrawOp.widgetDraw area])
    ∨ (m.widget.surface = some true
        ∧ (m.widget.height ≥ 1 ∧ m.widget.width ≥ 1 ∧ m.min < m.max) ∧ crOk = false
        ∧ m.draw lib crOk area
          = [DrawOp.widgetDraw area, DrawOp.cairoCreate, DrawOp.cairoDestroy])
    ∨ (m.widget.surface = some true
        ∧ (m.widget.height ≥ 1 ∧ m.widget.width ≥ 1 ∧ m.min < m.max) ∧ crOk = true
        ∧ ∃ xc yc rad start stop drv : F, m.draw lib crOk area
          = [DrawOp.widgetDraw area, DrawOp.cairoCreate,
              DrawOp.cairoRectangle area.x area.y area.width area.height, DrawOp.cairoClip,
              DrawOp.getRatioFromValue m.value,
              DrawOp.drawRMeter xc yc rad start stop drv, DrawOp.cairoDestroy]) := by
  unfold RadialMeter.draw
  rcases hs : m.widget.surface with _ | b
  · left
    exact ⟨by simp, rfl⟩
  · cases b with
    | false =>
      left
      exact ⟨by simp, rfl⟩
    | true =>
      right
      simp only
      by_cases hg : m.widget.height ≥ 1 ∧ m.widget.width ≥ 1 ∧ m.min < m.max
      · right
        rw [if_pos hg]
        cases crOk with
        | false =>
          left
          exact ⟨trivial, hg, rfl, rfl⟩
        | true =>
          right
          refine ⟨trivial, hg, rfl, ?_⟩
          by_cases hstep : m.step ≥ 0
          · simp only [if_true, if_pos hstep]
            exact ⟨_, _, _, _, _, _, rfl⟩
          · simp only [if_true, if_neg hstep]
            exact ⟨_, _, _, _, _, _, rfl⟩
      · left
        rw [if_neg hg]
        exact ⟨trivial, hg, rfl⟩

end DrawLemmas

section ClaimC18

variable {F C : Type} [LinearOrderedField F]

/-- C18: ordering in `RadialMeter::draw (area)`. If the surface is null or its
status is not success, `draw` performs no operation at all. Otherwise
`Widget::draw (area)` is the first operation and occurs only once, and whenever
`drawRMeter` is called, the operations are `Widget::draw (area)`, the creation
of the context, `cairo_rectangle` with the rectangle of `area`, `cairo_clip`,
`getRatioFromValue`, `drawRMeter` and the destruction of the context, in this
order. -/
theorem RadialMeter.draw_ordering (lib : Libm F) (crOk : Bool) (m : RadialMeter F C)
    (area : Area F) :
    ((m.widget.surface = none ∨ m.widget.surface = some false) → m.draw lib crOk area = [])
    ∧ (m.widget.surface = some true →
      ∃ rest : List (DrawOp F), m.draw lib crOk area = DrawOp.widgetDraw area :: rest
        ∧ (∀ op ∈ rest, op.isWidgetDraw = false)
        ∧ ((∃ op ∈ rest, op.isDrawRMeter = true) →
            ∃ xc yc rad start stop drv : F,
              rest = [DrawOp.cairoCreate,
                DrawOp.cairoRectangle area.x area.y area.width area.height, DrawOp.cairoClip,
                DrawOp.getRatioFromValue m.value,
                DrawOp.drawRMeter xc yc rad start stop drv, DrawOp.cairoDestroy])) := by
  constructor
  · intro hs
    rcases RadialMeter.draw_cases lib crOk m area with h | h | h | h
    · exact h.2
    · rcases hs with hs | hs <;> rw [hs] at h <;> exact absurd h.1 (by simp)
    · rcases hs with hs | hs <;> rw [hs] at h <;> exact absurd h.1 (by simp)
    · rcases hs with hs | hs <;> rw [hs] at h <;> exact absurd h.1 (by simp)
  · intro hs
    rcases RadialMeter.draw_cases lib crOk m area with h | h | h | h
    · exact absurd hs h.1
    · refine ⟨[], h.2.2, by simp, ?_⟩
      rintro ⟨op, hop, _⟩
      simp at hop
    · refine ⟨[DrawOp.cairoCreate, DrawOp.cairoDestroy], h.2.2.2, ?_, ?_⟩
      · intro op hop
        simp only [List.mem_cons, List.mem_singleton, List.not_mem_nil, or_false] at hop
        rcases hop with hop | hop <;> rw [hop] <;> rfl
      · rintro ⟨op, hop, hd⟩
        simp only [List.mem_cons, List.mem_singleton, List.not_mem_nil, or_false] at hop
        rcases hop with hop | hop <;> rw [hop] at hd <;> exact absurd hd (by simp [DrawOp.isDrawRMeter])
    · obtain ⟨_, _, _, xc, yc, rad, start, stop, drv, hd⟩ := h
      refine ⟨_, hd, ?_, fun _ => ⟨xc, yc, rad, start, stop, drv, rfl⟩⟩
      intro op hop
      simp only [List.mem_cons, List.mem_singleton, List.not_mem_nil, or_false] at hop
      rcases hop with hop | hop | hop | hop | hop | hop <;> rw [hop] <;> rfl

/-- C19: `RadialMeter::draw` guards the ratio computation. `getRatioFromValue`
is evaluated and `drawRMeter` (whose argument `drv` holds the division by
`getMax () - getMin ()`) is called only when `getHeight () >= 1`,
`getWidth () >= 1` and `getMin () < getMax ()`; with `min >= max` the operations
are at most `Widget::draw (area)`, and the meter is not drawn. -/
theorem RadialMeter.draw_guards_ratio (lib : Libm F) (crOk : Bool) (m : RadialMeter F C)
    (area : Area F) :
    ((∃ op ∈ m.draw lib crOk area, op.isRatioCall = true ∨ op.isDrawRMeter = true) →
      m.widget.height ≥ 1 ∧ m.widget.width ≥ 1 ∧ m.min < m.max)
    ∧ (m.max ≤ m.min →
      (m.draw lib crOk area = [] ∨ m.draw lib crOk area = [DrawOp.widgetDraw area])
      ∧ ∀ op ∈ m.draw lib crOk area, op.isRatioCall = false ∧ op.isDrawRMeter = false) := by
  constructor
  · rintro ⟨op, hop, hk⟩
    rcases RadialMeter.draw_cases lib crOk m area with h | h | h | h
    · rw [h.2] at hop
      simp at hop
    · rw [h.2.2] at hop
      simp only [List.mem_singleton] at hop
      rw [hop] at hk
      simp [DrawOp.isRatioCall, DrawOp.isDrawRMeter] at hk
    · exact h.2.1
    · exact h.2.1
  · intro hle
    have hng : ¬ (m.widget.height ≥ 1 ∧ m.widget.width ≥ 1 ∧ m.min < m.max) :=
      fun hg => absurd hg.2.2 (not_lt.mpr hle)
    rcases RadialMeter.draw_cases lib crOk m area with h | h | h | h
    · refine ⟨Or.inl h.2, ?_⟩
      rw [h.2]
      simp
    · refine ⟨Or.inr h.2.2, ?_⟩
      rw [h.2.2]
      intro op hop
      simp only [List.mem_singleton] at hop
      rw [hop]
      exact ⟨rfl, rfl⟩
    · exact absurd h.2.1 hng
    · exact absurd h.2.1 hng

end ClaimC18

section ClaimC20

variable {F C : Type}

/-- C20: fallback of `RadialMeter::getHiColors`. If the style of the widget holds
a colour map under the HiColors identifier, `getHiColors ()` returns it, so
`getHiColors ()` after `setHiColors (c)` returns `c`; if the identifier is not
set, or its entry is a nested style, `getHiColors ()` returns `getFgColors ()`. -/
theorem RadialMeter.getHiColors_fallback (W : WidgetMembers F C) (hiColorsUrid : Nat)
    (dflt : C) (m : RadialMeter F C) (c : C) :
    (m.widget.style.find hiColorsUrid = some (Any.colorMap c) →
      m.getHiColors W hiColorsUrid dflt = c)
    ∧ (m.setHiColors hiColorsUrid c).getHiColors W hiColorsUrid dflt = c
    ∧ (m.widget.style.find hiColorsUrid = none →
      m.getHiColors W hiColorsUrid dflt = W.getFgColors m.widget)
    ∧ (m.widget.style.find hiColorsUrid = some Any.style →
      m.getHiColors W hiColorsUrid dflt = W.getFgColors m.widget) := by
  refine ⟨?_, ?_, ?_, ?_⟩
  · intro h
    unfold RadialMeter.getHiColors
    rw [h]
    rfl
  · unfold RadialMeter.getHiColors RadialMeter.setHiColors
    simp [Style.find, Style.set, Any.isStyle, Any.getColorMap]
  · intro h
    unfold RadialMeter.getHiColors
    rw [h]
  · intro h
    unfold RadialMeter.getHiColors
    rw [h]
    rfl

end ClaimC20

/-- Witness of C18: the sample meter (valid surface, 40 by 40, range `[0, 1]`)
drawn with the clip area `(1, 2, 30, 20)`. -/
theorem RadialMeter.draw_ordering_witness :
    ∃ rest : List (DrawOp ℝ),
      (RadialMeter.sample "fg" (1 / 2 : ℝ) 0 1 0).draw (Libm.mk Real.sqrt Real.arccos Real.pi)
          true (Area.mk 1 2 30 20)
        = DrawOp.widgetDraw (Area.mk 1 2 30 20) :: rest
      ∧ (∀ op ∈ rest, op.isWidgetDraw = false) := by
  obtain ⟨rest, h1, h2, _⟩ := (RadialMeter.draw_ordering (Libm.mk Real.sqrt Real.arccos Real.pi)
    true (RadialMeter.sample "fg" (1 / 2 : ℝ) 0 1 0) (Area.mk 1 2 30 20)).2 rfl
  exact ⟨rest, h1, h2⟩

/-- Witness of C19: the sample meter with the range `[1, 1]`. -/
theorem RadialMeter.draw_guards_ratio_witness :
    (RadialMeter.sample "fg" (1 : ℝ) 1 1 0).draw (Libm.mk Real.sqrt Real.arccos Real.pi)
        true (Area.mk 1 2 30 20) = []
    ∨ (RadialMeter.sample "fg" (1 : ℝ) 1 1 0).draw (Libm.mk Real.sqrt Real.arccos Real.pi)
        true (Area.mk 1 2 30 20) = [DrawOp.widgetDraw (Area.mk 1 2 30 20)] :=
  ((RadialMeter.draw_guards_ratio (Libm.mk Real.sqrt Real.arccos Real.pi) true
    (RadialMeter.sample "fg" (1 : ℝ) 1 1 0) (Area.mk 1 2 30 20)).2 (le_refl (1 : ℝ))).1

/-- Witness of C20: the sample meter, whose style is empty, and the sample
meter after `setHiColors ("hi")`. -/
theorem RadialMeter.getHiColors_fallback_witness :
    (RadialMeter.sample "fg" (0 : ℚ) 0 1 0).getHiColors (WidgetMembers.sample "fg") 5 "none"
        = "fg"
    ∧ ((RadialMeter.sample "fg" (0 : ℚ) 0 1 0).setHiColors 5 "hi").getHiColors
        (WidgetMembers.sample "fg") 5 "none" = "hi" := by
  have h1 := RadialMeter.getHiColors_fallback (WidgetMembers.sample "fg") 5 "none"
    (RadialMeter.sample "fg" (0 : ℚ) 0 1 0) "hi"
  have h2 := RadialMeter.getHiColors_fallback (WidgetMembers.sample "fg") 5 "none"
    ((RadialMeter.sample "fg" (0 : ℚ) 0 1 0).setHiColors 5 "hi") "hi"
  exact ⟨h1.2.2.1 rfl, h2.1 (by simp [RadialMeter.setHiColors, Style.find, Style.set])⟩

/-! ## The style cascade and the block size of the meter -/

section ClaimC21

variable {F C : Type}

/-- Claim C21, as amended: `getHiColors` reads the local style store only. For a
meter linked below any chain of ancestors, a meter without a local HiColors
entry returns its `getFgColors ()`, whatever HiColors entries the ancestors
hold, and a local HiColors colour map is returned, shadowing every ancestor. -/
theorem RadialMeter.getHiColors_local_only (W : WidgetMembers F C) (hiColorsUrid : Nat)
    (dflt : C) (m : RadialMeter F C) (parents : List (Style C)) :
    (m.widget.style.find hiColorsUrid = none →
      (m.withParents parents).getHiColors W hiColorsUrid dflt
        = W.getFgColors (m.withParents parents).widget)
    ∧ (∀ c : C, m.widget.style.find hiColorsUrid = some (Any.colorMap c) →
      (m.withParents parents).getHiColors W hiColorsUrid dflt = c) := by
  refine ⟨?_, ?_⟩
  · intro h
    have h2 : (m.withParents parents).widget.style.find hiColorsUrid = none := h
    unfold RadialMeter.getHiColors
    rw [h2]
  · intro c h
    have h2 : (m.withParents parents).widget.style.find hiColorsUrid
        = some (Any.colorMap c) := h
    unfold RadialMeter.getHiColors
    rw [h2]
    rfl

end ClaimC21

/-- Counterexample to C21 as stated: the sample meter (empty local style,
foreground colours `"fg"`) below a parent without HiColors and a root whose
style holds the HiColors `"hi"`. The cascade over the ancestors resolves to
`"hi"`, and `getHiColors` returns `"fg"`. -/
theorem RadialMeter.getHiColors_ignores_ancestors :
    ((RadialMeter.sample "fg" (0 : ℚ) 0 1 0).withParents
        [fun _ => none, Style.set (fun _ => none) 5 (Any.colorMap "hi")]).widget.style.find 5
      = none
    ∧ Style.cascade
        ((RadialMeter.sample "fg" (0 : ℚ) 0 1 0).withParents
          [fun _ => none, Style.set (fun _ => none) 5 (Any.colorMap "hi")]).widget.parentStyles 5
      = some (Any.colorMap "hi")
    ∧ ((RadialMeter.sample "fg" (0 : ℚ) 0 1 0).withParents
        [fun _ => none, Style.set (fun _ => none) 5 (Any.colorMap "hi")]).getHiColors
          (WidgetMembers.sample "fg") 5 "none" = "fg"
    ∧ ((RadialMeter.sample "fg" (0 : ℚ) 0 1 0).withParents
        [fun _ => none, Style.set (fun _ => none) 5 (Any.colorMap "hi")]).getHiColors
          (WidgetMembers.sample "fg") 5 "none" ≠ "hi" := by
  refine ⟨rfl, rfl, rfl, ?_⟩
  decide

/-- Claim C26, evaluated: the sample meter of 40 by 40 (radius 20) with the range
`[0, 1000]` and step 1 is drawn, since `0 < 1000`; the step exceeds the
resolution `1 / (1.5 π 20)`, so the increment handed to `drawRMeter` is
`|1 / (1000 - 0)|`, which is smaller than that resolution. -/
theorem RadialMeter.draw_drv_below_resolution :
    (∃ start stop : ℝ,
      (RadialMeter.sample "fg" (0 : ℝ) 0 1000 1).draw (Libm.mk Real.sqrt Real.arccos Real.pi)
          true (Area.mk 0 0 40 40)
        = [DrawOp.widgetDraw (Area.mk 0 0 40 40), DrawOp.cairoCreate,
            DrawOp.cairoRectangle 0 0 40 40, DrawOp.cairoClip, DrawOp.getRatioFromValue 0,
            DrawOp.drawRMeter 20 20 20 start stop (1 / 1000), DrawOp.cairoDestroy])
    ∧ (1 / 1000 : ℝ) < 1 / ((3 / 2) * Real.pi * 20) := by
  have hpi := Real.pi_pos
  have hpi4 := Real.pi_lt_four
  have hres : (1 / 1000 : ℝ) < 1 / ((3 / 2) * Real.pi * 20) := by
    rw [div_lt_div_iff₀ (by norm_num) (by positivity)]
    nlinarith
  have hstep : |(1 : ℝ)| > 1 / ((3 / 2) * Real.pi * ((1 / 2) * 40)) := by
    rw [abs_one, gt_iff_lt, div_lt_iff₀ (by positivity)]
    nlinarith [Real.pi_gt_three]
  refine ⟨⟨0, (RadialMeter.sample "fg" (0 : ℝ) 0 1000 1).getRatioFromValue 0, ?_⟩, hres⟩
  simp only [RadialMeter.draw, RadialMeter.sample, RadialMeter.new, WidgetMembers.sample]
  rw [if_pos (by norm_num)]
  simp only [if_true, lt_irrefl, if_false]
  rw [if_pos hstep, if_pos (by norm_num)]
  norm_num

/-! ## The fill -/

section FillLemmas

variable {Col : Type}

/-- A `Fill` built by `Fill::Fill (cairo_surface_t*)` from a null pointer or
from a surface in an error state holds a null surface, and `setCairoSource`
makes no call on the context. -/
theorem Fill.ofSurface_invalid [Inhabited Col] (lib : CairoSurfaces) (surface : Option Nat)
    (h : lib.valid surface = false) :
    (Fill.ofSurface lib surface : Fill Col).surface_ = none
    ∧ (Fill.ofSurface lib surface : Fill Col).setCairoSource = [] := by
  cases surface with
  | none => exact ⟨rfl, rfl⟩
  | some a =>
    have ha : lib.status a = false := h
    simp [Fill.ofSurface, Fill.setCairoSource, ha]

/-- The operator `!=` is the negation of the operator `==`. -/
theorem Fill.ne_eq_not [DecidableEq Col] (f g : Fill Col) : f.ne g = !(f.eq g) := rfl

/-- The copy of a colour fill compares equal to its source. -/
theorem Fill.copyOf_eq_of_color [DecidableEq Col] (lib : CairoSurfaces) (f : Fill Col)
    (h : f.type_ = FillType.FILL_COLOR) : (Fill.copyOf lib f).eq f = true := by
  simp [Fill.eq, Fill.copyOf, h]

/-- The copy of an image fill compares equal to its source exactly when its
surface pointer equals that of the source. -/
theorem Fill.copyOf_eq_of_image [DecidableEq Col] (lib : CairoSurfaces) (f : Fill Col)
    (h : f.type_ = FillType.FILL_IMAGE) :
    (Fill.copyOf lib f).eq f = true ↔ (Fill.copyOf lib f).surface_ = f.surface_ := by
  simp [Fill.eq, Fill.copyOf, h]

/-- Where a clone never lies at the address of its source, the copy of a fill
whose surface is null or valid compares equal to its source exactly when the
source is a colour fill or holds no valid surface; the copy of an image fill
with a valid surface holds a surface at another address. -/
theorem Fill.copyOf_eq_iff [DecidableEq Col] (lib : CairoSurfaces) (f : Fill Col)
    (hclone : ∀ a, lib.clone a ≠ some a)
    (hf : f.surface_ = none ∨ lib.valid f.surface_ = true) :
    ((Fill.copyOf lib f).eq f = true
      ↔ (f.type_ = FillType.FILL_COLOR ∨ lib.valid f.surface_ = false))
    ∧ (f.type_ = FillType.FILL_IMAGE → lib.valid f.surface_ = true →
        (Fill.copyOf lib f).surface_ ≠ f.surface_ ∧ (Fill.copyOf lib f).eq f = false) := by
  have himg : f.type_ = FillType.FILL_IMAGE → lib.valid f.surface_ = true →
      (Fill.copyOf lib f).surface_ ≠ f.surface_ := by
    intro _ hv
    rcases hs : f.surface_ with _ | a
    · rw [hs] at hv
      exact absurd hv (by simp [CairoSurfaces.valid])
    · rw [hs] at hv
      have ha : lib.status a = true := hv
      simp only [Fill.copyOf, hs, ha, if_true]
      exact hclone a
  constructor
  · cases ht : f.type_ with
    | FILL_COLOR =>
      simp [Fill.copyOf_eq_of_color lib f ht]
    | FILL_IMAGE =>
      rw [Fill.copyOf_eq_of_image lib f ht]
      rcases hf with hn | hv
      · have h1 : (Fill.copyOf lib f).surface_ = f.surface_ := by
          simp [Fill.copyOf, hn]
        have h2 : lib.valid f.surface_ = false := by rw [hn]; rfl
        simp [h1, h2]
      · have h1 := himg ht hv
        simp [h1, hv]
  · intro ht hv
    refine ⟨himg ht hv, ?_⟩
    have h := (Fill.copyOf_eq_of_image lib f ht).not.mpr (himg ht hv)
    simpa using h

end FillLemmas

/-- Claim C22, evaluated: a `Fill` constructed from, or set to, the name of a
file that fails to load keeps the pointer that
`cairo_image_surface_create_from_png` returned, a surface in an error state,
and `setCairoSource` hands that surface to `cairo_set_source_surface`; the
constructor from a surface tests the status and makes no such call. -/
theorem Fill.setCairoSource_after_failed_load :
    (CairoSurfaces.sample.createFromPng "missing.png" = some 1
      ∧ CairoSurfaces.sample.valid (some 1) = false)
    ∧ (Fill.ofFile CairoSurfaces.sample "missing.png" : Fill String).surface_ = some 1
    ∧ (Fill.ofFile CairoSurfaces.sample "missing.png" : Fill String).setCairoSource
        = [CairoCall.setSourceSurface 1]
    ∧ ((Fill.ofColor "red").setFile CairoSurfaces.sample "missing.png").setCairoSource
        = [CairoCall.setSourceSurface 1]
    ∧ (Fill.ofSurface CairoSurfaces.sample (some 1) : Fill String).setCairoSource = []
    ∧ (∀ (lib : CairoSurfaces) (filename : String) (a : Nat),
        lib.createFromPng filename = some a →
        (Fill.ofFile lib filename : Fill String).setCairoSource
          = [CairoCall.setSourceSurface a]) := by
  refine ⟨⟨rfl, rfl⟩, rfl, rfl, rfl, rfl, ?_⟩
  intro lib filename a h
  simp [Fill.ofFile, Fill.setCairoSource, h]

section ClaimC23

variable {Col : Type}

/-- Claim C23: after `f.set (c)` the fill type is `FILL_COLOR`, the colour is `c`
and the surface is null, whatever `f` was; the fill compares equal to
`Fill (c)`; and a second `set (c)` changes nothing. -/
theorem Fill.setColor_spec [DecidableEq Col] (f : Fill Col) (c : Col) :
    (f.setColor c).type_ = FillType.FILL_COLOR
    ∧ (f.setColor c).color_ = c
    ∧ (f.setColor c).surface_ = none
    ∧ (f.setColor c).eq (Fill.ofColor c) = true
    ∧ (f.setColor c).ne (Fill.ofColor c) = false
    ∧ (f.setColor c).setColor c = f.setColor c := by
  refine ⟨rfl, rfl, rfl, ?_, ?_, rfl⟩
  · simp [Fill.eq, Fill.setColor, Fill.ofColor]
  · simp [Fill.ne, Fill.eq, Fill.setColor, Fill.ofColor]

end ClaimC23

/-- Claim C27, evaluated: the image fill constructed from the name of a file that
fails to load holds a surface in an error state, so no valid surface; its copy
holds a null surface, and compares unequal to it. -/
theorem Fill.copyOf_failed_load_unequal :
    (Fill.ofFile CairoSurfaces.sample "missing.png" : Fill String).type_ = FillType.FILL_IMAGE
    ∧ CairoSurfaces.sample.valid
        (Fill.ofFile CairoSurfaces.sample "missing.png" : Fill String).surface_ = false
    ∧ (Fill.copyOf CairoSurfaces.sample
        (Fill.ofFile CairoSurfaces.sample "missing.png" : Fill String)).surface_ = none
    ∧ (Fill.copyOf CairoSurfaces.sample
          (Fill.ofFile CairoSurfaces.sample "missing.png" : Fill String)).eq
        (Fill.ofFile CairoSurfaces.sample "missing.png") = false
    ∧ (Fill.copyOf CairoSurfaces.sample
          (Fill.ofFile CairoSurfaces.sample "missing.png" : Fill String)).ne
        (Fill.ofFile CairoSurfaces.sample "missing.png") = true := by
  refine ⟨rfl, rfl, rfl, ?_, ?_⟩ <;> decide

/-! ## The dictionary -/

/-- No string is smaller than itself. -/
theorem strLess_irrefl (a : String) : strLess a a = false := by
  simp [strLess]

/-- The order of the keys is transitive. -/
theorem strLess_trans {a b c : String} (h : strLess a b = true) (h2 : strLess b c = true) :
    strLess a c = true := by
  simp only [strLess, decide_eq_true_eq] at *
  exact lt_trans h h2

/-- The order of the keys is asymmetric. -/
theorem strLess_asymm {a b : String} (h : strLess a b = true) : strLess b a = false := by
  simp only [strLess, decide_eq_true_eq, decide_eq_false_iff_not] at *
  exact lt_asymm h

/-- Two strings neither of which is smaller than the other are equal. -/
theorem strLess_antisymm {a b : String} (h : strLess a b = false) (h2 : strLess b a = false) :
    a = b := by
  simp only [strLess, decide_eq_false_iff_not, not_lt] at *
  exact String.ext (le_antisymm h2 h)

section SMapLemmas

variable {V : Type}

/-- After `m[key] = value`, `find (key)` gives `value`. -/
theorem SMap.find_set_same (m : SMap V) (key : String) (value : V) :
    (m.set key value).find key = some value := by
  induction m with
  | nil => simp [SMap.set, SMap.find]
  | cons e rest ih =>
    obtain ⟨k, v⟩ := e
    unfold SMap.set
    split_ifs with h1 h2
    · simp [SMap.find]
    · simp [SMap.find]
    · have hne : ¬ k = key := fun h => h2 h.symm
      simp only [SMap.find, if_neg hne]
      exact ih

/-- After `m[key] = value`, `find` of another key gives what it gave before. -/
theorem SMap.find_set_other (m : SMap V) (key : String) (value : V) (other : String)
    (hne : other ≠ key) : (m.set key value).find other = m.find other := by
  have hne2 : ¬ key = other := fun h => hne h.symm
  induction m with
  | nil => simp [SMap.set, SMap.find, hne2]
  | cons e rest ih =>
    obtain ⟨k, v⟩ := e
    unfold SMap.set
    split_ifs with h1 h2
    · simp [SMap.find, hne2]
    · subst h2
      simp [SMap.find, hne2]
    · by_cases hk : k = other
      · simp [SMap.find, hk]
      · simp only [SMap.find, if_neg hk]
        exact ih

/-- An entry found is an entry of the map. -/
theorem SMap.mem_of_find {m : SMap V} {key : String} {value : V}
    (h : m.find key = some value) : (key, value) ∈ m := by
  induction m with
  | nil => simp [SMap.find] at h
  | cons e rest ih =>
    obtain ⟨k, v⟩ := e
    unfold SMap.find at h
    split_ifs at h with hk
    · subst hk
      cases h
      exact List.mem_cons_self _ _
    · exact List.mem_cons_of_mem _ (ih h)

/-- In a map with ascending keys, the key of the first entry is smaller than
the key of every later entry. -/
theorem SMap.head_less_of_isOrdered {e : String × V} {rest : SMap V}
    (h : SMap.isOrdered (e :: rest) = true) :
    SMap.isOrdered rest = true ∧ ∀ x ∈ rest, strLess e.1 x.1 = true := by
  induction rest generalizing e with
  | nil => exact ⟨rfl, by simp⟩
  | cons b rest ih =>
    simp only [SMap.isOrdered, Bool.and_eq_true] at h
    obtain ⟨hab, hrest⟩ := h
    refine ⟨hrest, ?_⟩
    intro x hx
    rcases List.mem_cons.mp hx with hxb | hxr
    · rw [hxb]
      exact hab
    · exact strLess_trans hab ((ih hrest).2 x hxr)

end SMapLemmas

/-- The loop finds the first key in ascending order: in a map with ascending
keys, the loop returns the translation of the first key that starts with
`pre`. -/
theorem Dictionary.firstStartingWith_of_first {inner : SMap String} {pre key t : String}
    (hord : SMap.isOrdered inner = true) (h : Dictionary.IsFirstKeyWith inner pre key t) :
    Dictionary.firstStartingWith inner pre = some t := by
  induction inner with
  | nil =>
    obtain ⟨hf, _, _⟩ := h
    simp [SMap.find] at hf
  | cons e rest ih =>
    obtain ⟨k, v⟩ := e
    obtain ⟨hf, hs, hmin⟩ := h
    obtain ⟨hrest, hhead⟩ := SMap.head_less_of_isOrdered hord
    unfold Dictionary.firstStartingWith
    by_cases hk : startsWith k pre = true
    · rw [if_pos hk]
      have hk1 : strLess k key = false := hmin k v (by simp [SMap.find]) hk
      by_cases hkk : k = key
      · subst hkk
        simp only [SMap.find, if_true] at hf
        exact hf
      · exfalso
        simp only [SMap.find, if_neg hkk] at hf
        have hlt : strLess k key = true := hhead (key, t) (SMap.mem_of_find hf)
        rw [hk1] at hlt
        exact Bool.noConfusion hlt
    · rw [if_neg hk]
      have hkk : ¬ k = key := by
        intro hkk
        rw [hkk] at hk
        exact hk hs
      apply ih hrest
      refine ⟨?_, hs, ?_⟩
      · simpa only [SMap.find, if_neg hkk] using hf
      · intro k2 t2 hf2 hs2
        apply hmin k2 t2 _ hs2
        have hk2 : ¬ k = k2 := by
          intro hk2
          rw [hk2] at hk
          exact hk hs2
        simpa only [SMap.find, if_neg hk2] using hf2

/-- The loop ends without a `break` when no key starts with `pre`. -/
theorem Dictionary.firstStartingWith_of_none {inner : SMap String} {pre : String}
    (h : Dictionary.NoKeyWith inner pre) : Dictionary.firstStartingWith inner pre = none := by
  induction inner with
  | nil => rfl
  | cons e rest ih =>
    obtain ⟨k, v⟩ := e
    unfold Dictionary.firstStartingWith
    have hk : startsWith k pre = false := h k v (by simp [SMap.find])
    rw [hk]
    simp only [Bool.false_eq_true, if_false]
    apply ih
    intro k2 t2 hf2
    by_cases hk2 : k = k2
    · rw [← hk2]
      exact hk
    · apply h k2 t2
      simpa only [SMap.find, if_neg hk2] using hf2

/-- The map of a word in an ordered dictionary has ascending keys. -/
theorem Dictionary.inner_isOrdered {d : Dictionary} {word : String} {inner : SMap String}
    (hord : d.isOrdered = true) (h : d.map_.find word = some inner) :
    SMap.isOrdered inner = true := by
  simp only [Dictionary.isOrdered, Bool.and_eq_true, List.all_eq_true] at hord
  exact hord.2 (word, inner) (SMap.mem_of_find h)

/-- Of two different strings, one is smaller than the other. -/
theorem strLess_of_not {a b : String} (h : strLess a b = false) (hne : a ≠ b) :
    strLess b a = true := by
  cases hb : strLess b a with
  | true => rfl
  | false => exact absurd (strLess_antisymm h hb) hne

section SMapOrder

variable {V : Type}

/-- A map has ascending keys when its tail has and the key of its first entry
is smaller than every key of the tail. -/
theorem SMap.isOrdered_cons {e : String × V} {rest : SMap V}
    (hrest : SMap.isOrdered rest = true) (hhead : ∀ x ∈ rest, strLess e.1 x.1 = true) :
    SMap.isOrdered (e :: rest) = true := by
  cases rest with
  | nil => rfl
  | cons b r =>
    simp only [SMap.isOrdered, Bool.and_eq_true]
    exact ⟨hhead b (List.mem_cons_self _ _), hrest⟩

/-- The entries after `m[key] = value` are the new entry and entries of `m`. -/
theorem SMap.mem_set {m : SMap V} {key : String} {value : V} {x : String × V}
    (h : x ∈ m.set key value) : x = (key, value) ∨ x ∈ m := by
  induction m with
  | nil =>
    simp only [SMap.set, List.mem_singleton] at h
    exact Or.inl h
  | cons e rest ih =>
    obtain ⟨k, v⟩ := e
    unfold SMap.set at h
    split_ifs at h with h1 h2
    · rcases List.mem_cons.mp h with hx | hx
      · exact Or.inl hx
      · exact Or.inr hx
    · rcases List.mem_cons.mp h with hx | hx
      · exact Or.inl hx
      · exact Or.inr (List.mem_cons_of_mem _ hx)
    · rcases List.mem_cons.mp h with hx | hx
      · rw [hx]
        exact Or.inr (List.mem_cons_self _ _)
      · rcases ih hx with hy | hy
        · exact Or.inl hy
        · exact Or.inr (List.mem_cons_of_mem _ hy)

/-- The assignment `m[key] = value` keeps the keys ascending. -/
theorem SMap.set_isOrdered (m : SMap V) (key : String) (value : V)
    (h : SMap.isOrdered m = true) : SMap.isOrdered (m.set key value) = true := by
  induction m with
  | nil => rfl
  | cons e rest ih =>
    obtain ⟨k, v⟩ := e
    obtain ⟨hrest, hhead⟩ := SMap.head_less_of_isOrdered h
    unfold SMap.set
    split_ifs with h1 h2
    · apply SMap.isOrdered_cons h
      intro x hx
      rcases List.mem_cons.mp hx with hxe | hxr
      · rw [hxe]
        exact h1
      · exact strLess_trans h1 (hhead x hxr)
    · apply SMap.isOrdered_cons hrest
      intro x hx
      rw [h2]
      exact hhead x hx
    · apply SMap.isOrdered_cons (ih hrest)
      intro x hx
      rcases SMap.mem_set hx with hxe | hxr
      · rw [hxe]
        exact strLess_of_not (Bool.eq_false_iff.mpr h1) h2
      · exact hhead x hxr

end SMapOrder

/-- The member `add` keeps the maps of the dictionary in ascending key order. -/
theorem Dictionary.add_isOrdered (d : Dictionary) (word language translation : String)
    (h : d.isOrdered = true) : (d.add word language translation).isOrdered = true := by
  simp only [Dictionary.isOrdered, Bool.and_eq_true, List.all_eq_true] at h ⊢
  obtain ⟨houter, hinner⟩ := h
  refine ⟨SMap.set_isOrdered _ _ _ houter, ?_⟩
  intro x hx
  rcases SMap.mem_set hx with hxe | hxr
  · rw [hxe]
    apply SMap.set_isOrdered
    cases hf : d.map_.find word with
    | none => rfl
    | some inner => exact hinner (word, inner) (SMap.mem_of_find hf)
  · exact hinner x hxr

/-- Claim C24: the fallback order of `Dictionary::get` without an external
catalogue, on a dictionary whose maps have ascending keys. A word without an
entry is returned itself. For a word with the entry `inner`: a non-empty
translation under the exact language is returned; otherwise the translation of
the first key, in ascending order, that starts with the text of the language
before the first `'.'`, when it is not empty; otherwise that of the first key
that starts with the text before the first `'_'`, when it is not empty;
otherwise the word itself. -/
theorem Dictionary.get_fallback_order (facet : String → String → String → Option String)
    (d : Dictionary) (word : String) (hcat : d.catalog_ = "") (hord : d.isOrdered = true) :
    (d.map_.find word = none → d.get facet word = word)
    ∧ ∀ inner, d.map_.find word = some inner →
      (∀ t, inner.find d.lang_ = some t → t ≠ "" → d.get facet word = t)
      ∧ ((inner.find d.lang_ = none ∨ inner.find d.lang_ = some "") →
        (∀ k t, Dictionary.IsFirstKeyWith inner (substrBefore d.lang_ '.') k t → t ≠ "" →
          d.get facet word = t)
        ∧ ((Dictionary.NoKeyWith inner (substrBefore d.lang_ '.')
            ∨ ∃ k, Dictionary.IsFirstKeyWith inner (substrBefore d.lang_ '.') k "") →
          (∀ k t, Dictionary.IsFirstKeyWith inner (substrBefore d.lang_ '_') k t → t ≠ "" →
            d.get facet word = t)
          ∧ ((Dictionary.NoKeyWith inner (substrBefore d.lang_ '_')
              ∨ ∃ k, Dictionary.IsFirstKeyWith inner (substrBefore d.lang_ '_') k "") →
            d.get facet word = word))) := by
  refine ⟨?_, ?_⟩
  · intro h
    simp [Dictionary.get, h, hcat]
  · intro inner h
    have hi := Dictionary.inner_isOrdered hord h
    refine ⟨?_, ?_⟩
    · intro t ht hne
      simp [Dictionary.get, h, ht, hne]
    · intro hfull
      have hfull2 : (match inner.find d.lang_ with
          | some t => t
          | none => "") = "" := by
        rcases hfull with hf | hf <;> rw [hf]
      refine ⟨?_, ?_⟩
      · intro k t hk hne
        have h1 := Dictionary.firstStartingWith_of_first hi hk
        simp [Dictionary.get, h, hfull2, h1, hne]
      · intro hterr
        have hterr2 : (match Dictionary.firstStartingWith inner (substrBefore d.lang_ '.') with
            | some t => t
            | none => "") = "" := by
          rcases hterr with hn | ⟨k, hk⟩
          · rw [Dictionary.firstStartingWith_of_none hn]
          · rw [Dictionary.firstStartingWith_of_first hi hk]
        refine ⟨?_, ?_⟩
        · intro k t hk hne
          have h1 := Dictionary.firstStartingWith_of_first hi hk
          simp [Dictionary.get, h, hfull2, hterr2, h1, hne]
        · intro hlang
          have hlang2 : (match Dictionary.firstStartingWith inner (substrBefore d.lang_ '_') with
              | some t => t
              | none => "") = "" := by
            rcases hlang with hn | ⟨k, hk⟩
            · rw [Dictionary.firstStartingWith_of_none hn]
            · rw [Dictionary.firstStartingWith_of_first hi hk]
          simp [Dictionary.get, h, hfull2, hterr2, hlang2, hcat]

/-- Claim C25: after `add (w, l, t)` with a non-empty `t` and `setLanguage (l)`,
`get (w)` returns `t`; the translation stored for `(w, l)` is `t`, also after an
earlier `add (w, l, t0)`; the translation stored for any other pair of a word
and a language is unchanged; and `add (w, list)` is the same as adding the
pairs of the list one by one, in order. -/
theorem Dictionary.add_get_round_trip (facet : String → String → String → Option String)
    (d : Dictionary) (w l t : String) :
    (t ≠ "" → ((d.add w l t).setLanguage l).get facet w = t)
    ∧ (d.add w l t).stored w l = some t
    ∧ (∀ t0, ((d.add w l t0).add w l t).stored w l = some t)
    ∧ (∀ t0, t ≠ "" → (((d.add w l t0).add w l t).setLanguage l).get facet w = t)
    ∧ (∀ w2 l2, (w2, l2) ≠ (w, l) → (d.add w l t).stored w2 l2 = d.stored w2 l2)
    ∧ (∀ list : List (String × String),
        d.addList w list = list.foldl (fun acc p => acc.add w p.1 p.2) d) := by
  have hstored : ∀ (d : Dictionary), (d.add w l t).stored w l = some t := by
    intro d
    simp [Dictionary.stored, Dictionary.add, Dictionary.store, SMap.find_set_same]
  have hget : ∀ (d : Dictionary), t ≠ "" → ((d.add w l t).setLanguage l).get facet w = t := by
    intro d hne
    simp [Dictionary.get, Dictionary.setLanguage, Dictionary.add, Dictionary.store,
      SMap.find_set_same, hne]
  refine ⟨hget d, hstored d, fun t0 => hstored _, fun t0 => hget _, ?_, ?_⟩
  · intro w2 l2 hne
    by_cases hw : w2 = w
    · subst hw
      have hl : l2 ≠ l := by
        intro hl
        exact hne (by rw [hl])
      simp only [Dictionary.stored, Dictionary.add, Dictionary.store, SMap.find_set_same]
      rw [SMap.find_set_other _ _ _ _ hl]
      cases d.map_.find w2 <;> rfl
    · simp only [Dictionary.stored, Dictionary.add, Dictionary.store]
      rw [SMap.find_set_other _ _ _ _ hw]
  · intro list
    induction list generalizing d with
    | nil => rfl
    | cons p rest ih =>
      rw [List.foldl_cons, ← ih (d.add w p.1 p.2)]
      rfl

/-- Witness of C24: the sample dictionary with the language `"en_AU.UTF-8"`. The
word `"Hello"` has the keys `"de_DE"`, `"en_GB"`, `"en_US"` and `"fr_FR"`: none
is the language nor starts with `"en_AU"`, and the first that starts with `"en"`
is `"en_GB"`. -/
theorem Dictionary.get_fallback_order_witness :
    (Dictionary.sample "en_AU.UTF-8").catalog_ = ""
    ∧ (Dictionary.sample "en_AU.UTF-8").isOrdered = true
    ∧ (Dictionary.sample "en_AU.UTF-8").get Dictionary.noFacet "Hello" = "Hello!"
    ∧ (Dictionary.sample "en_AU.UTF-8").get Dictionary.noFacet "Bye" = "Bye" := by
  have h := Dictionary.get_fallback_order Dictionary.noFacet (Dictionary.sample "en_AU.UTF-8")
    "Hello" rfl (by decide)
  have h2 := Dictionary.get_fallback_order Dictionary.noFacet (Dictionary.sample "en_AU.UTF-8")
    "Bye" rfl (by decide)
  refine ⟨rfl, by decide, ?_, h2.1 (by decide)⟩
  have hkeys : ∀ (k t : String),
      SMap.find [("de_DE", "Hallo"), ("en_GB", "Hello!"), ("en_US", "Hi"), ("fr_FR", "")] k
        = some t →
      k = "de_DE" ∨ k = "en_GB" ∨ k = "en_US" ∨ k = "fr_FR" := by
    intro k t hf
    simp only [SMap.find] at hf
    split_ifs at hf with h1 h2 h3 h4
    · exact Or.inl h1.symm
    · exact Or.inr (Or.inl h2.symm)
    · exact Or.inr (Or.inr (Or.inl h3.symm))
    · exact Or.inr (Or.inr (Or.inr h4.symm))
  refine (((h.2 [("de_DE", "Hallo"), ("en_GB", "Hello!"), ("en_US", "Hi"), ("fr_FR", "")]
    (by decide)).2 (Or.inl (by decide))).2 (Or.inl ?_)).1 "en_GB" "Hello!" ⟨by decide, by decide, ?_⟩
    (by decide)
  · intro k t hf
    rcases hkeys k t hf with hk | hk | hk | hk <;> rw [hk] <;> decide
  · intro k t hf hs
    rcases hkeys k t hf with hk | hk | hk | hk <;> subst hk <;>
      first
      | decide
      | exact absurd hs (by decide)

end BWidgets
